import Mathlib

/-!
# PlanetGenerator: the cube-sphere surface `PSphere`

A shallow embedding of `src/PSphere.cpp` (with `src/PSphere.h` and
`src/ObjectInfo.cpp`) and theorems about it.

Conventions of the embedding

* `Ogre::Real` / `float` values are elements of a linearly ordered field `α`
  with a floor function: arithmetic is exact (no rounding, no overflow to
  infinity, no NaN).  Every definition is computable and can be run at `α := ℚ`;
  every theorem holds for `ℚ` and for `ℝ` alike.
* Where the source derives a whole number from `float` values and the last bit
  of a `float` operation can change it (the cell indices of `getGridLocation`,
  the slot at which the scan of `calculateSeaLevel` stops), the function is
  given a second time, as `getGridLocationFloat` and `calculateSeaLevelFloat`,
  with every `float` operation followed by a rounding `fl`; `roundFloat` is the
  rounding of IEEE 754 single precision.
* `Ogre::Math::Sqrt` is not a field operation; the functions that need it take
  it as the parameter `sqrt`.
* The six `Grid*` pointers of a `PSphere` are compared by identity in the source;
  the embedding names them by the tag `Face`.
* Scene-graph calls (`createEntity`, `createChildSceneNode`, `attachObject`, ...)
  have no effect on the state that is modelled and are left out.
-/

namespace PlanetGenerator

/-! ## Data model -/

/-- The three components of an `Ogre::Vector3`. -/
structure Vector3 (α : Type) where
  x : α
  y : α
  z : α
deriving DecidableEq

/-- The six grids of a `PSphere`, named as the members `gridYP`, `gridXM`, `gridYM`,
`gridXP`, `gridZP`, `gridZM` of `PSphere.h`. -/
inductive Face where
  | gridYP
  | gridXM
  | gridYM
  | gridXP
  | gridZP
  | gridZM
deriving DecidableEq, Repr

/-- Modelled from the spec: the class `Grid` (`Grid.h`, `Grid.cpp`) is not among the
sources.  Following the spec's FaceGrid, a grid is its size `N`, an `N × N` land mask
(read by `getValue`, written by `setValue`) and the projection of a cell to a point of
the sphere, which stays abstract. -/
structure Grid (α : Type) where
  size : Nat
  value : Nat → Nat → Nat
  projectToSphere : Nat → Nat → Vector3 α

/-- The pair of name and position kept by `ObjectInfo` (`ObjectInfo.cpp`); the scene
node is not modelled. -/
structure ObjectInfo (α : Type) where
  position : Vector3 α
  name : String

/-- The part of `ResourceParameter` read by the functions below. -/
structure ResourceParameter (α : Type) where
  amplitude : List α
  frequency : List α
  waterFraction : α
  radius : α

/-- The members of `PSphere` (`PSphere.h`, lines 131-155) that the modelled functions
read or write. -/
structure PSphere (α : Type) where
  seaHeight : α
  observer : Vector3 α
  gridYP : Grid α
  gridXM : Grid α
  gridYM : Grid α
  gridXP : Grid α
  gridZP : Grid α
  gridZM : Grid α
  RParameter : ResourceParameter α
  randomTranslate : Vector3 α
  objects : List (ObjectInfo α)
  radius : α
  maximumHeight : α
  minimumHeight : α

section Model

variable {α : Type} [LinearOrderedField α]

/-! ## Vector operations of `Ogre::Vector3` -/

/-- `Vector3::operator+`. -/
def Vector3.add (a b : Vector3 α) : Vector3 α :=
  ⟨a.x + b.x, a.y + b.y, a.z + b.z⟩

/-- `Vector3::operator*` with a scalar. -/
def Vector3.scale (a : Vector3 α) (s : α) : Vector3 α :=
  ⟨a.x * s, a.y * s, a.z * s⟩

/-- `Vector3::length` of the Ogre library: `Math::Sqrt(x * x + y * y + z * z)`. -/
def Vector3.length (sqrt : α → α) (a : Vector3 α) : α :=
  sqrt (a.x * a.x + a.y * a.y + a.z * a.z)

/-- `Vector3::normalisedCopy` of the Ogre library (`OgreVector3.h`, not part of the
repository): the vector times `1 / length` when the length is positive, the vector
itself otherwise. -/
def Vector3.normalisedCopy (sqrt : α → α) (a : Vector3 α) : Vector3 α :=
  let fLength := a.length sqrt
  if fLength > 0 then a.scale (1 / fLength) else a

/-- The grid a tag stands for. -/
def PSphere.grid (p : PSphere α) : Face → Grid α
  | Face.gridYP => p.gridYP
  | Face.gridXM => p.gridXM
  | Face.gridYM => p.gridYM
  | Face.gridXP => p.gridXP
  | Face.gridZP => p.gridZP
  | Face.gridZM => p.gridZM

/-- `Grid::getValue`. -/
def Grid.getValue (g : Grid α) (x y : Nat) : Nat :=
  g.value x y

/-- `Grid::setValue`: writes one cell of the land mask and no other. -/
def Grid.setValue (g : Grid α) (x y v : Nat) : Grid α :=
  { g with value := fun a b => if a = x ∧ b = y then v else g.value a b }

/-! ## `PSphere::getGridLocation` (PSphere.cpp, lines 674-766) -/

/-- The conversion `(unsigned short)(e)` of a real expression: truncation towards
zero, kept modulo `2^16`. -/
def toUShort [FloorRing α] (v : α) : Nat :=
  Int.toNat ((if 0 ≤ v then Int.floor v else Int.ceil v) % 65536)

/-- Lines 680-699: the three tests compare the absolute values taken before any
component is changed; `location.y` is shortened when `x == y`, `location.z` when
`x == z` and again when `y == z`. -/
def breakTies (location : Vector3 α) : Vector3 α :=
  let x := |location.x|
  let y := |location.y|
  let z := |location.z|
  let location := if x = y then { location with y := location.y * (9999 / 10000) } else location
  let location := if x = z then { location with z := location.z * (9999 / 10000) } else location
  let location := if y = z then { location with z := location.z * (9999 / 10000) } else location
  location

/-- Lines 760-761: `(unsigned short)((1.0f + f) / 2.0f * grid->getSize())`. -/
def cellIndex [FloorRing α] (f : α) (size : Nat) : Nat :=
  toUShort ((1 + f) / 2 * (size : α))

/-- `PSphere::getGridLocation`: `none` is the return value `false`; `some (face, ix, iy)`
is the return value `true` with the three outputs. -/
def getGridLocation [FloorRing α] (p : PSphere α) (location : Vector3 α) : Option (Face × Nat × Nat) :=
  let location := breakTies location
  let x := |location.x|
  let y := |location.y|
  let z := |location.z|
  if x > y ∧ x > z then
    let location := location.scale (1 / x)
    let y_f := location.z
    if location.x < 0 then
      let x_f := -location.y
      some (Face.gridXM, cellIndex x_f p.gridXM.size, cellIndex y_f p.gridXM.size)
    else
      let x_f := location.y
      some (Face.gridXP, cellIndex x_f p.gridXP.size, cellIndex y_f p.gridXP.size)
  else if y > x ∧ y > z then
    let location := location.scale (1 / y)
    let y_f := location.z
    if location.y < 0 then
      let x_f := location.x
      some (Face.gridYM, cellIndex x_f p.gridYM.size, cellIndex y_f p.gridYM.size)
    else
      let x_f := -location.x
      some (Face.gridYP, cellIndex x_f p.gridYP.size, cellIndex y_f p.gridYP.size)
  else if z > x ∧ z > y then
    let location := location.scale (1 / z)
    let x_f := -location.x
    if location.z < 0 then
      let y_f := location.y
      some (Face.gridZM, cellIndex x_f p.gridZM.size, cellIndex y_f p.gridZM.size)
    else
      let y_f := -location.y
      some (Face.gridZP, cellIndex x_f p.gridZP.size, cellIndex y_f p.gridZP.size)
  else
    none

/-! ## `PSphere::checkAccessibility` (PSphere.cpp, lines 768-801) -/

/-- The loop of lines 777-789 over the registered objects, for the cell `(ix, iy)` of
`grid`: `true` when the loop leaves the function with `return false`, either because
an object does not locate or because it locates to the same grid and cell. -/
def objectLoopReturnsFalse [FloorRing α] (p : PSphere α) (grid : Face) (ix iy : Nat) :
    List (ObjectInfo α) → Bool
  | [] => false
  | obj :: rest =>
    match getGridLocation p obj.position with
    | none => true
    | some (gridObj, Obj_x, Obj_y) =>
      if grid = gridObj ∧ ix = Obj_x ∧ iy = Obj_y then true
      else objectLoopReturnsFalse p grid ix iy rest

/-- `PSphere::checkAccessibility`. -/
def checkAccessibility [FloorRing α] (p : PSphere α) (location : Vector3 α) : Bool :=
  match getGridLocation p location with
  | some (grid, ix, iy) =>
    if objectLoopReturnsFalse p grid ix iy p.objects then false
    else if (p.grid grid).getValue ix iy ≠ 0 then true
    else false
  | none => false

/-! ## `PSphere::calculateSeaLevel` (PSphere.cpp, lines 192-246) -/

/-- Number of vectors to get height statistics. -/
@[irreducible]
def TESTVECS : Nat := 40000

/-- Number of histogram slots between the minimal and the maximal height. -/
def BRACKETS : Nat := 100

/-- Lines 203-219, the running minimum `minElev`, started at `1e6f`. -/
def minElevOf (testHeight : List α) : α :=
  testHeight.foldl (fun minElev h => if minElev > h then h else minElev) 1000000

/-- Lines 204-219, the running maximum `maxElev`, started at `-1e6f`. -/
def maxElevOf (testHeight : List α) : α :=
  testHeight.foldl (fun maxElev h => if maxElev < h then h else maxElev) (-1000000)

/-- The conversion `static_cast<unsigned int>(e)` of a real expression: truncation
towards zero, kept modulo `2^32`. -/
def toUInt [FloorRing α] (v : α) : Nat :=
  Int.toNat ((if 0 ≤ v then Int.floor v else Int.ceil v) % 4294967296)

/-- Line 221: `mult = static_cast<float>(BRACKETS-1) + 0.5f`. -/
def mult : α :=
  ((BRACKETS - 1 : Nat) : α) + 1 / 2

/-- Lines 226-227: the histogram slot of one test height. -/
def slotOf [FloorRing α] (minElev maxElev h : α) : Nat :=
  toUInt ((h - minElev) / (maxElev - minElev) * mult)

/-- Lines 224-232: the histogram is filled height by height; `none` when the assertion
`slot < BRACKETS` fails. -/
def fillHistogram [FloorRing α] (minElev maxElev : α) : List α → List Nat → Option (List Nat)
  | [], histogram => some histogram
  | h :: rest, histogram =>
    let slot := slotOf minElev maxElev h
    if slot < BRACKETS then
      fillHistogram minElev maxElev rest (histogram.set slot (histogram.getD slot 0 + 1))
    else none

/-- Lines 236-241: `scanSlots histogram threshold n i accumulator` runs the remaining
`n` rounds of the loop from index `i` and returns the value of `i` after the loop: the
index at which it breaks, or `i + n` when it never breaks. -/
def scanSlots (histogram : List Nat) (threshold : α) : Nat → Nat → Nat → Nat
  | 0, i, _ => i
  | n + 1, i, accumulator =>
    let accumulator := accumulator + histogram.getD i 0
    if (accumulator : α) > threshold then i
    else scanSlots histogram threshold n (i + 1) accumulator

/-- The sum of the `n` slots of the histogram from index `i` on: the counts that the
loop of lines 236-241 still has to add when it is at index `i` with `n` rounds left. -/
def slotSum (histogram : List Nat) (i n : Nat) : Nat :=
  ((List.range n).map (fun k => histogram.getD (i + k) 0)).sum

/-- Lines 243-244: the elevation of slot `i`. -/
def seaHeightOf (i : Nat) (minElev maxElev : α) : α :=
  (i : α) / ((BRACKETS - 1 : Nat) : α) * (maxElev - minElev) + minElev

/-- Lines 208-214: the `TESTVECS` test heights.  `testVec i` is the `i`-th normalised
random vector (the calls of `rand` are not modelled). -/
def testHeights (heightNoise : List α → List α → Vector3 α → α) (testVec : Nat → Vector3 α)
    (p : PSphere α) : List α :=
  (List.range TESTVECS).map
    (fun i => heightNoise p.RParameter.amplitude p.RParameter.frequency
      ((testVec i).add p.randomTranslate))

/-- `PSphere::calculateSeaLevel`, called as in `create` with the members
`minimumHeight` and `maximumHeight` for `minElev` and `maxElev`.  The result is `none`
when the assertion of line 230 fails. -/
def calculateSeaLevel [FloorRing α] (heightNoise : List α → List α → Vector3 α → α)
    (testVec : Nat → Vector3 α) (p : PSphere α) (seaFraction : α) : Option (PSphere α) :=
  let testHeight := testHeights heightNoise testVec p
  let minElev := minElevOf testHeight
  let maxElev := maxElevOf testHeight
  match fillHistogram minElev maxElev testHeight (List.replicate BRACKETS 0) with
  | none => none
  | some histogram =>
    let i := scanSlots histogram ((TESTVECS : α) * seaFraction) BRACKETS 0 0
    some { p with
      minimumHeight := minElev
      maximumHeight := maxElev
      seaHeight := seaHeightOf i minElev maxElev }

/-! ## `PSphere::setGridLandInfo` (PSphere.cpp, lines 318-340) -/

/-- The body of the inner loop, lines 331-337, for the cell `(x, y)`. -/
def setCellLandInfo (heightNoise : List α → List α → Vector3 α → α) (p : PSphere α)
    (grid : Grid α) (x y : Nat) : Grid α :=
  let spherePos := grid.projectToSphere x y
  let height := heightNoise p.RParameter.amplitude p.RParameter.frequency
    (spherePos.add p.randomTranslate)
  if height > p.seaHeight then grid.setValue x y 1 else grid.setValue x y 0

/-- `PSphere::setGridLandInfo`: both loops run over `0 .. getSize()-1`; the grid that the
pointer refers to is returned. -/
def setGridLandInfo (heightNoise : List α → List α → Vector3 α → α) (p : PSphere α)
    (grid : Grid α) : Grid α :=
  (List.range grid.size).foldl
    (fun g x => (List.range grid.size).foldl (fun g y => setCellLandInfo heightNoise p g x y) g)
    grid

/-! ## `getSurfaceHeight` and `getObserverDistanceToSurface` (lines 396-437) -/

/-- `PSphere::getSurfaceHeight`. -/
def getSurfaceHeight (sqrt : α → α) (heightNoise : List α → List α → Vector3 α → α)
    (p : PSphere α) (Position : Vector3 α) : α :=
  let direction := Position.normalisedCopy sqrt
  let height := heightNoise p.RParameter.amplitude p.RParameter.frequency
    (direction.add p.randomTranslate)
  let surfacePos := direction.scale (height * p.radius + p.radius)
  surfacePos.length sqrt

/-- `PSphere::getObserverDistanceToSurface`; `fabsf` is the absolute value. -/
def getObserverDistanceToSurface (sqrt : α → α)
    (heightNoise : List α → List α → Vector3 α → α) (p : PSphere α) : α :=
  let direction := p.observer.normalisedCopy sqrt
  let height := heightNoise p.RParameter.amplitude p.RParameter.frequency
    (direction.add p.randomTranslate)
  let surfacePos := direction.scale (height * p.radius + p.radius)
  let distance := |p.observer.length sqrt| - |surfacePos.length sqrt|
  distance

/-- What the functions above need of `Ogre::Math::Sqrt`: on a non-negative argument the
result is non-negative and its square is the argument. -/
def IsSqrt (sqrt : α → α) : Prop :=
  ∀ a : α, 0 ≤ a → 0 ≤ sqrt a ∧ sqrt a * sqrt a = a

/-! ## Placement of objects (PSphere.cpp, lines 507-638) -/

/-- `PSphere::checkIfObjectIsIn`. -/
def checkIfObjectIsIn (objects : List (ObjectInfo α)) (objectName : String) : Bool :=
  match objects with
  | [] => false
  | objTemp :: rest =>
    if objTemp.name = objectName then true else checkIfObjectIsIn rest objectName

/-- `newName.substr(0, newName.find("."))`: the name up to its first `'.'`, the whole
name when it has none. -/
def nameWithoutFormat (newName : String) : String :=
  ⟨newName.data.takeWhile (fun c => c ≠ '.')⟩

/-- The `while` loop of lines 527-535, 556-564 and 610-617, with the state
`(temp_int, finalName)`.  Each round costs one unit of `fuel`; `none` means that the
fuel ran out before the loop ended.  The counter `temp_int` is a natural number; at
the exit of the loop it is at most the number of registered objects, far below the
range of `int`. -/
def findFreeName (objects : List (ObjectInfo α)) (base : String) :
    Nat → Nat → String → Option (Nat × String)
  | 0, _, _ => none
  | fuel + 1, temp_int, finalName =>
    if checkIfObjectIsIn objects finalName then
      let temp_int := temp_int + 1
      let result := toString temp_int
      findFreeName objects base fuel temp_int (base ++ result)
    else some (temp_int, finalName)

/-- Lines 548-564 (and 519-535, 604-617): the name under which a placement registers
its object. -/
def finalNameOf (fuel : Nat) (objects : List (ObjectInfo α)) (newName : String) :
    Option String :=
  (findFreeName objects (nameWithoutFormat newName) fuel 0 (nameWithoutFormat newName)).map
    Prod.snd

/-- `PSphere::attachMeshSphereCoord` with an object name (lines 547-574). -/
def attachMeshSphereCoord (fuel : Nat) (p : PSphere α) (objectName : String) (x y z : α) :
    Option (PSphere α) :=
  match finalNameOf fuel p.objects objectName with
  | none => none
  | some finalName =>
    let position : Vector3 α := ⟨x, y, z⟩
    some { p with objects := p.objects ++ [⟨position, finalName⟩] }

/-- `PSphere::attachMeshSphereCoord` without an object name (lines 518-545): the mesh
name takes its place. -/
def attachMeshSphereCoordMesh (fuel : Nat) (p : PSphere α) (meshName : String) (x y z : α) :
    Option (PSphere α) :=
  match finalNameOf fuel p.objects meshName with
  | none => none
  | some finalName =>
    let position : Vector3 α := ⟨x, y, z⟩
    some { p with objects := p.objects ++ [⟨position, finalName⟩] }

/-- `PSphere::attachMesh` with an object name (lines 576-585).
`convertSphericalToCartesian` (`Common.h`) is a parameter. -/
def attachMesh (convertSphericalToCartesian : α → α → Vector3 α) (fuel : Nat) (p : PSphere α)
    (objectName : String) (latitude longitude dist : α) : Option (PSphere α) :=
  let dist := if dist = 0 then p.radius else dist
  let cart_coord := convertSphericalToCartesian latitude longitude
  let x := dist * 2 * cart_coord.x
  let y := dist * 2 * cart_coord.y
  let z := dist * 2 * cart_coord.z
  attachMeshSphereCoord fuel p objectName x y z

/-- `PSphere::attachMesh` without an object name (lines 587-596); `1.2` is `6 / 5`, and
`dist` is assigned but not read. -/
def attachMeshMesh (convertSphericalToCartesian : α → α → Vector3 α) (fuel : Nat)
    (p : PSphere α) (meshName : String) (latitude longitude dist : α) : Option (PSphere α) :=
  let _dist := if dist = 0 then p.radius else dist
  let cart_coord := convertSphericalToCartesian latitude longitude
  let x := p.radius * (6 / 5) * cart_coord.x
  let y := p.radius * (6 / 5) * cart_coord.y
  let z := p.radius * (6 / 5) * cart_coord.z
  attachMeshSphereCoordMesh fuel p meshName x y z

/-- `PSphere::attachMeshOnGround` (lines 598-638). -/
def attachMeshOnGround (sqrt : α → α) (heightNoise : List α → List α → Vector3 α → α)
    (convertSphericalToCartesian : α → α → Vector3 α) (fuel : Nat) (p : PSphere α)
    (objectName : String) (latitude longitude : α) : Option (PSphere α) :=
  let cart_coord := convertSphericalToCartesian latitude longitude
  let x := p.radius * cart_coord.x
  let y := p.radius * cart_coord.y
  let z := p.radius * cart_coord.z
  match finalNameOf fuel p.objects objectName with
  | none => none
  | some finalName =>
    let position : Vector3 α := ⟨x, y, z⟩
    let surfaceHeight := getSurfaceHeight sqrt heightNoise p position
    let ratio := surfaceHeight / position.length sqrt
    let position := position.scale ratio
    some { p with objects := p.objects ++ [⟨position, finalName⟩] }

/-- The value of `finalName` in the loop when the counter is `temp_int`: the name
without format at `0`, followed by the decimal digits of the counter from `1` on. -/
def candidateName (base : String) (temp_int : Nat) : String :=
  if temp_int = 0 then base else base ++ toString temp_int

/-- The number written by a list of decimal digits, most significant digit first; it
reads back the output of `toString` on a natural number. -/
def digitsValue (l : List Char) : Nat :=
  l.foldl (fun a c => 10 * a + (c.toNat - 48)) 0

/-- The names of the registered objects, in the order of `objects`. -/
def registeredNames (p : PSphere α) : List String :=
  p.objects.map (fun o => o.name)

end Model

/-! ## Concrete inputs -/

/-- A `4 × 4` grid whose cells are all land. -/
def exampleGrid (α : Type) [LinearOrderedField α] : Grid α :=
  { size := 4, value := fun _ _ => 1, projectToSphere := fun x y => ⟨(x : α), (y : α), 1⟩ }

/-- A planet of radius `1` with six `4 × 4` grids of land and no objects. -/
def examplePlanet (α : Type) [LinearOrderedField α] : PSphere α :=
  { seaHeight := 0, observer := ⟨0, 0, 0⟩,
    gridYP := exampleGrid α, gridXM := exampleGrid α, gridYM := exampleGrid α,
    gridXP := exampleGrid α, gridZP := exampleGrid α, gridZM := exampleGrid α,
    RParameter := { amplitude := [1], frequency := [1], waterFraction := 1 / 2, radius := 1 },
    randomTranslate := ⟨0, 0, 0⟩, objects := [], radius := 1,
    maximumHeight := 1, minimumHeight := -1 }

/-- A height function for the examples: the first coordinate of the point. -/
def exampleNoise (α : Type) [LinearOrderedField α] : List α → List α → Vector3 α → α :=
  fun _ _ point => point.x

/-- Test vectors for the examples: `(-1, 0, 0)` first, `(1, 0, 0)` ever after. -/
def exampleTestVec (α : Type) [LinearOrderedField α] : Nat → Vector3 α :=
  fun i => if i = 0 then ⟨-1, 0, 0⟩ else ⟨1, 0, 0⟩

/-- The example planet with one object registered at `(3, 1, -2)`. -/
def occupiedPlanet (α : Type) [LinearOrderedField α] : PSphere α :=
  { examplePlanet α with objects := [⟨⟨3, 1, -2⟩, "ship"⟩] }

/-- The example planet with the land mask of `gridXP` set to water. -/
def waterPlanet (α : Type) [LinearOrderedField α] : PSphere α :=
  { examplePlanet α with gridXP := { exampleGrid α with value := fun _ _ => 0 } }

/-- The example planet with two objects registered, `ship` and `ship1`. -/
def twoShips (α : Type) [LinearOrderedField α] : PSphere α :=
  { examplePlanet α with objects := [⟨⟨3, 1, -2⟩, "ship"⟩, ⟨⟨0, 0, 1⟩, "ship1"⟩] }

/-- A spherical-to-Cartesian conversion for the examples: every pair of angles is sent
to the point `(0, 0, 1)`. -/
def exampleConvert (α : Type) [LinearOrderedField α] : α → α → Vector3 α :=
  fun _ _ => ⟨0, 0, 1⟩

/-- The example planet seen from the point `(0, 3, 4)`. -/
def observedPlanet (α : Type) [LinearOrderedField α] : PSphere α :=
  { examplePlanet α with observer := ⟨0, 3, 4⟩ }

/-- A height function for the examples that goes below `-1`: three times the first
coordinate of the point. -/
def deepNoise (α : Type) [LinearOrderedField α] : List α → List α → Vector3 α → α :=
  fun _ _ point => 3 * point.x

section Model2

variable {α : Type} [LinearOrderedField α]

/-! ## The face-local coordinates of `getGridLocation` -/

/-- Lines 680-758 of `PSphere::getGridLocation` on their own: the selected grid and the
values of the local variables `x_f` and `y_f`, before lines 760-761 turn them into the
cell indices `ix` and `iy`. -/
def faceLocalCoordinates (location : Vector3 α) : Option (Face × α × α) :=
  let location := breakTies location
  let x := |location.x|
  let y := |location.y|
  let z := |location.z|
  if x > y ∧ x > z then
    let location := location.scale (1 / x)
    let y_f := location.z
    if location.x < 0 then
      let x_f := -location.y
      some (Face.gridXM, x_f, y_f)
    else
      let x_f := location.y
      some (Face.gridXP, x_f, y_f)
  else if y > x ∧ y > z then
    let location := location.scale (1 / y)
    let y_f := location.z
    if location.y < 0 then
      let x_f := location.x
      some (Face.gridYM, x_f, y_f)
    else
      let x_f := -location.x
      some (Face.gridYP, x_f, y_f)
  else if z > x ∧ z > y then
    let location := location.scale (1 / z)
    let x_f := -location.x
    if location.z < 0 then
      let y_f := location.y
      some (Face.gridZM, x_f, y_f)
    else
      let y_f := -location.y
      some (Face.gridZP, x_f, y_f)
  else
    none

/-! ## `PSphere::nextPosition` (PSphere.cpp, lines 803-863) -/

/-- The enumeration `PSphere::Direction` of `PSphere.h`; the values `Grid::neighbour_YP`,
`neighbour_YM`, `neighbour_XP` and `neighbour_XM` handed to the grid are named by the
same four tags. -/
inductive Direction where
  | PSPHERE_GRID_YPLUS
  | PSPHERE_GRID_YMINUS
  | PSPHERE_GRID_XPLUS
  | PSPHERE_GRID_XMINUS
deriving DecidableEq, Repr

/-- The value of `grid->getSize()-1` in unsigned 32-bit arithmetic. -/
def lastIndex (size : Nat) : Nat :=
  (size + 4294967295) % 4294967296

/-- `PSphere::nextPosition`.  `Grid::getNeighbourPtr` and
`Grid::getNeighbourEntryCoordinates` are not among the sources and are parameters: the
first gives the grid linked to a grid in a direction, the second the entry coordinates
`(x, y)` on that grid for the coordinates on the grid that is left. -/
def nextPosition [FloorRing α] (getNeighbourPtr : Face → Direction → Face)
    (getNeighbourEntryCoordinates : Face → Direction → Nat → Nat → Nat × Nat)
    (p : PSphere α) (location : Vector3 α) (dir : Direction) : Vector3 α :=
  match getGridLocation p location with
  | none => ⟨0, 0, 0⟩
  | some (grid, int_x, int_y) =>
    let r : Face × Nat × Nat :=
      match dir with
      | Direction.PSPHERE_GRID_YPLUS =>
        if int_y = lastIndex (p.grid grid).size then
          let e := getNeighbourEntryCoordinates grid Direction.PSPHERE_GRID_YPLUS int_x int_y
          (getNeighbourPtr grid Direction.PSPHERE_GRID_YPLUS, e.1, e.2)
        else (grid, int_x, int_y + 1)
      | Direction.PSPHERE_GRID_YMINUS =>
        if int_y = 0 then
          let e := getNeighbourEntryCoordinates grid Direction.PSPHERE_GRID_YMINUS int_x int_y
          (getNeighbourPtr grid Direction.PSPHERE_GRID_YMINUS, e.1, e.2)
        else (grid, int_x, int_y - 1)
      | Direction.PSPHERE_GRID_XPLUS =>
        if int_x = lastIndex (p.grid grid).size then
          let e := getNeighbourEntryCoordinates grid Direction.PSPHERE_GRID_XPLUS int_x int_y
          (getNeighbourPtr grid Direction.PSPHERE_GRID_XPLUS, e.1, e.2)
        else (grid, int_x + 1, int_y)
      | Direction.PSPHERE_GRID_XMINUS =>
        if int_x = 0 then
          let e := getNeighbourEntryCoordinates grid Direction.PSPHERE_GRID_XMINUS int_x int_y
          (getNeighbourPtr grid Direction.PSPHERE_GRID_XMINUS, e.1, e.2)
        else (grid, int_x - 1, int_y)
    (p.grid r.1).projectToSphere r.2.1 r.2.2

/-! ## Images: `PSphere::generateImage` (lines 248-316) and the cube map of `exportMap` -/

/-- The three channels of an `Ogre::ColourValue` that the image code reads. -/
structure ColourValue (α : Type) where
  r : α
  g : α
  b : α

/-- The conversion of a real value to `unsigned char` in an assignment: truncation
towards zero, kept modulo `2^8`. -/
def toUChar [FloorRing α] (v : α) : Nat :=
  Int.toNat ((if 0 ≤ v then Int.floor v else Int.ceil v) % 256)

/-- The byte stored for channel `k` of a colour: `r` for `0`, `g` for `1`, `b` otherwise. -/
def ColourValue.byte [FloorRing α] (c : ColourValue α) (k : Nat) : Nat :=
  if k = 0 then toUChar c.r else if k = 1 then toUChar c.g else toUChar c.b

/-- One assignment `image[offset] = value`; an image is the map from byte offsets to
bytes. -/
def writeByte (image : Nat → Nat) (offset value : Nat) : Nat → Nat :=
  fun k => if k = offset then value else image k

/-- The three assignments `image[index*3] = Pixel.r; image[index*3+1] = Pixel.g;
image[index*3+2] = Pixel.b` (lines 311-313, 961-963, 984-986, 1006-1008). -/
def setPixel [FloorRing α] (image : Nat → Nat) (index : Nat) (Pixel : ColourValue α) :
    Nat → Nat :=
  let image := writeByte image (index * 3) (toUChar Pixel.r)
  let image := writeByte image (index * 3 + 1) (toUChar Pixel.g)
  writeByte image (index * 3 + 2) (toUChar Pixel.b)

/-- A sequence of pixel assignments, carried out from left to right. -/
def paint [FloorRing α] (image : Nat → Nat) (pixels : List (Nat × ColourValue α)) : Nat → Nat :=
  pixels.foldl (fun image w => setPixel image w.1 w.2) image

/-- Line 292: the latitude of the image row `y`. -/
def pixelLatitude (textureHeight y : Nat) : α :=
  90 - ((y : α) + 1 / 2) / (textureHeight : α) * 180

/-- Line 291: the longitude of the image column `x`. -/
def pixelLongitude (textureWidth x : Nat) : α :=
  ((x : α) + 1 / 2) / (textureWidth : α) * 360

/-- Lines 291-309: the colour `Pixel` computed for the image position `(x, y)`.
`convertSphericalToCartesian` and `generatePixel` (`Common.h`) are parameters; the six
colours of `RParameter`, which `generateImage` hands to `generatePixel` unchanged, are
part of the parameter `generatePixel`. -/
def pixelColour (heightNoise : List α → List α → Vector3 α → α)
    (convertSphericalToCartesian : α → α → Vector3 α)
    (generatePixel : α → α → α → α → ColourValue α) (p : PSphere α)
    (textureWidth textureHeight x y : Nat) : ColourValue α :=
  let longitude : α := pixelLongitude textureWidth x
  let latitude : α := pixelLatitude textureHeight y
  let spherePoint := convertSphericalToCartesian latitude longitude
  let height := heightNoise p.RParameter.amplitude p.RParameter.frequency
    (spherePoint.add p.randomTranslate)
  generatePixel height p.seaHeight p.minimumHeight p.maximumHeight

/-- The pixel index `(textureHeight-1-y)*textureWidth+x` of lines 311-313.  `y` and `x`
are `Ogre::uint32`, so the expression is evaluated in unsigned 32-bit arithmetic. -/
def imageIndex (textureWidth textureHeight x y : Nat) : Nat :=
  ((textureHeight - 1 - y) * textureWidth + x) % 4294967296

/-- `PSphere::generateImage`: the loops over `y` and `x` of lines 287-315 on the buffer
`image`.  The byte offsets `index*3`, `index*3+1` and `index*3+2` are exact as long as
`textureWidth * textureHeight * 3` does not exceed `2^32`. -/
def generateImage [FloorRing α] (heightNoise : List α → List α → Vector3 α → α)
    (convertSphericalToCartesian : α → α → Vector3 α)
    (generatePixel : α → α → α → α → ColourValue α) (p : PSphere α)
    (textureWidth textureHeight : Nat) (image : Nat → Nat) : Nat → Nat :=
  (List.range textureHeight).foldl
    (fun image y =>
      (List.range textureWidth).foldl
        (fun image x =>
          setPixel image (imageIndex textureWidth textureHeight x y)
            (pixelColour heightNoise convertSphericalToCartesian generatePixel p
              textureWidth textureHeight x y))
        image)
    image

/-! ## `PSphere::create` (lines 90-190) -/

/-- An `Ogre::Matrix3`, row by row. -/
structure Matrix3 (α : Type) where
  m00 : α
  m01 : α
  m02 : α
  m10 : α
  m11 : α
  m12 : α
  m20 : α
  m21 : α
  m22 : α

/-- Line 138. -/
def noRot : Matrix3 α := ⟨1, 0, 0, 0, 1, 0, 0, 0, 1⟩

/-- Line 139. -/
def rotZ_90 : Matrix3 α := ⟨0, -1, 0, 1, 0, 0, 0, 0, 1⟩

/-- Line 140. -/
def rotZ_180 : Matrix3 α := ⟨-1, 0, 0, 0, -1, 0, 0, 0, 1⟩

/-- Line 141. -/
def rotZ_270 : Matrix3 α := ⟨0, 1, 0, -1, 0, 0, 0, 0, 1⟩

/-- Line 142. -/
def rotX_90 : Matrix3 α := ⟨1, 0, 0, 0, 0, -1, 0, 1, 0⟩

/-- Line 143. -/
def rotX_270 : Matrix3 α := ⟨1, 0, 0, 0, 0, 1, 0, -1, 0⟩

/-- Modelled from the spec: the constructor `Grid(size, orientation)` is not among the
sources.  The new grid has the given size; its projection is the projection of a grid
of that size and orientation, which is the parameter `projectToSphere`; its land mask
is set later by `setGridLandInfo`. -/
def newGrid (projectToSphere : Matrix3 α → Nat → Nat → Nat → Vector3 α) (gridSize : Nat)
    (orientation : Matrix3 α) : Grid α :=
  { size := gridSize, value := fun _ _ => 0,
    projectToSphere := projectToSphere orientation gridSize }

/-- The face on the other side of the cube. -/
def Face.opposite : Face → Face
  | Face.gridYP => Face.gridYM
  | Face.gridXM => Face.gridXP
  | Face.gridYM => Face.gridYP
  | Face.gridXP => Face.gridXM
  | Face.gridZP => Face.gridZM
  | Face.gridZM => Face.gridZP

/-- Lines 171-176: the four grids handed to `setNeighbours` on each grid, in the order
of the arguments.  `Grid::setNeighbours` is not among the sources; it is taken to store
the four links. -/
def createNeighbours : Face → List Face
  | Face.gridYP => [Face.gridXM, Face.gridXP, Face.gridZP, Face.gridZM]
  | Face.gridXM => [Face.gridYM, Face.gridYP, Face.gridZP, Face.gridZM]
  | Face.gridYM => [Face.gridXP, Face.gridXM, Face.gridZP, Face.gridZM]
  | Face.gridXP => [Face.gridYP, Face.gridYM, Face.gridZP, Face.gridZM]
  | Face.gridZP => [Face.gridXM, Face.gridXP, Face.gridYM, Face.gridYP]
  | Face.gridZM => [Face.gridXM, Face.gridXP, Face.gridYP, Face.gridYM]

/-- The state that `create` leaves behind: the members of `PSphere` modelled so far,
the iteration count handed to the six height maps and used for the vertex arrays, the
texture size, the neighbour links of the six grids and the surface texture. -/
structure CreatedSphere (α : Type) where
  sphere : PSphere α
  iters : Nat
  surfaceTextureWidth : Nat
  surfaceTextureHeight : Nat
  neighbours : Face → List Face
  surfaceTexture : Nat → Nat

/-- `PSphere::create`, on the members `p` and the texture size set by the constructor.
`randomTranslate` stands for the three values drawn from `rand` in lines 146-148.  The
result is `none` when the assertion in `calculateSeaLevel` fails.  The vertex arrays and
the six height maps are not modelled beyond the iteration count they are built with;
the fresh texture buffer starts as zeros and is overwritten by `generateImage`. -/
def create [FloorRing α] (heightNoise : List α → List α → Vector3 α → α)
    (testVec : Nat → Vector3 α) (convertSphericalToCartesian : α → α → Vector3 α)
    (generatePixel : α → α → α → α → ColourValue α)
    (projectToSphere : Matrix3 α → Nat → Nat → Nat → Vector3 α)
    (randomTranslate : Vector3 α) (p : PSphere α)
    (surfaceTextureWidth surfaceTextureHeight : Nat)
    (iters gridSize : Nat) (resourceParameter : ResourceParameter α) :
    Option (CreatedSphere α) :=
  let p := { p with RParameter := resourceParameter }
  let waterFraction := resourceParameter.waterFraction
  let p := { p with radius := resourceParameter.radius }
  let iters := if iters < 3 then 3 else iters
  let surfaceTextureWidth := if surfaceTextureWidth = 0 then 1 else surfaceTextureWidth
  let surfaceTextureHeight := if surfaceTextureHeight = 0 then 1 else surfaceTextureHeight
  let gridSize := if gridSize < 2 then 2 else gridSize
  let p := { p with randomTranslate := randomTranslate }
  match calculateSeaLevel heightNoise testVec p waterFraction with
  | none => none
  | some p =>
    let gridYP := newGrid projectToSphere gridSize noRot
    let gridXM := newGrid projectToSphere gridSize rotZ_90
    let gridYM := newGrid projectToSphere gridSize rotZ_180
    let gridXP := newGrid projectToSphere gridSize rotZ_270
    let gridZP := newGrid projectToSphere gridSize rotX_90
    let gridZM := newGrid projectToSphere gridSize rotX_270
    let surfaceTexture := generateImage heightNoise convertSphericalToCartesian generatePixel p
      surfaceTextureWidth surfaceTextureHeight (fun _ => 0)
    let gridYP := setGridLandInfo heightNoise p gridYP
    let gridXM := setGridLandInfo heightNoise p gridXM
    let gridYM := setGridLandInfo heightNoise p gridYM
    let gridXP := setGridLandInfo heightNoise p gridXP
    let gridZP := setGridLandInfo heightNoise p gridZP
    let gridZM := setGridLandInfo heightNoise p gridZM
    some
      { sphere := { p with
          gridYP := gridYP, gridXM := gridXM, gridYM := gridYM,
          gridXP := gridXP, gridZP := gridZP, gridZM := gridZM }
        iters := iters
        surfaceTextureWidth := surfaceTextureWidth
        surfaceTextureHeight := surfaceTextureHeight
        neighbours := createNeighbours
        surfaceTexture := surfaceTexture }

/-! ## `PSphere::exportMap` (lines 875-1025) -/

/-- The enumeration `PSphere::MapType` of `PSphere.h`. -/
inductive MapType where
  | MAP_EQUIRECTANGULAR
  | MAP_CUBE
deriving DecidableEq, Repr

/-- Lines 935-940: the six temporary grids `temp[0] .. temp[5]` of size `gSize`, with the
orientations of `gridYP`, `gridXM`, `gridYM`, `gridXP`, `gridZP` and `gridZM`.
`Grid::getOrientation` is not among the sources and is the parameter `getOrientation`. -/
def tempGrid (projectToSphere : Matrix3 α → Nat → Nat → Nat → Vector3 α)
    (getOrientation : Face → Matrix3 α) (gSize : Nat) : Nat → Grid α
  | 0 => newGrid projectToSphere gSize (getOrientation Face.gridYP)
  | 1 => newGrid projectToSphere gSize (getOrientation Face.gridXM)
  | 2 => newGrid projectToSphere gSize (getOrientation Face.gridYM)
  | 3 => newGrid projectToSphere gSize (getOrientation Face.gridXP)
  | 4 => newGrid projectToSphere gSize (getOrientation Face.gridZP)
  | _ => newGrid projectToSphere gSize (getOrientation Face.gridZM)

/-- Lines 949-959 (and 972-982, 994-1004): the colour `Output` of the cell `(x, y)` of a
temporary grid.  As in `pixelColour`, the six colours of `RParameter` are part of the
parameter `generatePixel`. -/
def cubeTileColour (heightNoise : List α → List α → Vector3 α → α)
    (generatePixel : α → α → α → α → ColourValue α) (p : PSphere α) (temp : Grid α)
    (x y : Nat) : ColourValue α :=
  let elev := heightNoise p.RParameter.amplitude p.RParameter.frequency
    ((temp.projectToSphere x y).add p.randomTranslate)
  generatePixel elev p.seaHeight p.minimumHeight p.maximumHeight

/-- The pixel index at which the cube map stores the cell `(x, y)` of the tile `tile`:
the index expression of line 961 for the equatorial tiles `0 .. 3`, of line 984 for the
tile `4` (`+Z`) and of line 1006 for the tile `5` (`-Z`). -/
def cubePixelIndex (width gSize tile x y : Nat) : Nat :=
  if tile < 4 then (gSize + y) * width + x + tile * gSize
  else if tile = 4 then (gSize * 2 + y) * width + x
  else y * width + x

/-- `PSphere::exportMap` (the overload that returns the buffer), as the content of
`exportImage`.  The sizes `width*height*3` and `width*(width/4*3)*3` of lines 883 and 927
and the index expressions are evaluated in `int`; `none` stands for a size above
`2^31 - 1`, for which the source has no defined behaviour.  Below that bound the index
expressions are exact.  A fresh buffer starts as zeros (line 932 for the cube map; the
other buffer is overwritten by `generateImage`).  The temporary grids are deleted at the
end and leave no trace in the state. -/
def exportMap [FloorRing α] (heightNoise : List α → List α → Vector3 α → α)
    (convertSphericalToCartesian : α → α → Vector3 α)
    (generatePixel : α → α → α → α → ColourValue α)
    (projectToSphere : Matrix3 α → Nat → Nat → Nat → Vector3 α)
    (getOrientation : Face → Matrix3 α) (p : PSphere α)
    (width height : Nat) (type : MapType) : Option (Nat → Nat) :=
  match type with
  | MapType.MAP_EQUIRECTANGULAR =>
    if 2147483647 < width * height * 3 then none
    else
      some (generateImage heightNoise convertSphericalToCartesian generatePixel p
        width height (fun _ => 0))
  | MapType.MAP_CUBE =>
    if 2147483647 < width * (width / 4 * 3) * 3 then none
    else
      let exportImage : Nat → Nat := fun _ => 0
      let gSize := width / 4
      let temp := tempGrid projectToSphere getOrientation gSize
      let exportImage :=
        (List.range 4).foldl
          (fun image i =>
            (List.range gSize).foldl
              (fun image y =>
                (List.range gSize).foldl
                  (fun image x =>
                    setPixel image ((gSize + y) * width + x + i * gSize)
                      (cubeTileColour heightNoise generatePixel p (temp i) x y))
                  image)
              image)
          exportImage
      let exportImage :=
        (List.range gSize).foldl
          (fun image y =>
            (List.range gSize).foldl
              (fun image x =>
                setPixel image ((gSize * 2 + y) * width + x)
                  (cubeTileColour heightNoise generatePixel p (temp 4) x y))
              image)
          exportImage
      let exportImage :=
        (List.range gSize).foldl
          (fun image y =>
            (List.range gSize).foldl
              (fun image x =>
                setPixel image (y * width + x)
                  (cubeTileColour heightNoise generatePixel p (temp 5) x y))
              image)
          exportImage
      some exportImage

/-- The pixel assignments of a double loop over `y` and `x` below `gSize`, in the order
of the loop, for the index expression `index x y` and the colour `colour x y`. -/
def tileWrites (index : Nat → Nat → Nat) (colour : Nat → Nat → ColourValue α)
    (gSize : Nat) : List (Nat × ColourValue α) :=
  ((List.range gSize).map (fun y =>
    (List.range gSize).map (fun x => (index x y, colour x y)))).flatten

/-- The pixel assignments of the cube map in the order of lines 943-1010: the four
equatorial tiles, the tile `+Z`, the tile `-Z`. -/
def cubeWrites (heightNoise : List α → List α → Vector3 α → α)
    (generatePixel : α → α → α → α → ColourValue α) (p : PSphere α) (temp : Nat → Grid α)
    (width gSize : Nat) : List (Nat × ColourValue α) :=
  ((List.range 4).map (fun i =>
      tileWrites (fun x y => (gSize + y) * width + x + i * gSize)
        (fun x y => cubeTileColour heightNoise generatePixel p (temp i) x y) gSize)).flatten ++
    tileWrites (fun x y => (gSize * 2 + y) * width + x)
      (fun x y => cubeTileColour heightNoise generatePixel p (temp 4) x y) gSize ++
    tileWrites (fun x y => y * width + x)
      (fun x y => cubeTileColour heightNoise generatePixel p (temp 5) x y) gSize

/-! ## `PSphere::moveObject` (lines 1070-1207) -/

/-- The value of the macro `UP`. -/
def UP : Int := 1

/-- The value of the macro `DOWN`. -/
def DOWN : Int := 2

/-- The value of the macro `LEFT`. -/
def LEFT : Int := 3

/-- The value of the macro `RIGHT`. -/
def RIGHT : Int := 4

/-- The right-hand side of `newPosition = cart_coord * (getSurfaceHeight(cart_coord) /
cart_coord.length())` (lines 1094, 1125, 1155, 1184). -/
def groundPosition (sqrt : α → α) (heightNoise : List α → List α → Vector3 α → α)
    (p : PSphere α) (cart_coord : Vector3 α) : Vector3 α :=
  cart_coord.scale (getSurfaceHeight sqrt heightNoise p cart_coord / cart_coord.length sqrt)

/-- The common end of the four cases (lines 1096-1113 and alike): the node and the
object are set to `newPosition`, the collision manager is asked about the object, and
both are set back to `oldPosition` when it reports a collision.  The result is the
object and the position of its node; the orientation of the node is not modelled.
`CollisionManager::checkCollisionAABB(...).collided` is the parameter
`checkCollisionAABB`. -/
def setAndCheck (checkCollisionAABB : ObjectInfo α → Bool) (it : ObjectInfo α)
    (oldPosition newPosition : Vector3 α) : ObjectInfo α × Vector3 α :=
  let it := { it with position := newPosition }
  if checkCollisionAABB it then ({ it with position := oldPosition }, oldPosition)
  else (it, newPosition)

/-- The body of the loop of `moveObject` for an object with the requested name, lines
1074-1204: `it` is the object and `nodePosition` the position of its scene node.
`asin`, `atan2` and `Ogre::Math::PI` are parameters, like `sqrt`, `heightNoise` and
`convertSphericalToCartesian`. -/
def moveOne (sqrt : α → α) (heightNoise : List α → List α → Vector3 α → α)
    (convertSphericalToCartesian : α → α → Vector3 α) (asin : α → α) (atan2 : α → α → α)
    (PI : α) (checkCollisionAABB : ObjectInfo α → Bool) (p : PSphere α) (direction : Int)
    (pace : α) (it : ObjectInfo α) (nodePosition : Vector3 α) : ObjectInfo α × Vector3 α :=
  let oldPosition := nodePosition
  let oldPositionNormalised := oldPosition.normalisedCopy sqrt
  let latitude := asin oldPositionNormalised.z
  let longitude := atan2 oldPositionNormalised.y oldPositionNormalised.x
  if direction = UP then
    let cartesianCoord_x := latitude * (180 / PI) + pace
    let cartesianCoord_y := 360 + longitude * (180 / PI)
    if cartesianCoord_x > 90 then (it, nodePosition)
    else
      let cart_coord := convertSphericalToCartesian cartesianCoord_x cartesianCoord_y
      let newPosition := groundPosition sqrt heightNoise p cart_coord
      setAndCheck checkCollisionAABB it oldPosition newPosition
  else if direction = DOWN then
    let cartesianCoord_x := latitude * (180 / PI) - pace
    let cartesianCoord_y := 360 + longitude * (180 / PI)
    if cartesianCoord_x < -90 then (it, nodePosition)
    else
      let cart_coord := convertSphericalToCartesian cartesianCoord_x cartesianCoord_y
      let newPosition := groundPosition sqrt heightNoise p cart_coord
      setAndCheck checkCollisionAABB it oldPosition newPosition
  else if direction = LEFT then
    let cartesianCoord_x := latitude * (180 / PI)
    let cartesianCoord_y := 360 + longitude * (180 / PI) - pace
    let cart_coord := convertSphericalToCartesian cartesianCoord_x cartesianCoord_y
    let newPosition := groundPosition sqrt heightNoise p cart_coord
    setAndCheck checkCollisionAABB it oldPosition newPosition
  else if direction = RIGHT then
    let cartesianCoord_x := latitude * (180 / PI)
    let cartesianCoord_y := 360 + longitude * (180 / PI) + pace
    let cart_coord := convertSphericalToCartesian cartesianCoord_x cartesianCoord_y
    let newPosition := groundPosition sqrt heightNoise p cart_coord
    setAndCheck checkCollisionAABB it oldPosition newPosition
  else (it, nodePosition)

/-- `PSphere::moveObject`.  `nodePositions` lists the positions of the scene nodes of
the registered objects, in the order of `objects` (every object has a node of its own,
the child named after it); the result is the new state and the new node positions. -/
def moveObject (sqrt : α → α) (heightNoise : List α → List α → Vector3 α → α)
    (convertSphericalToCartesian : α → α → Vector3 α) (asin : α → α) (atan2 : α → α → α)
    (PI : α) (checkCollisionAABB : ObjectInfo α → Bool) (p : PSphere α)
    (nodePositions : List (Vector3 α)) (objectName : String) (direction : Int) (pace : α) :
    PSphere α × List (Vector3 α) :=
  let moved := (p.objects.zip nodePositions).map
    (fun entry =>
      if entry.1.name = objectName then
        moveOne sqrt heightNoise convertSphericalToCartesian asin atan2 PI checkCollisionAABB
          p direction pace entry.1 entry.2
      else entry)
  ({ p with objects := moved.map Prod.fst }, moved.map Prod.snd)

end Model2

/-- Neighbour links for the examples: every grid is linked to itself. -/
def exampleNeighbourPtr : Face → Direction → Face :=
  fun grid _ => grid

/-- Entry coordinates for the examples: the coordinates are kept. -/
def exampleEntryCoordinates : Face → Direction → Nat → Nat → Nat × Nat :=
  fun _ _ x y => (x, y)

/-- A grid projection for the examples: the cell `(x, y)` is sent to `(x, y, 1)` for
every orientation and size. -/
def exampleProjection (α : Type) [LinearOrderedField α] :
    Matrix3 α → Nat → Nat → Nat → Vector3 α :=
  fun _ _ x y => ⟨(x : α), (y : α), 1⟩

/-- A colouring for the examples: the red channel is the height plus `100`. -/
def examplePixel (α : Type) [LinearOrderedField α] : α → α → α → α → ColourValue α :=
  fun height _ _ _ => ⟨height + 100, 0, 0⟩

/-- A spherical-to-Cartesian conversion for the examples that keeps the latitude: the
angles are sent to the point `(latitude, 0, 0)`. -/
def latitudeConvert (α : Type) [LinearOrderedField α] : α → α → Vector3 α :=
  fun latitude _ => ⟨latitude, 0, 0⟩

/-- Orientations for the examples: the six matrices that `create` hands to the six
grids. -/
def exampleOrientation (α : Type) [LinearOrderedField α] : Face → Matrix3 α
  | Face.gridYP => noRot
  | Face.gridXM => rotZ_90
  | Face.gridYM => rotZ_180
  | Face.gridXP => rotZ_270
  | Face.gridZP => rotX_90
  | Face.gridZM => rotX_270

/-- The example planet with one object registered at the origin. -/
def originPlanet (α : Type) [LinearOrderedField α] : PSphere α :=
  { examplePlanet α with objects := [⟨⟨0, 0, 0⟩, "probe"⟩] }

/-- A height function for the examples whose values lie above `10^6`: with the example
test vectors the heights are `2000000` once and `3000000` otherwise. -/
def highNoise (α : Type) [LinearOrderedField α] : List α → List α → Vector3 α → α :=
  fun _ _ point => 2500000 + 500000 * point.x

section Model3

variable {α : Type} [LinearOrderedField α]

/-! ## The tentative position of `PSphere::moveObject` -/

/-- The value of `newPosition` that `moveObject` hands to `setPosition` before it asks
the collision manager (lines 1094-1097, 1125-1128, 1155-1158, 1184-1187), for an object
whose node is at `nodePosition`; `none` when the case is left before that (the breaks
of lines 1089 and 1119) or `direction` is none of the four. -/
def tentativePosition (sqrt : α → α) (heightNoise : List α → List α → Vector3 α → α)
    (convertSphericalToCartesian : α → α → Vector3 α) (asin : α → α) (atan2 : α → α → α)
    (PI : α) (p : PSphere α) (direction : Int) (pace : α) (nodePosition : Vector3 α) :
    Option (Vector3 α) :=
  let oldPosition := nodePosition
  let oldPositionNormalised := oldPosition.normalisedCopy sqrt
  let latitude := asin oldPositionNormalised.z
  let longitude := atan2 oldPositionNormalised.y oldPositionNormalised.x
  if direction = UP then
    let cartesianCoord_x := latitude * (180 / PI) + pace
    let cartesianCoord_y := 360 + longitude * (180 / PI)
    if cartesianCoord_x > 90 then none
    else
      let cart_coord := convertSphericalToCartesian cartesianCoord_x cartesianCoord_y
      some (groundPosition sqrt heightNoise p cart_coord)
  else if direction = DOWN then
    let cartesianCoord_x := latitude * (180 / PI) - pace
    let cartesianCoord_y := 360 + longitude * (180 / PI)
    if cartesianCoord_x < -90 then none
    else
      let cart_coord := convertSphericalToCartesian cartesianCoord_x cartesianCoord_y
      some (groundPosition sqrt heightNoise p cart_coord)
  else if direction = LEFT then
    let cartesianCoord_x := latitude * (180 / PI)
    let cartesianCoord_y := 360 + longitude * (180 / PI) - pace
    let cart_coord := convertSphericalToCartesian cartesianCoord_x cartesianCoord_y
    some (groundPosition sqrt heightNoise p cart_coord)
  else if direction = RIGHT then
    let cartesianCoord_x := latitude * (180 / PI)
    let cartesianCoord_y := 360 + longitude * (180 / PI) + pace
    let cart_coord := convertSphericalToCartesian cartesianCoord_x cartesianCoord_y
    some (groundPosition sqrt heightNoise p cart_coord)
  else none

/-! ## Single and double precision

The definitions above compute in an exact field.  Where the source computes a whole
number from `float` values (a cell index, a histogram slot, the slot at which the scan
stops), the last bit of a `float` operation can change the result, and the functions
are given a second time with every `float` operation followed by a rounding `fl`. -/

/-- Rounding of a real number to the nearest integer, a tie to the even one. -/
def roundNearestEven [FloorRing α] (v : α) : Int :=
  let f := Int.floor v
  if v - (f : α) < 1 / 2 then f
  else if 1 / 2 < v - (f : α) then f + 1
  else if f % 2 = 0 then f
  else f + 1

/-- The value nearest to `v` in the binary floating-point format with `precision`
significant bits, a tie to the even significand (the default rounding of IEEE 754).
The exponent is not bounded: there is no overflow and there are no subnormal numbers. -/
def roundBinary [FloorRing α] (precision : Nat) (v : α) : α :=
  if v = 0 then 0
  else
    let ulp : α := (2 : α) ^ (Int.log 2 |v| + 1 - (precision : Int))
    (roundNearestEven (v / ulp) : α) * ulp

/-- Rounding to `float` (`Ogre::Real`), 24 significant bits. -/
def roundFloat [FloorRing α] (v : α) : α :=
  roundBinary 24 v

/-- Rounding to `double`, 53 significant bits. -/
def roundDouble [FloorRing α] (v : α) : α :=
  roundBinary 53 v

/-- What the theorems on `calculateSeaLevel` use of a rounding `fl`: it is monotone and
keeps the values `0`, `1` and `99.5`. -/
def IsRounding (fl : α → α) : Prop :=
  Monotone fl ∧ fl 0 = 0 ∧ fl 1 = 1 ∧ fl (199 / 2) = 199 / 2

/-- `Vector3::operator+` in `float`. -/
def Vector3.addFloat (fl : α → α) (a b : Vector3 α) : Vector3 α :=
  ⟨fl (a.x + b.x), fl (a.y + b.y), fl (a.z + b.z)⟩

/-- `Vector3::operator*=` with a scalar in `float`. -/
def Vector3.scaleFloat (fl : α → α) (a : Vector3 α) (s : α) : Vector3 α :=
  ⟨fl (a.x * s), fl (a.y * s), fl (a.z * s)⟩

/-! ## `PSphere::getGridLocation` in `float` -/

/-- Lines 680-699 in `float`: `location.y *= 0.9999` multiplies by the `double` constant
`0.9999` in `double` (rounding `fd`) and stores the product as a `float` (rounding
`fl`). -/
def breakTiesFloat (fl fd : α → α) (location : Vector3 α) : Vector3 α :=
  let x := |location.x|
  let y := |location.y|
  let z := |location.z|
  let location :=
    if x = y then { location with y := fl (fd (location.y * fd (9999 / 10000))) } else location
  let location :=
    if x = z then { location with z := fl (fd (location.z * fd (9999 / 10000))) } else location
  let location :=
    if y = z then { location with z := fl (fd (location.z * fd (9999 / 10000))) } else location
  location

/-- Lines 760-761 in `float`: `(unsigned short)((1.0f + f) / 2.0f * grid->getSize())`,
the sum, the quotient, the conversion of the size and the product each rounded. -/
def cellIndexFloat [FloorRing α] (fl : α → α) (f : α) (size : Nat) : Nat :=
  toUShort (fl (fl (fl (1 + f) / 2) * fl (size : α)))

/-- `PSphere::getGridLocation` in `float`: as `getGridLocation`, with the quotient
`1.0f / x`, the three products of `location *= ...` and the operations of lines 760-761
rounded by `fl`. -/
def getGridLocationFloat [FloorRing α] (fl fd : α → α) (p : PSphere α)
    (location : Vector3 α) : Option (Face × Nat × Nat) :=
  let location := breakTiesFloat fl fd location
  let x := |location.x|
  let y := |location.y|
  let z := |location.z|
  if x > y ∧ x > z then
    let location := location.scaleFloat fl (fl (1 / x))
    let y_f := location.z
    if location.x < 0 then
      let x_f := -location.y
      some (Face.gridXM, cellIndexFloat fl x_f p.gridXM.size,
        cellIndexFloat fl y_f p.gridXM.size)
    else
      let x_f := location.y
      some (Face.gridXP, cellIndexFloat fl x_f p.gridXP.size,
        cellIndexFloat fl y_f p.gridXP.size)
  else if y > x ∧ y > z then
    let location := location.scaleFloat fl (fl (1 / y))
    let y_f := location.z
    if location.y < 0 then
      let x_f := location.x
      some (Face.gridYM, cellIndexFloat fl x_f p.gridYM.size,
        cellIndexFloat fl y_f p.gridYM.size)
    else
      let x_f := -location.x
      some (Face.gridYP, cellIndexFloat fl x_f p.gridYP.size,
        cellIndexFloat fl y_f p.gridYP.size)
  else if z > x ∧ z > y then
    let location := location.scaleFloat fl (fl (1 / z))
    let x_f := -location.x
    if location.z < 0 then
      let y_f := location.y
      some (Face.gridZM, cellIndexFloat fl x_f p.gridZM.size,
        cellIndexFloat fl y_f p.gridZM.size)
    else
      let y_f := -location.y
      some (Face.gridZP, cellIndexFloat fl x_f p.gridZP.size,
        cellIndexFloat fl y_f p.gridZP.size)
  else
    none

/-! ## `PSphere::calculateSeaLevel` in `float` -/

/-- Lines 208-214 in `float`: the sum `testVec + randomTranslate` is rounded. -/
def testHeightsFloat (fl : α → α) (heightNoise : List α → List α → Vector3 α → α)
    (testVec : Nat → Vector3 α) (p : PSphere α) : List α :=
  (List.range TESTVECS).map
    (fun i => heightNoise p.RParameter.amplitude p.RParameter.frequency
      ((testVec i).addFloat fl p.randomTranslate))

/-- Lines 226-227 in `float`: the two differences, the quotient and the product are
rounded; `mult` is the `float` `99.5`. -/
def slotOfFloat [FloorRing α] (fl : α → α) (minElev maxElev h : α) : Nat :=
  toUInt (fl (fl (fl (h - minElev) / fl (maxElev - minElev)) * mult))

/-- Lines 224-232 in `float`: as `fillHistogram`, with the slot of `slotOfFloat`. -/
def fillHistogramFloat [FloorRing α] (fl : α → α) (minElev maxElev : α) :
    List α → List Nat → Option (List Nat)
  | [], histogram => some histogram
  | h :: rest, histogram =>
    let slot := slotOfFloat fl minElev maxElev h
    if slot < BRACKETS then
      fillHistogramFloat fl minElev maxElev rest
        (histogram.set slot (histogram.getD slot 0 + 1))
    else none

/-- Lines 243-244 in `float`: the quotient, the difference, the product and the sum are
rounded. -/
def seaHeightOfFloat (fl : α → α) (i : Nat) (minElev maxElev : α) : α :=
  fl (fl (fl ((i : α) / ((BRACKETS - 1 : Nat) : α)) * fl (maxElev - minElev)) + minElev)

/-- `PSphere::calculateSeaLevel` in `float`.  The scan of lines 236-241 compares the
count with the rounded product `Ogre::Real(TESTVECS) * seaFraction`; the conversions of
`TESTVECS` and of the counts, whole numbers up to `40000`, to `float` are exact. -/
def calculateSeaLevelFloat [FloorRing α] (fl : α → α)
    (heightNoise : List α → List α → Vector3 α → α)
    (testVec : Nat → Vector3 α) (p : PSphere α) (seaFraction : α) : Option (PSphere α) :=
  let testHeight := testHeightsFloat fl heightNoise testVec p
  let minElev := minElevOf testHeight
  let maxElev := maxElevOf testHeight
  match fillHistogramFloat fl minElev maxElev testHeight (List.replicate BRACKETS 0) with
  | none => none
  | some histogram =>
    let i := scanSlots histogram (fl ((TESTVECS : α) * seaFraction)) BRACKETS 0 0
    some { p with
      minimumHeight := minElev
      maximumHeight := maxElev
      seaHeight := seaHeightOfFloat fl i minElev maxElev }

end Model3

/-- A collision check for the examples that depends on the position: it reports a
collision exactly for an object at `(0, 0, 1)`. -/
def poleCollision (α : Type) [LinearOrderedField α] [DecidableEq α] : ObjectInfo α → Bool :=
  fun o => decide (o.position = ⟨0, 0, 1⟩)

/-- Test vectors for the examples: `(-1, 0, 0)` for the first `28000`, `(1, 0, 0)` for
the other `12000`. -/
def splitTestVec (α : Type) [LinearOrderedField α] : Nat → Vector3 α :=
  fun i => if i < 28000 then ⟨-1, 0, 0⟩ else ⟨1, 0, 0⟩

section GridLocation

variable {α : Type} [LinearOrderedField α]

/-! ## Lemmas on `getGridLocation` -/

theorem breakTies_x (l : Vector3 α) : (breakTies l).x = l.x := by
  unfold breakTies
  simp only []
  split_ifs <;> rfl

theorem breakTies_y (l : Vector3 α) :
    (breakTies l).y = if |l.x| = |l.y| then l.y * (9999 / 10000) else l.y := by
  unfold breakTies
  simp only []
  split_ifs <;> rfl

theorem breakTies_z (l : Vector3 α) :
    (breakTies l).z =
      if |l.y| = |l.z| then
        (if |l.x| = |l.z| then l.z * (9999 / 10000) * (9999 / 10000) else l.z * (9999 / 10000))
      else (if |l.x| = |l.z| then l.z * (9999 / 10000) else l.z) := by
  unfold breakTies
  simp only []
  split_ifs <;> rfl

theorem abs_shorten (a : α) : |a * (9999 / 10000)| = |a| * (9999 / 10000) := by
  rw [abs_mul, abs_of_pos (by norm_num : (0 : α) < 9999 / 10000)]

set_option maxHeartbeats 4000000 in
/-- After the tie-break a non-zero vector has a strictly largest absolute component. -/
theorem breakTies_strictMax (l : Vector3 α) (h : ¬ (l.x = 0 ∧ l.y = 0 ∧ l.z = 0)) :
    (|(breakTies l).x| > |(breakTies l).y| ∧ |(breakTies l).x| > |(breakTies l).z|) ∨
    (|(breakTies l).y| > |(breakTies l).x| ∧ |(breakTies l).y| > |(breakTies l).z|) ∨
    (|(breakTies l).z| > |(breakTies l).x| ∧ |(breakTies l).z| > |(breakTies l).y|) := by
  rw [breakTies_x, breakTies_y, breakTies_z]
  have hx := abs_nonneg l.x
  have hy := abs_nonneg l.y
  have hz := abs_nonneg l.z
  have h0 : 0 < |l.x| ∨ 0 < |l.y| ∨ 0 < |l.z| := by
    by_contra hc
    push_neg at hc
    apply h
    refine ⟨abs_eq_zero.mp (le_antisymm hc.1 hx), abs_eq_zero.mp (le_antisymm hc.2.1 hy),
      abs_eq_zero.mp (le_antisymm hc.2.2 hz)⟩
  split_ifs with h1 h2 h3 h3 h2 h3 h3 <;> (try simp only [abs_shorten]) <;>
    rcases lt_trichotomy |l.x| |l.y| with a | a | a <;>
    rcases lt_trichotomy |l.x| |l.z| with b | b | b <;>
    rcases lt_trichotomy |l.y| |l.z| with c | c | c <;>
    first
    | (exfalso; exact h1 a)
    | (exfalso; exact h2 c)
    | (exfalso; exact h3 b)
    | (exfalso; linarith)
    | (left; constructor <;> rcases h0 with d | d | d <;> linarith)
    | (right; left; constructor <;> rcases h0 with d | d | d <;> linarith)
    | (right; right; constructor <;> rcases h0 with d | d | d <;> linarith)

theorem breakTies_zero : breakTies (⟨0, 0, 0⟩ : Vector3 α) = ⟨0, 0, 0⟩ := by
  simp [breakTies]

theorem getGridLocation_eq_none_iff [FloorRing α] (p : PSphere α) (l : Vector3 α) :
    getGridLocation p l = none ↔ l.x = 0 ∧ l.y = 0 ∧ l.z = 0 := by
  constructor
  · intro hn
    by_contra h
    have hm := breakTies_strictMax l h
    unfold getGridLocation at hn
    simp only [] at hn
    split_ifs at hn
    all_goals tauto
  · rintro ⟨h1, h2, h3⟩
    have : l = ⟨0, 0, 0⟩ := by
      cases l; simp_all
    subst this
    unfold getGridLocation
    simp [breakTies_zero]


theorem scale_neg_iff (a s : α) (hs : 0 < s) : a * (1 / s) < 0 ↔ a < 0 := by
  have h1 : 0 < 1 / s := by positivity
  constructor
  · intro h
    by_contra hc
    push_neg at hc
    have := mul_nonneg hc h1.le
    linarith
  · intro h
    exact mul_neg_of_neg_of_pos h h1

theorem getGridLocation_of_x [FloorRing α] (p : PSphere α) (l : Vector3 α)
    (h : |(breakTies l).x| > |(breakTies l).y| ∧ |(breakTies l).x| > |(breakTies l).z|) :
    getGridLocation p l =
      if (breakTies l).x < 0 then
        some (Face.gridXM,
          cellIndex (-((breakTies l).y * (1 / |(breakTies l).x|))) p.gridXM.size,
          cellIndex ((breakTies l).z * (1 / |(breakTies l).x|)) p.gridXM.size)
      else
        some (Face.gridXP,
          cellIndex ((breakTies l).y * (1 / |(breakTies l).x|)) p.gridXP.size,
          cellIndex ((breakTies l).z * (1 / |(breakTies l).x|)) p.gridXP.size) := by
  have hpos : 0 < |(breakTies l).x| := lt_of_le_of_lt (abs_nonneg _) h.1
  unfold getGridLocation
  simp only [h, and_self, if_true, Vector3.scale, scale_neg_iff _ _ hpos]

theorem getGridLocation_of_y [FloorRing α] (p : PSphere α) (l : Vector3 α)
    (h : |(breakTies l).y| > |(breakTies l).x| ∧ |(breakTies l).y| > |(breakTies l).z|) :
    getGridLocation p l =
      if (breakTies l).y < 0 then
        some (Face.gridYM,
          cellIndex ((breakTies l).x * (1 / |(breakTies l).y|)) p.gridYM.size,
          cellIndex ((breakTies l).z * (1 / |(breakTies l).y|)) p.gridYM.size)
      else
        some (Face.gridYP,
          cellIndex (-((breakTies l).x * (1 / |(breakTies l).y|))) p.gridYP.size,
          cellIndex ((breakTies l).z * (1 / |(breakTies l).y|)) p.gridYP.size) := by
  have hpos : 0 < |(breakTies l).y| := lt_of_le_of_lt (abs_nonneg _) h.1
  have hnx : ¬ (|(breakTies l).x| > |(breakTies l).y| ∧ |(breakTies l).x| > |(breakTies l).z|) := by
    intro hc
    exact lt_asymm h.1 hc.1
  unfold getGridLocation
  simp only [hnx, h, and_self, if_true, if_false, Vector3.scale, scale_neg_iff _ _ hpos]

theorem getGridLocation_of_z [FloorRing α] (p : PSphere α) (l : Vector3 α)
    (h : |(breakTies l).z| > |(breakTies l).x| ∧ |(breakTies l).z| > |(breakTies l).y|) :
    getGridLocation p l =
      if (breakTies l).z < 0 then
        some (Face.gridZM,
          cellIndex (-((breakTies l).x * (1 / |(breakTies l).z|))) p.gridZM.size,
          cellIndex ((breakTies l).y * (1 / |(breakTies l).z|)) p.gridZM.size)
      else
        some (Face.gridZP,
          cellIndex (-((breakTies l).x * (1 / |(breakTies l).z|))) p.gridZP.size,
          cellIndex (-((breakTies l).y * (1 / |(breakTies l).z|))) p.gridZP.size) := by
  have hpos : 0 < |(breakTies l).z| := lt_of_le_of_lt (abs_nonneg _) h.1
  have hnx : ¬ (|(breakTies l).x| > |(breakTies l).y| ∧ |(breakTies l).x| > |(breakTies l).z|) := by
    intro hc
    exact lt_asymm h.1 hc.2
  have hny : ¬ (|(breakTies l).y| > |(breakTies l).x| ∧ |(breakTies l).y| > |(breakTies l).z|) := by
    intro hc
    exact lt_asymm h.2 hc.2
  unfold getGridLocation
  simp only [hnx, hny, h, and_self, if_true, if_false, Vector3.scale, scale_neg_iff _ _ hpos]

theorem abs_breakTies_y_le (l : Vector3 α) : |(breakTies l).y| ≤ |l.y| := by
  rw [breakTies_y]
  have := abs_nonneg l.y
  split_ifs
  · rw [abs_shorten]; linarith
  · exact le_refl _

theorem abs_breakTies_z_le (l : Vector3 α) : |(breakTies l).z| ≤ |l.z| := by
  rw [breakTies_z]
  have := abs_nonneg l.z
  split_ifs <;> (try simp only [abs_shorten]) <;> nlinarith

theorem breakTies_y_neg_iff (l : Vector3 α) : (breakTies l).y < 0 ↔ l.y < 0 := by
  rw [breakTies_y]
  split_ifs
  · constructor <;> intro h <;> nlinarith
  · exact Iff.rfl

theorem breakTies_z_neg_iff (l : Vector3 α) : (breakTies l).z < 0 ↔ l.z < 0 := by
  rw [breakTies_z]
  split_ifs
  · constructor <;> intro h <;> nlinarith
  · constructor <;> intro h <;> nlinarith
  · constructor <;> intro h <;> nlinarith
  · exact Iff.rfl


theorem strictMax_x_breakTies (l : Vector3 α) (hy : |l.y| < |l.x|) (hz : |l.z| < |l.x|) :
    |(breakTies l).x| > |(breakTies l).y| ∧ |(breakTies l).x| > |(breakTies l).z| := by
  rw [breakTies_x]
  exact ⟨lt_of_le_of_lt (abs_breakTies_y_le l) hy, lt_of_le_of_lt (abs_breakTies_z_le l) hz⟩

theorem strictMax_y_breakTies (l : Vector3 α) (hx : |l.x| < |l.y|) (hz : |l.z| < |l.y|) :
    |(breakTies l).y| > |(breakTies l).x| ∧ |(breakTies l).y| > |(breakTies l).z| := by
  have hy : (breakTies l).y = l.y := by
    rw [breakTies_y, if_neg (ne_of_lt hx)]
  rw [hy, breakTies_x]
  exact ⟨hx, lt_of_le_of_lt (abs_breakTies_z_le l) hz⟩

theorem strictMax_z_breakTies (l : Vector3 α) (hx : |l.x| < |l.z|) (hy : |l.y| < |l.z|) :
    |(breakTies l).z| > |(breakTies l).x| ∧ |(breakTies l).z| > |(breakTies l).y| := by
  have hz : (breakTies l).z = l.z := by
    rw [breakTies_z, if_neg (ne_of_lt hy), if_neg (ne_of_lt hx)]
  rw [hz, breakTies_x]
  exact ⟨hx, lt_of_le_of_lt (abs_breakTies_y_le l) hy⟩

/-- C1: `getGridLocation` returns false (`none`) if and only if the location is the zero
vector; every other location, ties on cube edges and corners included, yields a face and
a cell. -/
theorem getGridLocation_false_iff_zero [FloorRing α] (p : PSphere α) (location : Vector3 α) :
    (getGridLocation p location = none ↔ location = ⟨0, 0, 0⟩) ∧
    ((∃ face ix iy, getGridLocation p location = some (face, ix, iy)) ↔
      location ≠ ⟨0, 0, 0⟩) := by
  have hz : location = ⟨0, 0, 0⟩ ↔ location.x = 0 ∧ location.y = 0 ∧ location.z = 0 := by
    cases location
    simp
  have h1 : getGridLocation p location = none ↔ location = ⟨0, 0, 0⟩ := by
    rw [hz]
    exact getGridLocation_eq_none_iff p location
  refine ⟨h1, ?_⟩
  rw [Ne, ← h1]
  constructor
  · rintro ⟨face, ix, iy, h⟩ hn
    rw [hn] at h
    exact Option.noConfusion h
  · intro hn
    rcases hr : getGridLocation p location with _ | ⟨face, ix, iy⟩
    · exact absurd hr hn
    · exact ⟨face, ix, iy, rfl⟩

/-- C2: when one absolute component is strictly the largest, `getGridLocation` selects
the face of that axis and of the sign of that component. -/
theorem getGridLocation_selects_dominant_face [FloorRing α] (p : PSphere α) (location : Vector3 α) :
    (|location.y| < |location.x| → |location.z| < |location.x| →
      (0 < location.x → ∃ ix iy, getGridLocation p location = some (Face.gridXP, ix, iy)) ∧
      (location.x < 0 → ∃ ix iy, getGridLocation p location = some (Face.gridXM, ix, iy))) ∧
    (|location.x| < |location.y| → |location.z| < |location.y| →
      (0 < location.y → ∃ ix iy, getGridLocation p location = some (Face.gridYP, ix, iy)) ∧
      (location.y < 0 → ∃ ix iy, getGridLocation p location = some (Face.gridYM, ix, iy))) ∧
    (|location.x| < |location.z| → |location.y| < |location.z| →
      (0 < location.z → ∃ ix iy, getGridLocation p location = some (Face.gridZP, ix, iy)) ∧
      (location.z < 0 → ∃ ix iy, getGridLocation p location = some (Face.gridZM, ix, iy))) := by
  refine ⟨fun hy hz => ?_, fun hx hz => ?_, fun hx hy => ?_⟩
  · have h := getGridLocation_of_x p location (strictMax_x_breakTies location hy hz)
    rw [breakTies_x] at h
    constructor
    · intro hpos
      rw [if_neg (not_lt.mpr hpos.le)] at h
      exact ⟨_, _, h⟩
    · intro hneg
      rw [if_pos hneg] at h
      exact ⟨_, _, h⟩
  · have h := getGridLocation_of_y p location (strictMax_y_breakTies location hx hz)
    simp only [breakTies_y_neg_iff] at h
    constructor
    · intro hpos
      rw [if_neg (not_lt.mpr hpos.le)] at h
      exact ⟨_, _, h⟩
    · intro hneg
      rw [if_pos hneg] at h
      exact ⟨_, _, h⟩
  · have h := getGridLocation_of_z p location (strictMax_z_breakTies location hx hy)
    simp only [breakTies_z_neg_iff] at h
    constructor
    · intro hpos
      rw [if_neg (not_lt.mpr hpos.le)] at h
      exact ⟨_, _, h⟩
    · intro hneg
      rw [if_pos hneg] at h
      exact ⟨_, _, h⟩

/-- Witness for C2: one location for each of the six faces. -/
theorem getGridLocation_selects_dominant_face_witness :
    (∃ ix iy, getGridLocation (examplePlanet ℚ) ⟨3, 1, -2⟩ = some (Face.gridXP, ix, iy)) ∧
    (∃ ix iy, getGridLocation (examplePlanet ℚ) ⟨-3, 1, 1⟩ = some (Face.gridXM, ix, iy)) ∧
    (∃ ix iy, getGridLocation (examplePlanet ℚ) ⟨2, 5, 2⟩ = some (Face.gridYP, ix, iy)) ∧
    (∃ ix iy, getGridLocation (examplePlanet ℚ) ⟨0, -1, 0⟩ = some (Face.gridYM, ix, iy)) ∧
    (∃ ix iy, getGridLocation (examplePlanet ℚ) ⟨1, 1, 7⟩ = some (Face.gridZP, ix, iy)) ∧
    (∃ ix iy, getGridLocation (examplePlanet ℚ) ⟨1, -2, -4⟩ = some (Face.gridZM, ix, iy)) :=
  ⟨((getGridLocation_selects_dominant_face (examplePlanet ℚ) ⟨3, 1, -2⟩).1
      (by norm_num) (by norm_num)).1 (by norm_num),
   ((getGridLocation_selects_dominant_face (examplePlanet ℚ) ⟨-3, 1, 1⟩).1
      (by norm_num) (by norm_num)).2 (by norm_num),
   ((getGridLocation_selects_dominant_face (examplePlanet ℚ) ⟨2, 5, 2⟩).2.1
      (by norm_num) (by norm_num)).1 (by norm_num),
   ((getGridLocation_selects_dominant_face (examplePlanet ℚ) ⟨0, -1, 0⟩).2.1
      (by norm_num) (by norm_num)).2 (by norm_num),
   ((getGridLocation_selects_dominant_face (examplePlanet ℚ) ⟨1, 1, 7⟩).2.2
      (by norm_num) (by norm_num)).1 (by norm_num),
   ((getGridLocation_selects_dominant_face (examplePlanet ℚ) ⟨1, -2, -4⟩).2.2
      (by norm_num) (by norm_num)).2 (by norm_num)⟩

end GridLocation

section SeaLevel

variable {α : Type} [LinearOrderedField α]

/-! ## Lemmas on `calculateSeaLevel` -/

theorem foldl_min_le_init (l : List α) (m : α) :
    l.foldl (fun minElev h => if minElev > h then h else minElev) m ≤ m := by
  induction l generalizing m with
  | nil => exact le_refl _
  | cons a t ih =>
    simp only [List.foldl_cons]
    split_ifs with h
    · exact le_trans (ih a) h.le
    · exact ih m

theorem foldl_min_le_mem (l : List α) (m : α) (h : α) (hm : h ∈ l) :
    l.foldl (fun minElev h => if minElev > h then h else minElev) m ≤ h := by
  induction l generalizing m with
  | nil => cases hm
  | cons a t ih =>
    simp only [List.foldl_cons]
    rcases List.mem_cons.mp hm with rfl | ht
    · split_ifs with hc
      · exact foldl_min_le_init t h
      · exact le_trans (foldl_min_le_init t m) (not_lt.mp hc)
    · exact ih _ ht

theorem le_foldl_min (l : List α) (m b : α) (hb : b ≤ m) (hl : ∀ h ∈ l, b ≤ h) :
    b ≤ l.foldl (fun minElev h => if minElev > h then h else minElev) m := by
  induction l generalizing m with
  | nil => exact hb
  | cons a t ih =>
    simp only [List.foldl_cons]
    have ha := hl a (List.mem_cons_self a t)
    have ht : ∀ h ∈ t, b ≤ h := fun h hh => hl h (List.mem_cons_of_mem a hh)
    split_ifs
    · exact ih a ha ht
    · exact ih m hb ht

theorem init_le_foldl_max (l : List α) (m : α) :
    m ≤ l.foldl (fun maxElev h => if maxElev < h then h else maxElev) m := by
  induction l generalizing m with
  | nil => exact le_refl _
  | cons a t ih =>
    simp only [List.foldl_cons]
    split_ifs with h
    · exact le_trans h.le (ih a)
    · exact ih m

theorem mem_le_foldl_max (l : List α) (m : α) (h : α) (hm : h ∈ l) :
    h ≤ l.foldl (fun maxElev h => if maxElev < h then h else maxElev) m := by
  induction l generalizing m with
  | nil => cases hm
  | cons a t ih =>
    simp only [List.foldl_cons]
    rcases List.mem_cons.mp hm with rfl | ht
    · split_ifs with hc
      · exact init_le_foldl_max t h
      · exact le_trans (not_lt.mp hc) (init_le_foldl_max t m)
    · exact ih _ ht

theorem foldl_max_le (l : List α) (m b : α) (hb : m ≤ b) (hl : ∀ h ∈ l, h ≤ b) :
    l.foldl (fun maxElev h => if maxElev < h then h else maxElev) m ≤ b := by
  induction l generalizing m with
  | nil => exact hb
  | cons a t ih =>
    simp only [List.foldl_cons]
    have ha := hl a (List.mem_cons_self a t)
    have ht : ∀ h ∈ t, h ≤ b := fun h hh => hl h (List.mem_cons_of_mem a hh)
    split_ifs
    · exact ih a ha ht
    · exact ih m hb ht

/-- Every test height lies between the running minimum and the running maximum. -/
theorem minElevOf_le_mem (l : List α) (h : α) (hm : h ∈ l) : minElevOf l ≤ h :=
  foldl_min_le_mem l _ h hm

theorem mem_le_maxElevOf (l : List α) (h : α) (hm : h ∈ l) : h ≤ maxElevOf l :=
  mem_le_foldl_max l _ h hm

theorem mult_eq : (mult : α) = 199 / 2 := by
  unfold mult BRACKETS
  norm_num

/-- The slot of a height between the minimum and the maximum is below `BRACKETS`. -/
theorem slotOf_lt_BRACKETS [FloorRing α] (minElev maxElev h : α) (hlt : minElev < maxElev)
    (h1 : minElev ≤ h) (h2 : h ≤ maxElev) : slotOf minElev maxElev h < BRACKETS := by
  have hd : 0 < maxElev - minElev := sub_pos.mpr hlt
  have hr0 : 0 ≤ (h - minElev) / (maxElev - minElev) := div_nonneg (sub_nonneg.mpr h1) hd.le
  have hr1 : (h - minElev) / (maxElev - minElev) ≤ 1 := by
    rw [div_le_one hd]
    linarith
  have hv0 : 0 ≤ (h - minElev) / (maxElev - minElev) * (199 / 2 : α) := by positivity
  have hv1 : (h - minElev) / (maxElev - minElev) * (199 / 2 : α) < 100 := by nlinarith
  unfold slotOf toUInt BRACKETS
  rw [mult_eq, if_pos hv0]
  have hf0 : 0 ≤ Int.floor ((h - minElev) / (maxElev - minElev) * (199 / 2 : α)) :=
    Int.floor_nonneg.mpr hv0
  have hf1 : Int.floor ((h - minElev) / (maxElev - minElev) * (199 / 2 : α)) < 100 := by
    rw [Int.floor_lt]
    exact_mod_cast hv1
  omega

end SeaLevel

section SeaLevelScan

variable {α : Type} [LinearOrderedField α]

theorem sum_set_succ (l : List Nat) (k : Nat) (hk : k < l.length) :
    (l.set k (l.getD k 0 + 1)).sum = l.sum + 1 := by
  induction l generalizing k with
  | nil => simp at hk
  | cons a t ih =>
    cases k with
    | zero => simp [List.set]; omega
    | succ k =>
      have hk2 : k < t.length := by simpa using hk
      simp only [List.set, List.sum_cons, List.getD_cons_succ]
      rw [ih k hk2]
      omega

/-- Filling succeeds when every height has a slot below `BRACKETS`; it keeps the number
of slots and adds one count for each height. -/
theorem fillHistogram_some [FloorRing α] (minElev maxElev : α) (l : List α) (hist : List Nat)
    (hlen : hist.length = BRACKETS)
    (hs : ∀ h ∈ l, slotOf minElev maxElev h < BRACKETS) :
    ∃ histogram, fillHistogram minElev maxElev l hist = some histogram ∧
      histogram.length = BRACKETS ∧ histogram.sum = hist.sum + l.length := by
  induction l generalizing hist with
  | nil => exact ⟨hist, rfl, hlen, by simp⟩
  | cons a t ih =>
    have ha := hs a (List.mem_cons_self a t)
    have ht : ∀ h ∈ t, slotOf minElev maxElev h < BRACKETS :=
      fun h hh => hs h (List.mem_cons_of_mem a hh)
    obtain ⟨histogram, h1, h2, h3⟩ :=
      ih (hist.set (slotOf minElev maxElev a) (hist.getD (slotOf minElev maxElev a) 0 + 1))
        (by simpa using hlen) ht
    refine ⟨histogram, ?_, h2, ?_⟩
    · simp only [fillHistogram, if_pos ha]
      exact h1
    · rw [h3, sum_set_succ hist _ (by rw [hlen]; exact ha)]
      simp only [List.length_cons]
      omega

/-- The loop index never passes the end of the loop. -/
theorem scanSlots_le (histogram : List Nat) (threshold : α) (n i acc : Nat) :
    scanSlots histogram threshold n i acc ≤ i + n := by
  induction n generalizing i acc with
  | zero => simp [scanSlots]
  | succ n ih =>
    simp only [scanSlots]
    split_ifs
    · omega
    · have := ih (i + 1) (acc + histogram.getD i 0)
      omega

theorem le_scanSlots (histogram : List Nat) (threshold : α) (n i acc : Nat) :
    i ≤ scanSlots histogram threshold n i acc := by
  induction n generalizing i acc with
  | zero => simp [scanSlots]
  | succ n ih =>
    simp only [scanSlots]
    split_ifs
    · exact le_refl _
    · have := ih (i + 1) (acc + histogram.getD i 0)
      omega

theorem slotSum_succ (histogram : List Nat) (i n : Nat) :
    slotSum histogram i (n + 1) = histogram.getD i 0 + slotSum histogram (i + 1) n := by
  unfold slotSum
  rw [List.range_succ_eq_map, List.map_cons, List.sum_cons, List.map_map]
  simp only [Nat.add_zero]
  congr 2
  apply List.map_congr_left
  intro k _
  simp only [Function.comp]
  congr 1
  omega

theorem slotSum_zero_eq_sum (histogram : List Nat) :
    slotSum histogram 0 histogram.length = histogram.sum := by
  induction histogram with
  | nil => simp [slotSum]
  | cons a t ih =>
    rw [List.length_cons, slotSum_succ]
    simp only [List.getD_cons_zero, List.sum_cons]
    congr 1
    rw [← ih]
    unfold slotSum
    congr 1
    apply List.map_congr_left
    intro k _
    simp [Nat.add_comm]

/-- A larger threshold stops the loop later or at the same index. -/
theorem scanSlots_mono (histogram : List Nat) (t1 t2 : α) (ht : t1 ≤ t2) (n i acc : Nat) :
    scanSlots histogram t1 n i acc ≤ scanSlots histogram t2 n i acc := by
  induction n generalizing i acc with
  | zero => simp [scanSlots]
  | succ n ih =>
    simp only [scanSlots]
    by_cases h1 : ((acc + histogram.getD i 0 : Nat) : α) > t1
    · rw [if_pos h1]
      split_ifs
      · exact le_refl _
      · exact le_trans (Nat.le_succ i) (le_scanSlots histogram t2 n (i + 1) _)
    · have h2 : ¬ ((acc + histogram.getD i 0 : Nat) : α) > t2 := by
        intro hc
        exact h1 (lt_of_le_of_lt ht hc)
      rw [if_neg h1, if_neg h2]
      exact ih (i + 1) _

theorem seaHeightOf_mono (i j : Nat) (hij : i ≤ j) (minElev maxElev : α)
    (h : minElev ≤ maxElev) : seaHeightOf i minElev maxElev ≤ seaHeightOf j minElev maxElev := by
  unfold seaHeightOf BRACKETS
  have hd : 0 ≤ maxElev - minElev := sub_nonneg.mpr h
  have hc : (i : α) ≤ (j : α) := by exact_mod_cast hij
  have : (i : α) / ((100 - 1 : Nat) : α) ≤ (j : α) / ((100 - 1 : Nat) : α) := by
    apply div_le_div_of_nonneg_right hc
    positivity
  nlinarith

theorem seaHeightOf_zero (minElev maxElev : α) : seaHeightOf 0 minElev maxElev = minElev := by
  simp [seaHeightOf]

end SeaLevelScan

section SeaLevelClaims

variable {α : Type} [LinearOrderedField α]

theorem testHeights_length (heightNoise : List α → List α → Vector3 α → α)
    (testVec : Nat → Vector3 α) (p : PSphere α) :
    (testHeights heightNoise testVec p).length = TESTVECS := by
  simp [testHeights]

/-- With `minElev < maxElev` the assertion holds for every test height, and the function
returns the state described by the scan of a histogram of `TESTVECS` counts. -/
theorem calculateSeaLevel_eq [FloorRing α] (heightNoise : List α → List α → Vector3 α → α)
    (testVec : Nat → Vector3 α) (p : PSphere α)
    (hlt : minElevOf (testHeights heightNoise testVec p) <
      maxElevOf (testHeights heightNoise testVec p)) :
    ∃ histogram : List Nat, histogram.length = BRACKETS ∧ histogram.sum = TESTVECS ∧
      ∀ seaFraction : α, calculateSeaLevel heightNoise testVec p seaFraction =
        some { p with
          minimumHeight := minElevOf (testHeights heightNoise testVec p)
          maximumHeight := maxElevOf (testHeights heightNoise testVec p)
          seaHeight := seaHeightOf
            (scanSlots histogram ((TESTVECS : α) * seaFraction) BRACKETS 0 0)
            (minElevOf (testHeights heightNoise testVec p))
            (maxElevOf (testHeights heightNoise testVec p)) } := by
  obtain ⟨histogram, h1, h2, h3⟩ :=
    fillHistogram_some (minElevOf (testHeights heightNoise testVec p))
      (maxElevOf (testHeights heightNoise testVec p)) (testHeights heightNoise testVec p)
      (List.replicate BRACKETS 0) (by simp)
      (fun h hh => slotOf_lt_BRACKETS _ _ h hlt (minElevOf_le_mem _ h hh)
        (mem_le_maxElevOf _ h hh))
  refine ⟨histogram, h2, ?_, ?_⟩
  · rw [h3, testHeights_length]
    simp
  · intro seaFraction
    unfold calculateSeaLevel
    simp only [h1]

/-- The example heights are `-1` once and `1` otherwise. -/
theorem example_minElev :
    minElevOf (testHeights (exampleNoise α) (exampleTestVec α) (examplePlanet α)) = -1 := by
  apply le_antisymm
  · apply minElevOf_le_mem
    unfold testHeights
    refine List.mem_map.mpr ⟨0, List.mem_range.mpr (by unfold TESTVECS; norm_num), ?_⟩
    simp [exampleNoise, exampleTestVec, examplePlanet, Vector3.add]
  · unfold minElevOf
    apply le_foldl_min
    · norm_num
    · intro h hh
      unfold testHeights at hh
      obtain ⟨i, _, rfl⟩ := List.mem_map.mp hh
      by_cases hi : i = 0 <;>
        simp [exampleNoise, exampleTestVec, examplePlanet, Vector3.add, hi]

theorem example_maxElev :
    maxElevOf (testHeights (exampleNoise α) (exampleTestVec α) (examplePlanet α)) = 1 := by
  apply le_antisymm
  · unfold maxElevOf
    apply foldl_max_le
    · norm_num
    · intro h hh
      unfold testHeights at hh
      obtain ⟨i, _, rfl⟩ := List.mem_map.mp hh
      by_cases hi : i = 0 <;>
        simp [exampleNoise, exampleTestVec, examplePlanet, Vector3.add, hi]
  · apply mem_le_maxElevOf
    unfold testHeights
    refine List.mem_map.mpr ⟨1, List.mem_range.mpr (by unfold TESTVECS; norm_num), ?_⟩
    simp [exampleNoise, exampleTestVec, examplePlanet, Vector3.add]

theorem example_min_lt_max :
    minElevOf (testHeights (exampleNoise α) (exampleTestVec α) (examplePlanet α)) <
      maxElevOf (testHeights (exampleNoise α) (exampleTestVec α) (examplePlanet α)) := by
  rw [example_minElev, example_maxElev]
  norm_num

/-- C4: for fixed test heights with `minElev < maxElev` the sea level computed by
`calculateSeaLevel` does not decrease when the water fraction grows. -/
theorem calculateSeaLevel_monotone [FloorRing α]
    (heightNoise : List α → List α → Vector3 α → α)
    (testVec : Nat → Vector3 α) (p : PSphere α) (f1 f2 : α)
    (hlt : minElevOf (testHeights heightNoise testVec p) <
      maxElevOf (testHeights heightNoise testVec p))
    (hf : f1 ≤ f2) :
    ∃ q1 q2, calculateSeaLevel heightNoise testVec p f1 = some q1 ∧
      calculateSeaLevel heightNoise testVec p f2 = some q2 ∧
      q1.seaHeight ≤ q2.seaHeight := by
  obtain ⟨histogram, _, _, hcalc⟩ := calculateSeaLevel_eq heightNoise testVec p hlt
  refine ⟨_, _, hcalc f1, hcalc f2, ?_⟩
  show seaHeightOf _ _ _ ≤ seaHeightOf _ _ _
  apply seaHeightOf_mono _ _ _ _ _ hlt.le
  apply scanSlots_mono
  have hT : (0 : α) ≤ (TESTVECS : α) := by positivity
  exact mul_le_mul_of_nonneg_left hf hT

/-- Witness for C4: the example heights with the water fractions `1 / 4` and `3 / 4`. -/
theorem calculateSeaLevel_monotone_witness :
    ∃ q1 q2,
      calculateSeaLevel (exampleNoise ℚ) (exampleTestVec ℚ) (examplePlanet ℚ) (1 / 4) = some q1 ∧
      calculateSeaLevel (exampleNoise ℚ) (exampleTestVec ℚ) (examplePlanet ℚ) (3 / 4) = some q2 ∧
      q1.seaHeight ≤ q2.seaHeight :=
  calculateSeaLevel_monotone (exampleNoise ℚ) (exampleTestVec ℚ) (examplePlanet ℚ) (1 / 4) (3 / 4)
    example_min_lt_max (by norm_num)

end SeaLevelClaims

section LandInfo

variable {α : Type} [LinearOrderedField α]

/-! ## Lemmas on `setGridLandInfo` -/

theorem setCellLandInfo_projectToSphere (heightNoise : List α → List α → Vector3 α → α)
    (p : PSphere α) (g : Grid α) (x y : Nat) :
    (setCellLandInfo heightNoise p g x y).projectToSphere = g.projectToSphere := by
  unfold setCellLandInfo Grid.setValue
  simp only []
  split_ifs <;> rfl

theorem setCellLandInfo_value (heightNoise : List α → List α → Vector3 α → α)
    (p : PSphere α) (g : Grid α) (x y a b : Nat) :
    (setCellLandInfo heightNoise p g x y).value a b =
      if a = x ∧ b = y then
        (if heightNoise p.RParameter.amplitude p.RParameter.frequency
            ((g.projectToSphere x y).add p.randomTranslate) > p.seaHeight then 1 else 0)
      else g.value a b := by
  unfold setCellLandInfo Grid.setValue
  simp only []
  split_ifs <;> simp_all

/-- The inner loop over `y` writes the cells `(x, y)` of its column and no other. -/
theorem innerLoop_value (heightNoise : List α → List α → Vector3 α → α)
    (p : PSphere α) (x : Nat) (ys : List Nat) (g : Grid α) :
    (ys.foldl (fun g y => setCellLandInfo heightNoise p g x y) g).projectToSphere =
        g.projectToSphere ∧
    ∀ a b, (ys.foldl (fun g y => setCellLandInfo heightNoise p g x y) g).value a b =
      if a = x ∧ b ∈ ys then
        (if heightNoise p.RParameter.amplitude p.RParameter.frequency
            ((g.projectToSphere x b).add p.randomTranslate) > p.seaHeight then 1 else 0)
      else g.value a b := by
  induction ys generalizing g with
  | nil => simp
  | cons y t ih =>
    obtain ⟨h1, h2⟩ := ih (setCellLandInfo heightNoise p g x y)
    simp only [List.foldl_cons]
    refine ⟨by rw [h1, setCellLandInfo_projectToSphere], ?_⟩
    intro a b
    rw [h2 a b, setCellLandInfo_projectToSphere, setCellLandInfo_value]
    by_cases hax : a = x
    · by_cases hbt : b ∈ t
      · simp [hax, hbt]
      · by_cases hby : b = y
        · simp [hax, hby]
        · simp [hax, hbt, hby]
    · simp [hax]

/-- The outer loop over `x` writes the cells `(x, y)` with `x` and `y` in range. -/
theorem outerLoop_value (heightNoise : List α → List α → Vector3 α → α)
    (p : PSphere α) (ys xs : List Nat) (g : Grid α) :
    (xs.foldl (fun g x => ys.foldl (fun g y => setCellLandInfo heightNoise p g x y) g)
        g).projectToSphere = g.projectToSphere ∧
    ∀ a b, (xs.foldl (fun g x => ys.foldl (fun g y => setCellLandInfo heightNoise p g x y) g)
        g).value a b =
      if a ∈ xs ∧ b ∈ ys then
        (if heightNoise p.RParameter.amplitude p.RParameter.frequency
            ((g.projectToSphere a b).add p.randomTranslate) > p.seaHeight then 1 else 0)
      else g.value a b := by
  induction xs generalizing g with
  | nil => simp
  | cons x t ih =>
    obtain ⟨h1, h2⟩ := ih (ys.foldl (fun g y => setCellLandInfo heightNoise p g x y) g)
    obtain ⟨k1, k2⟩ := innerLoop_value heightNoise p x ys g
    simp only [List.foldl_cons]
    refine ⟨by rw [h1, k1], ?_⟩
    intro a b
    rw [h2 a b, k1, k2]
    by_cases hat : a ∈ t
    · by_cases hb : b ∈ ys
      · simp [hat, hb]
      · simp [hb]
    · by_cases hax : a = x
      · subst hax
        simp [hat]
      · simp [hat, hax]

/-- The value of every cell of the grid after `setGridLandInfo`. -/
theorem setGridLandInfo_value (heightNoise : List α → List α → Vector3 α → α)
    (p : PSphere α) (grid : Grid α) (x y : Nat) (hx : x < grid.size) (hy : y < grid.size) :
    (setGridLandInfo heightNoise p grid).getValue x y =
      if heightNoise p.RParameter.amplitude p.RParameter.frequency
          ((grid.projectToSphere x y).add p.randomTranslate) > p.seaHeight then 1 else 0 := by
  unfold setGridLandInfo Grid.getValue
  rw [(outerLoop_value heightNoise p (List.range grid.size) (List.range grid.size) grid).2 x y]
  rw [if_pos ⟨List.mem_range.mpr hx, List.mem_range.mpr hy⟩]

/-- C5: after `setGridLandInfo` the land mask of every cell `(x, y)` of the grid is water
(`0`) exactly when the height of the projected cell is at most `seaHeight`, and land
(`1`) otherwise. -/
theorem setGridLandInfo_water_iff (heightNoise : List α → List α → Vector3 α → α)
    (p : PSphere α) (grid : Grid α) (x y : Nat) (hx : x < grid.size) (hy : y < grid.size) :
    ((setGridLandInfo heightNoise p grid).getValue x y = 0 ↔
      heightNoise p.RParameter.amplitude p.RParameter.frequency
        ((grid.projectToSphere x y).add p.randomTranslate) ≤ p.seaHeight) ∧
    ((setGridLandInfo heightNoise p grid).getValue x y = 1 ↔
      ¬ heightNoise p.RParameter.amplitude p.RParameter.frequency
        ((grid.projectToSphere x y).add p.randomTranslate) ≤ p.seaHeight) := by
  rw [setGridLandInfo_value heightNoise p grid x y hx hy]
  constructor
  · split_ifs with h
    · simp only [one_ne_zero, false_iff, not_le]
      exact h
    · simp only [true_iff]
      exact not_lt.mp h
  · split_ifs with h
    · simp only [true_iff, not_le]
      exact h
    · simp only [zero_ne_one, false_iff, not_not]
      exact not_lt.mp h

/-- Witness for C5: in the example grid the cell `(0, 2)` projects to a point of height
`0`, which is the sea height, and the cell `(3, 1)` to a point of height `3`. -/
theorem setGridLandInfo_water_iff_witness :
    (setGridLandInfo (exampleNoise ℚ) (examplePlanet ℚ) (exampleGrid ℚ)).getValue 0 2 = 0 ∧
    (setGridLandInfo (exampleNoise ℚ) (examplePlanet ℚ) (exampleGrid ℚ)).getValue 3 1 = 1 :=
  ⟨(setGridLandInfo_water_iff (exampleNoise ℚ) (examplePlanet ℚ) (exampleGrid ℚ) 0 2
      (by decide) (by decide)).1.mpr
      (by simp [exampleNoise, examplePlanet, exampleGrid, Vector3.add]),
   (setGridLandInfo_water_iff (exampleNoise ℚ) (examplePlanet ℚ) (exampleGrid ℚ) 3 1
      (by decide) (by decide)).2.mpr
      (by simp [exampleNoise, examplePlanet, exampleGrid, Vector3.add])⟩

end LandInfo

section Accessibility

variable {α : Type} [LinearOrderedField α]

/-! ## Lemmas on `checkAccessibility` -/

/-- The loop over the objects leaves with `return false` when one of them locates to
the cell that is asked for. -/
theorem objectLoopReturnsFalse_of_mem [FloorRing α] (p : PSphere α) (grid : Face) (ix iy : Nat)
    (objs : List (ObjectInfo α)) (obj : ObjectInfo α) (hm : obj ∈ objs)
    (hobj : getGridLocation p obj.position = some (grid, ix, iy)) :
    objectLoopReturnsFalse p grid ix iy objs = true := by
  induction objs with
  | nil => cases hm
  | cons o t ih =>
    unfold objectLoopReturnsFalse
    rcases List.mem_cons.mp hm with rfl | ht
    · rw [hobj]
      simp
    · rcases hr : getGridLocation p o.position with _ | ⟨gridObj, Obj_x, Obj_y⟩
      · rfl
      · simp only []
        split_ifs
        · rfl
        · exact ih ht

theorem getGridLocation_example [FloorRing α] (p : PSphere α) (h : p.gridXP.size = 4) :
    getGridLocation p ⟨3, 1, -2⟩ = some (Face.gridXP, 2, 0) := by
  have h31 : ¬ (|(3 : α)| = |(1 : α)|) := by norm_num
  have h32 : ¬ (|(3 : α)| = |(-2 : α)|) := by norm_num
  have h12 : ¬ (|(1 : α)| = |(-2 : α)|) := by norm_num
  have hb : breakTies (⟨3, 1, -2⟩ : Vector3 α) = ⟨3, 1, -2⟩ := by
    simp only [breakTies, h31, h32, h12, if_false]
  have hx : |(breakTies (⟨3, 1, -2⟩ : Vector3 α)).x| > |(breakTies (⟨3, 1, -2⟩ : Vector3 α)).y| ∧
      |(breakTies (⟨3, 1, -2⟩ : Vector3 α)).x| > |(breakTies (⟨3, 1, -2⟩ : Vector3 α)).z| := by
    rw [hb]
    norm_num
  rw [getGridLocation_of_x p _ hx, hb]
  simp only [h]
  have e1 : cellIndex ((1 : α) * (1 / |(3 : α)|)) 4 = 2 := by
    unfold cellIndex toUShort
    have hv : (1 + (1 : α) * (1 / |(3 : α)|)) / 2 * ((4 : ℕ) : α) = 8 / 3 := by norm_num
    have hf : Int.floor (8 / 3 : α) = 2 := by
      rw [Int.floor_eq_iff]
      norm_num
    rw [hv, if_pos (by norm_num), hf]
    rfl
  have e2 : cellIndex ((-2 : α) * (1 / |(3 : α)|)) 4 = 0 := by
    unfold cellIndex toUShort
    have hv : (1 + (-2 : α) * (1 / |(3 : α)|)) / 2 * ((4 : ℕ) : α) = 2 / 3 := by norm_num
    have hf : Int.floor (2 / 3 : α) = 0 := by
      rw [Int.floor_eq_iff]
      norm_num
    rw [hv, if_pos (by norm_num), hf]
    rfl
  rw [if_neg (by norm_num), e1, e2]

/-- C6: `checkAccessibility` returns false whenever a registered object locates to the
face and cell of the location, and whenever the land mask of the located cell is water,
occupied or not. -/
theorem checkAccessibility_false_of_occupied_or_water [FloorRing α] (p : PSphere α)
    (location : Vector3 α) (face : Face) (ix iy : Nat)
    (hloc : getGridLocation p location = some (face, ix, iy)) :
    ((∃ obj ∈ p.objects, getGridLocation p obj.position = some (face, ix, iy)) →
      checkAccessibility p location = false) ∧
    ((p.grid face).getValue ix iy = 0 → checkAccessibility p location = false) := by
  constructor
  · rintro ⟨obj, hm, hobj⟩
    unfold checkAccessibility
    rw [hloc]
    simp only [objectLoopReturnsFalse_of_mem p face ix iy p.objects obj hm hobj, if_true]
  · intro hw
    unfold checkAccessibility
    rw [hloc]
    simp only [hw, ne_eq, not_true_eq_false, if_false, ite_self]

/-- Witness for C6: the cell `(2, 0)` of `gridXP`, once occupied by the object at
`(3, 1, -2)` and once water. -/
theorem checkAccessibility_false_of_occupied_or_water_witness :
    checkAccessibility (occupiedPlanet ℚ) ⟨3, 1, -2⟩ = false ∧
    checkAccessibility (waterPlanet ℚ) ⟨3, 1, -2⟩ = false :=
  ⟨(checkAccessibility_false_of_occupied_or_water (occupiedPlanet ℚ) ⟨3, 1, -2⟩ Face.gridXP 2 0
      (getGridLocation_example (occupiedPlanet ℚ) rfl)).1
      ⟨⟨⟨3, 1, -2⟩, "ship"⟩, List.mem_singleton.mpr rfl,
        getGridLocation_example (occupiedPlanet ℚ) rfl⟩,
   (checkAccessibility_false_of_occupied_or_water (waterPlanet ℚ) ⟨3, 1, -2⟩ Face.gridXP 2 0
      (getGridLocation_example (waterPlanet ℚ) rfl)).2 rfl⟩

end Accessibility

section Names

variable {α : Type}

/-! ## Decimal digits -/

theorem foldl_digits (l : List Char) (a : Nat) :
    l.foldl (fun a c => 10 * a + (c.toNat - 48)) a = a * 10 ^ l.length + digitsValue l := by
  induction l generalizing a with
  | nil => simp [digitsValue]
  | cons c t ih =>
    unfold digitsValue
    simp only [List.foldl_cons, List.length_cons]
    rw [ih, ih (10 * 0 + (c.toNat - 48))]
    ring

theorem digitsValue_cons (c : Char) (t : List Char) :
    digitsValue (c :: t) = (c.toNat - 48) * 10 ^ t.length + digitsValue t := by
  unfold digitsValue
  simp only [List.foldl_cons]
  rw [foldl_digits]
  simp [digitsValue]

theorem digitChar_value (m : Nat) (h : m < 10) : (Nat.digitChar m).toNat - 48 = m := by
  interval_cases m <;> rfl

theorem digitsValue_toDigitsCore (fuel n : Nat) (ds : List Char) (h : n < fuel) :
    digitsValue (Nat.toDigitsCore 10 fuel n ds) = n * 10 ^ ds.length + digitsValue ds := by
  induction fuel generalizing n ds with
  | zero => omega
  | succ fuel ih =>
    unfold Nat.toDigitsCore
    simp only []
    have hm : n % 10 < 10 := Nat.mod_lt _ (by norm_num)
    split_ifs with h0
    · rw [digitsValue_cons, digitChar_value _ hm]
      have : n % 10 = n := by omega
      rw [this]
    · have hlt : n / 10 < fuel := by omega
      rw [ih (n / 10) _ hlt, digitsValue_cons, digitChar_value _ hm]
      simp only [List.length_cons, pow_succ]
      have hn : n = 10 * (n / 10) + n % 10 := (Nat.div_add_mod n 10).symm
      conv_rhs => rw [hn]
      ring

theorem toString_injective (a b : Nat) (h : toString a = toString b) : a = b := by
  have h2 : Nat.toDigits 10 a = Nat.toDigits 10 b := by
    have : (Nat.toDigits 10 a).asString = (Nat.toDigits 10 b).asString := h
    exact congrArg String.data this
  have ha := digitsValue_toDigitsCore (a + 1) a [] (Nat.lt_succ_self a)
  have hb := digitsValue_toDigitsCore (b + 1) b [] (Nat.lt_succ_self b)
  unfold Nat.toDigits at h2
  rw [h2] at ha
  rw [ha] at hb
  simpa [digitsValue] using hb

theorem toString_data_ne_nil (a : Nat) : (toString a).data ≠ [] := by
  show (Nat.toDigits 10 a).asString.data ≠ []
  show Nat.toDigitsCore 10 (a + 1) a [] ≠ []
  unfold Nat.toDigitsCore
  simp only []
  split_ifs
  · exact List.cons_ne_nil _ _
  · intro h
    have := Nat.toDigitsCore_lens_eq 10 a (a / 10) (Nat.digitChar (a % 10)) []
    rw [h] at this
    simp at this

/-! ## Lemmas on the name loop -/

theorem candidateName_injective (base : String) (j k : Nat)
    (h : candidateName base j = candidateName base k) : j = k := by
  unfold candidateName at h
  split_ifs at h with hj hk hk
  · rw [hj, hk]
  · exfalso
    have hd := congrArg String.data h
    rw [String.data_append] at hd
    exact toString_data_ne_nil k (List.self_eq_append_right.mp hd)
  · exfalso
    have hd := congrArg String.data h
    rw [String.data_append] at hd
    exact toString_data_ne_nil j (List.self_eq_append_right.mp hd.symm)
  · have hd := congrArg String.data h
    rw [String.data_append, String.data_append] at hd
    have hs : toString j = toString k := String.ext (List.append_cancel_left hd)
    exact toString_injective j k hs

theorem checkIfObjectIsIn_iff (objects : List (ObjectInfo α)) (objectName : String) :
    checkIfObjectIsIn objects objectName = true ↔
      objectName ∈ objects.map (fun o => o.name) := by
  induction objects with
  | nil => simp [checkIfObjectIsIn]
  | cons o t ih =>
    unfold checkIfObjectIsIn
    split_ifs with h
    · simp [h]
    · rw [ih]
      simp only [List.map_cons, List.mem_cons]
      constructor
      · exact fun hm => Or.inr hm
      · rintro (he | hm)
        · exact absurd he.symm h
        · exact hm

/-- Among the first `n + 1` candidates one is not registered when `n` objects are. -/
theorem exists_free_candidate (objects : List (ObjectInfo α)) (base : String) :
    ∃ k, k ≤ objects.length ∧ checkIfObjectIsIn objects (candidateName base k) = false := by
  by_contra hc
  push_neg at hc
  have hall : ∀ k, k ≤ objects.length →
      candidateName base k ∈ objects.map (fun o => o.name) := by
    intro k hk
    rw [← checkIfObjectIsIn_iff]
    have := hc k hk
    simpa using this
  have hnd : ((List.range (objects.length + 1)).map (candidateName base)).Nodup :=
    (List.nodup_range _).map (fun j k h => candidateName_injective base j k h)
  have hsub : (List.range (objects.length + 1)).map (candidateName base) ⊆
      objects.map (fun o => o.name) := by
    intro s hs
    obtain ⟨k, hk, rfl⟩ := List.mem_map.mp hs
    exact hall k (Nat.lt_succ_iff.mp (List.mem_range.mp hk))
  have hlen := (hnd.subperm hsub).length_le
  simp at hlen

/-- The loop started at the counter `i` runs up to the first free candidate `k`. -/
theorem findFreeName_reaches (objects : List (ObjectInfo α)) (base : String) (k : Nat)
    (hfree : checkIfObjectIsIn objects (candidateName base k) = false)
    (hmin : ∀ j, j < k → checkIfObjectIsIn objects (candidateName base j) = true)
    (fuel i : Nat) (hik : i ≤ k) (hfuel : k - i < fuel) :
    findFreeName objects base fuel i (candidateName base i) = some (k, candidateName base k) := by
  induction fuel generalizing i with
  | zero => omega
  | succ fuel ih =>
    unfold findFreeName
    rcases Nat.eq_or_lt_of_le hik with he | hlt
    · subst he
      simp [hfree]
    · rw [if_pos (hmin i hlt)]
      have hc : base ++ toString (i + 1) = candidateName base (i + 1) := by
        unfold candidateName
        rw [if_neg (Nat.succ_ne_zero i)]
      simp only [hc]
      exact ih (i + 1) hlt (by omega)

/-- With more fuel than registered objects the loop ends, at the least counter whose
candidate is not registered; that counter is at most the number of objects. -/
theorem findFreeName_spec (objects : List (ObjectInfo α)) (base : String) (fuel : Nat)
    (hfuel : objects.length < fuel) :
    ∃ k, findFreeName objects base fuel 0 base = some (k, candidateName base k) ∧
      k ≤ objects.length ∧
      checkIfObjectIsIn objects (candidateName base k) = false ∧
      ∀ j, j < k → checkIfObjectIsIn objects (candidateName base j) = true := by
  classical
  have hex : ∃ k, checkIfObjectIsIn objects (candidateName base k) = false := by
    obtain ⟨k, _, hk⟩ := exists_free_candidate objects base
    exact ⟨k, hk⟩
  obtain ⟨k0, hk0, hfree0⟩ := exists_free_candidate objects base
  have hle : Nat.find hex ≤ objects.length := le_trans (Nat.find_min' hex hfree0) hk0
  have hmin : ∀ j, j < Nat.find hex →
      checkIfObjectIsIn objects (candidateName base j) = true := by
    intro j hj
    have := Nat.find_min hex hj
    simpa using this
  refine ⟨Nat.find hex, ?_, hle, Nat.find_spec hex, hmin⟩
  have h := findFreeName_reaches objects base (Nat.find hex) (Nat.find_spec hex) hmin fuel 0
    (Nat.zero_le _) (by omega)
  simpa [candidateName] using h

theorem finalNameOf_spec (objects : List (ObjectInfo α)) (newName : String) (fuel : Nat)
    (hfuel : objects.length < fuel) :
    ∃ k, finalNameOf fuel objects newName =
        some (candidateName (nameWithoutFormat newName) k) ∧
      k ≤ objects.length ∧
      checkIfObjectIsIn objects (candidateName (nameWithoutFormat newName) k) = false ∧
      ∀ j, j < k →
        checkIfObjectIsIn objects (candidateName (nameWithoutFormat newName) j) = true := by
  obtain ⟨k, h1, h2, h3, h4⟩ := findFreeName_spec objects (nameWithoutFormat newName) fuel hfuel
  refine ⟨k, ?_, h2, h3, h4⟩
  unfold finalNameOf
  rw [h1]
  rfl

end Names

section Placement

variable {α : Type}

/-- What a placement does to the registry: it appends one object, under the first free
candidate name. -/
theorem attachMeshSphereCoord_spec (fuel : Nat) (p : PSphere α) (objectName : String)
    (x y z : α) (hfuel : p.objects.length < fuel) :
    ∃ k, attachMeshSphereCoord fuel p objectName x y z =
        some { p with objects := p.objects ++
          [⟨⟨x, y, z⟩, candidateName (nameWithoutFormat objectName) k⟩] } ∧
      k ≤ p.objects.length ∧
      checkIfObjectIsIn p.objects (candidateName (nameWithoutFormat objectName) k) = false ∧
      ∀ j, j < k →
        checkIfObjectIsIn p.objects (candidateName (nameWithoutFormat objectName) j) = true := by
  obtain ⟨k, h1, h2, h3, h4⟩ := finalNameOf_spec p.objects objectName fuel hfuel
  refine ⟨k, ?_, h2, h3, h4⟩
  unfold attachMeshSphereCoord
  rw [h1]

theorem attachMeshSphereCoordMesh_spec (fuel : Nat) (p : PSphere α) (meshName : String)
    (x y z : α) (hfuel : p.objects.length < fuel) :
    ∃ k, attachMeshSphereCoordMesh fuel p meshName x y z =
        some { p with objects := p.objects ++
          [⟨⟨x, y, z⟩, candidateName (nameWithoutFormat meshName) k⟩] } ∧
      k ≤ p.objects.length ∧
      checkIfObjectIsIn p.objects (candidateName (nameWithoutFormat meshName) k) = false ∧
      ∀ j, j < k →
        checkIfObjectIsIn p.objects (candidateName (nameWithoutFormat meshName) j) = true := by
  obtain ⟨k, h1, h2, h3, h4⟩ := finalNameOf_spec p.objects meshName fuel hfuel
  refine ⟨k, ?_, h2, h3, h4⟩
  unfold attachMeshSphereCoordMesh
  rw [h1]

theorem attachMeshOnGround_spec [LinearOrderedField α] (sqrt : α → α)
    (heightNoise : List α → List α → Vector3 α → α)
    (convertSphericalToCartesian : α → α → Vector3 α) (fuel : Nat) (p : PSphere α)
    (objectName : String) (latitude longitude : α) (hfuel : p.objects.length < fuel) :
    ∃ k position, attachMeshOnGround sqrt heightNoise convertSphericalToCartesian fuel p
          objectName latitude longitude =
        some { p with objects := p.objects ++
          [⟨position, candidateName (nameWithoutFormat objectName) k⟩] } ∧
      k ≤ p.objects.length ∧
      checkIfObjectIsIn p.objects (candidateName (nameWithoutFormat objectName) k) = false ∧
      ∀ j, j < k →
        checkIfObjectIsIn p.objects (candidateName (nameWithoutFormat objectName) j) = true := by
  obtain ⟨k, h1, h2, h3, h4⟩ := finalNameOf_spec p.objects objectName fuel hfuel
  refine ⟨k, Vector3.scale
    ⟨p.radius * (convertSphericalToCartesian latitude longitude).x,
      p.radius * (convertSphericalToCartesian latitude longitude).y,
      p.radius * (convertSphericalToCartesian latitude longitude).z⟩
    (getSurfaceHeight sqrt heightNoise p
      ⟨p.radius * (convertSphericalToCartesian latitude longitude).x,
        p.radius * (convertSphericalToCartesian latitude longitude).y,
        p.radius * (convertSphericalToCartesian latitude longitude).z⟩ /
      Vector3.length sqrt
        ⟨p.radius * (convertSphericalToCartesian latitude longitude).x,
          p.radius * (convertSphericalToCartesian latitude longitude).y,
          p.radius * (convertSphericalToCartesian latitude longitude).z⟩), ?_, h2, h3, h4⟩
  unfold attachMeshOnGround
  simp only [h1]

/-- A registry with distinct names stays so when an object is appended under a name
that is not registered. -/
theorem nodup_after_append (p : PSphere α) (position : Vector3 α) (name : String)
    (hnodup : (registeredNames p).Nodup) (hfree : checkIfObjectIsIn p.objects name = false) :
    ∃ q o, some { p with objects := p.objects ++ [⟨position, name⟩] } = some q ∧
      q.objects = p.objects ++ [o] ∧ o.name ∉ registeredNames p ∧ (registeredNames q).Nodup := by
  have hnot : name ∉ registeredNames p := by
    intro hm
    have := (checkIfObjectIsIn_iff p.objects name).mpr hm
    rw [hfree] at this
    exact Bool.noConfusion this
  refine ⟨_, ⟨position, name⟩, rfl, rfl, hnot, ?_⟩
  unfold registeredNames
  simp only [List.map_append, List.map_cons, List.map_nil]
  rw [List.nodup_append]
  refine ⟨hnodup, List.nodup_singleton _, ?_⟩
  intro s hs hs2
  rw [List.mem_singleton] at hs2
  subst hs2
  exact hnot hs

/-- The five placements append one object under a name that was not registered. -/
theorem placement_appends_free_name [LinearOrderedField α] (sqrt : α → α)
    (heightNoise : List α → List α → Vector3 α → α)
    (convertSphericalToCartesian : α → α → Vector3 α) (fuel : Nat) (p : PSphere α)
    (meshName objectName : String) (x y z latitude longitude dist : α)
    (hnodup : (registeredNames p).Nodup) (hfuel : p.objects.length < fuel) :
    ∀ r ∈ [attachMeshSphereCoord fuel p objectName x y z,
        attachMeshSphereCoordMesh fuel p meshName x y z,
        attachMesh convertSphericalToCartesian fuel p objectName latitude longitude dist,
        attachMeshMesh convertSphericalToCartesian fuel p meshName latitude longitude dist,
        attachMeshOnGround sqrt heightNoise convertSphericalToCartesian fuel p objectName
          latitude longitude],
      ∃ q o, r = some q ∧ q.objects = p.objects ++ [o] ∧ o.name ∉ registeredNames p ∧
        (registeredNames q).Nodup := by
  intro r hr
  simp only [List.mem_cons, List.mem_singleton, List.not_mem_nil, or_false] at hr
  rcases hr with rfl | rfl | rfl | rfl | rfl
  · obtain ⟨k, h1, _, h3, _⟩ := attachMeshSphereCoord_spec fuel p objectName x y z hfuel
    rw [h1]
    exact nodup_after_append p _ _ hnodup h3
  · obtain ⟨k, h1, _, h3, _⟩ := attachMeshSphereCoordMesh_spec fuel p meshName x y z hfuel
    rw [h1]
    exact nodup_after_append p _ _ hnodup h3
  · unfold attachMesh
    simp only []
    obtain ⟨k, h1, _, h3, _⟩ := attachMeshSphereCoord_spec fuel p objectName
      ((if dist = 0 then p.radius else dist) * 2 *
        (convertSphericalToCartesian latitude longitude).x)
      ((if dist = 0 then p.radius else dist) * 2 *
        (convertSphericalToCartesian latitude longitude).y)
      ((if dist = 0 then p.radius else dist) * 2 *
        (convertSphericalToCartesian latitude longitude).z) hfuel
    rw [h1]
    exact nodup_after_append p _ _ hnodup h3
  · unfold attachMeshMesh
    simp only []
    obtain ⟨k, h1, _, h3, _⟩ := attachMeshSphereCoordMesh_spec fuel p meshName
      (p.radius * (6 / 5) * (convertSphericalToCartesian latitude longitude).x)
      (p.radius * (6 / 5) * (convertSphericalToCartesian latitude longitude).y)
      (p.radius * (6 / 5) * (convertSphericalToCartesian latitude longitude).z) hfuel
    rw [h1]
    exact nodup_after_append p _ _ hnodup h3
  · obtain ⟨k, position, h1, _, h3, _⟩ := attachMeshOnGround_spec sqrt heightNoise
      convertSphericalToCartesian fuel p objectName latitude longitude hfuel
    rw [h1]
    exact nodup_after_append p _ _ hnodup h3

end Placement

section PlacementClaims

variable {α : Type}

/-- The first free candidate is the name without format when that is free, and the name
followed by the least free counter from `1` on otherwise. -/
theorem candidate_cases (objects : List (ObjectInfo α)) (base : String) (k : Nat)
    (hk : k ≤ objects.length)
    (hfree : checkIfObjectIsIn objects (candidateName base k) = false)
    (hmin : ∀ j, j < k → checkIfObjectIsIn objects (candidateName base j) = true) :
    (checkIfObjectIsIn objects base = false → candidateName base k = base) ∧
    (checkIfObjectIsIn objects base = true →
      ∃ m, 1 ≤ m ∧ m ≤ objects.length ∧ candidateName base k = base ++ toString m ∧
        checkIfObjectIsIn objects (base ++ toString m) = false ∧
        ∀ j, 1 ≤ j → j < m → checkIfObjectIsIn objects (base ++ toString j) = true) := by
  have hc0 : candidateName base 0 = base := by simp [candidateName]
  have hcs : ∀ j, 1 ≤ j → candidateName base j = base ++ toString j := by
    intro j hj
    unfold candidateName
    rw [if_neg (by omega)]
  constructor
  · intro hb
    rcases Nat.eq_zero_or_pos k with h0 | hpos
    · rw [h0, hc0]
    · have := hmin 0 hpos
      rw [hc0, hb] at this
      exact Bool.noConfusion this
  · intro hb
    have hpos : 1 ≤ k := by
      rcases Nat.eq_zero_or_pos k with h0 | hpos
      · rw [h0, hc0, hb] at hfree
        exact Bool.noConfusion hfree
      · exact hpos
    refine ⟨k, hpos, hk, hcs k hpos, ?_, ?_⟩
    · rw [← hcs k hpos]
      exact hfree
    · intro j hj hjk
      rw [← hcs j hj]
      exact hmin j hjk

theorem nameWithoutFormat_of_dot (pre post : List Char) (h : '.' ∉ pre) :
    nameWithoutFormat ⟨pre ++ '.' :: post⟩ = ⟨pre⟩ := by
  unfold nameWithoutFormat
  congr 1
  induction pre with
  | nil => simp [List.takeWhile]
  | cons c t ih =>
    have hc : c ≠ '.' := fun he => h (by rw [he]; exact List.mem_cons_self _ _)
    have ht : '.' ∉ t := fun hm => h (List.mem_cons_of_mem _ hm)
    simp only [List.cons_append, List.takeWhile_cons, hc, ne_eq, not_false_eq_true,
      decide_True, if_true]
    rw [ih ht]

theorem nameWithoutFormat_of_no_dot (s : String) (h : '.' ∉ s.data) :
    nameWithoutFormat s = s := by
  unfold nameWithoutFormat
  apply String.ext
  show s.data.takeWhile (fun c => c ≠ '.') = s.data
  rw [List.takeWhile_eq_self_iff]
  intro c hc
  have : c ≠ '.' := fun he => h (he ▸ hc)
  simpa using this

/-- C7: name uniqueness is kept by every placement.  When the registered names are
pairwise distinct, each of `attachMeshSphereCoord`, `attachMesh` (both with and without
an object name) and `attachMeshOnGround` returns, with enough fuel for the search loop,
a state whose registry is the old one with exactly one object appended, under a name
that no registered object had, so that the names stay pairwise distinct; and placing
twice under the same requested name registers two distinct names. -/
theorem placement_keeps_names_distinct [LinearOrderedField α] (sqrt : α → α)
    (heightNoise : List α → List α → Vector3 α → α)
    (convertSphericalToCartesian : α → α → Vector3 α) (fuel : Nat) (p : PSphere α)
    (meshName objectName : String) (x y z latitude longitude dist : α)
    (hnodup : (registeredNames p).Nodup) (hfuel : p.objects.length < fuel) :
    (∀ r ∈ [attachMeshSphereCoord fuel p objectName x y z,
        attachMeshSphereCoordMesh fuel p meshName x y z,
        attachMesh convertSphericalToCartesian fuel p objectName latitude longitude dist,
        attachMeshMesh convertSphericalToCartesian fuel p meshName latitude longitude dist,
        attachMeshOnGround sqrt heightNoise convertSphericalToCartesian fuel p objectName
          latitude longitude],
      ∃ q o, r = some q ∧ q.objects = p.objects ++ [o] ∧ o.name ∉ registeredNames p ∧
        (registeredNames q).Nodup) ∧
    (∃ q1 q2 o1 o2, attachMeshSphereCoord fuel p objectName x y z = some q1 ∧
      attachMeshSphereCoord (fuel + 1) q1 objectName x y z = some q2 ∧
      q2.objects = p.objects ++ [o1, o2] ∧ o1.name ≠ o2.name) := by
  refine ⟨placement_appends_free_name sqrt heightNoise convertSphericalToCartesian fuel p
    meshName objectName x y z latitude longitude dist hnodup hfuel, ?_⟩
  obtain ⟨k1, h1, _, _, _⟩ := attachMeshSphereCoord_spec fuel p objectName x y z hfuel
  obtain ⟨k2, h2, _, hfree2, _⟩ := attachMeshSphereCoord_spec (fuel + 1)
    { p with objects := p.objects ++
      [⟨⟨x, y, z⟩, candidateName (nameWithoutFormat objectName) k1⟩] }
    objectName x y z (by simp only [List.length_append, List.length_singleton]; omega)
  refine ⟨_, _, ⟨⟨x, y, z⟩, candidateName (nameWithoutFormat objectName) k1⟩,
    ⟨⟨x, y, z⟩, candidateName (nameWithoutFormat objectName) k2⟩, h1, h2, ?_, ?_⟩
  · simp only [List.append_assoc, List.singleton_append]
  · intro he
    have hin : checkIfObjectIsIn
        (p.objects ++ [⟨⟨x, y, z⟩, candidateName (nameWithoutFormat objectName) k1⟩])
        (candidateName (nameWithoutFormat objectName) k2) = true := by
      rw [checkIfObjectIsIn_iff]
      simp only [List.map_append, List.map_cons, List.map_nil, List.mem_append,
        List.mem_singleton]
      exact Or.inr he.symm
    rw [hin] at hfree2
    exact Bool.noConfusion hfree2

/-- Witness for C7: a third `ship` is placed on the example planet where `ship` and
`ship1` are registered. -/
theorem placement_keeps_names_distinct_witness :
    ∃ q o, attachMeshSphereCoord 3 (twoShips ℚ) "ship.mesh" 0 0 1 = some q ∧
      q.objects = (twoShips ℚ).objects ++ [o] ∧ o.name ∉ registeredNames (twoShips ℚ) ∧
      (registeredNames q).Nodup :=
  (placement_keeps_names_distinct (fun a => a) (exampleNoise ℚ) (exampleConvert ℚ) 3
    (twoShips ℚ) "ship.mesh" "ship.mesh" 0 0 1 0 0 0 (by decide) (by decide)).1 _
    (List.mem_cons_self _ _)

/-- C8: the name registered by a placement.  The base is the requested name up to its
first `'.'` (the whole name when it has none).  With enough fuel for the search loop
(more than the number of registered objects) `attachMeshSphereCoord` and
`attachMeshOnGround` return and register the base when it is free, and otherwise the
base followed by the decimal digits of the least `k ≥ 1` whose name is free. -/
theorem placement_registers_first_free_name [LinearOrderedField α] (sqrt : α → α)
    (heightNoise : List α → List α → Vector3 α → α)
    (convertSphericalToCartesian : α → α → Vector3 α) (fuel : Nat) (p : PSphere α)
    (objectName : String) (x y z latitude longitude : α)
    (hfuel : p.objects.length < fuel) :
    (∀ pre post : List Char, '.' ∉ pre → nameWithoutFormat ⟨pre ++ '.' :: post⟩ = ⟨pre⟩) ∧
    ('.' ∉ objectName.data → nameWithoutFormat objectName = objectName) ∧
    ∀ r ∈ [attachMeshSphereCoord fuel p objectName x y z,
        attachMeshOnGround sqrt heightNoise convertSphericalToCartesian fuel p objectName
          latitude longitude],
      ∃ q o, r = some q ∧ q.objects = p.objects ++ [o] ∧
        (checkIfObjectIsIn p.objects (nameWithoutFormat objectName) = false →
          o.name = nameWithoutFormat objectName) ∧
        (checkIfObjectIsIn p.objects (nameWithoutFormat objectName) = true →
          ∃ k, 1 ≤ k ∧ k ≤ p.objects.length ∧
            o.name = nameWithoutFormat objectName ++ toString k ∧
            checkIfObjectIsIn p.objects (nameWithoutFormat objectName ++ toString k) = false ∧
            ∀ j, 1 ≤ j → j < k →
              checkIfObjectIsIn p.objects (nameWithoutFormat objectName ++ toString j) =
                true) := by
  refine ⟨nameWithoutFormat_of_dot, nameWithoutFormat_of_no_dot objectName, ?_⟩
  intro r hr
  simp only [List.mem_cons, List.mem_singleton, List.not_mem_nil, or_false] at hr
  rcases hr with rfl | rfl
  · obtain ⟨k, h1, h2, h3, h4⟩ := attachMeshSphereCoord_spec fuel p objectName x y z hfuel
    have hc := candidate_cases p.objects (nameWithoutFormat objectName) k h2 h3 h4
    exact ⟨_, ⟨⟨x, y, z⟩, candidateName (nameWithoutFormat objectName) k⟩, h1, rfl, hc.1, hc.2⟩
  · obtain ⟨k, position, h1, h2, h3, h4⟩ := attachMeshOnGround_spec sqrt heightNoise
      convertSphericalToCartesian fuel p objectName latitude longitude hfuel
    have hc := candidate_cases p.objects (nameWithoutFormat objectName) k h2 h3 h4
    exact ⟨_, ⟨position, candidateName (nameWithoutFormat objectName) k⟩, h1, rfl, hc.1, hc.2⟩

/-- Witness for C8: on the example planet with `ship` and `ship1` registered, a
placement under `ship.mesh` registers `ship2`. -/
theorem placement_registers_first_free_name_witness :
    ∃ q o, attachMeshSphereCoord 3 (twoShips ℚ) "ship.mesh" 0 0 1 = some q ∧
      q.objects = (twoShips ℚ).objects ++ [o] ∧ o.name = "ship2" := by
  obtain ⟨q, o, h1, h2, _, h4⟩ :=
    (placement_registers_first_free_name (fun a => a) (exampleNoise ℚ) (exampleConvert ℚ) 3
      (twoShips ℚ) "ship.mesh" 0 0 1 0 0 (by decide)).2.2 _ (List.mem_cons_self _ _)
  refine ⟨q, o, h1, h2, ?_⟩
  obtain ⟨k, hk1, hk2, hname, hfree, _⟩ := h4 (by decide)
  have hk3 : k ≤ 2 := hk2
  interval_cases k
  · exact absurd hfree (by decide)
  · rw [hname]
    decide

end PlacementClaims

section SurfaceHeight

variable {α : Type} [LinearOrderedField α]

/-! ## Lemmas on `getSurfaceHeight` and `getObserverDistanceToSurface` -/

theorem sumSquares_nonneg (a : Vector3 α) : 0 ≤ a.x * a.x + a.y * a.y + a.z * a.z := by
  nlinarith [mul_self_nonneg a.x, mul_self_nonneg a.y, mul_self_nonneg a.z]

theorem length_nonneg (sqrt : α → α) (hs : IsSqrt sqrt) (a : Vector3 α) :
    0 ≤ a.length sqrt :=
  (hs _ (sumSquares_nonneg a)).1

/-- A square root is the only non-negative number with the given square. -/
theorem sqrt_unique (sqrt : α → α) (hs : IsSqrt sqrt) (r a : α) (hr : 0 ≤ r)
    (hsq : r * r = a) : sqrt a = r := by
  have ha : 0 ≤ a := by
    rw [← hsq]
    exact mul_self_nonneg r
  obtain ⟨h1, h2⟩ := hs a ha
  have h3 : sqrt a * sqrt a = r * r := by rw [h2, hsq]
  exact (mul_self_inj_of_nonneg h1 hr).mp h3

theorem length_scale (sqrt : α → α) (hs : IsSqrt sqrt) (a : Vector3 α) (s : α) :
    (a.scale s).length sqrt = |s| * a.length sqrt := by
  unfold Vector3.length Vector3.scale
  apply sqrt_unique sqrt hs
  · exact mul_nonneg (abs_nonneg s) (hs _ (sumSquares_nonneg a)).1
  · have h2 := (hs _ (sumSquares_nonneg a)).2
    have h3 : |s| * |s| = s * s := abs_mul_abs_self s
    calc |s| * sqrt (a.x * a.x + a.y * a.y + a.z * a.z) *
          (|s| * sqrt (a.x * a.x + a.y * a.y + a.z * a.z))
        = (|s| * |s|) * (sqrt (a.x * a.x + a.y * a.y + a.z * a.z) *
            sqrt (a.x * a.x + a.y * a.y + a.z * a.z)) := by ring
      _ = (s * s) * (a.x * a.x + a.y * a.y + a.z * a.z) := by rw [h2, h3]
      _ = a.x * s * (a.x * s) + a.y * s * (a.y * s) + a.z * s * (a.z * s) := by ring

theorem length_pos_of_ne_zero (sqrt : α → α) (hs : IsSqrt sqrt) (a : Vector3 α)
    (hnz : a ≠ ⟨0, 0, 0⟩) : 0 < a.length sqrt := by
  have h0 := length_nonneg sqrt hs a
  rcases lt_or_eq_of_le h0 with h | h
  · exact h
  · exfalso
    have h2 := (hs _ (sumSquares_nonneg a)).2
    unfold Vector3.length at h
    rw [← h] at h2
    have hx : a.x = 0 := by
      nlinarith [mul_self_nonneg a.x, mul_self_nonneg a.y, mul_self_nonneg a.z]
    have hy : a.y = 0 := by
      nlinarith [mul_self_nonneg a.x, mul_self_nonneg a.y, mul_self_nonneg a.z]
    have hz : a.z = 0 := by
      nlinarith [mul_self_nonneg a.x, mul_self_nonneg a.y, mul_self_nonneg a.z]
    apply hnz
    cases a
    simp only [Vector3.mk.injEq]
    exact ⟨hx, hy, hz⟩

/-- The normalised copy of a non-zero vector is the vector divided by its length, and
has length one. -/
theorem normalisedCopy_of_ne_zero (sqrt : α → α) (hs : IsSqrt sqrt) (a : Vector3 α)
    (hnz : a ≠ ⟨0, 0, 0⟩) :
    a.normalisedCopy sqrt = a.scale (1 / a.length sqrt) ∧
      (a.normalisedCopy sqrt).length sqrt = 1 := by
  have hpos := length_pos_of_ne_zero sqrt hs a hnz
  have h1 : a.normalisedCopy sqrt = a.scale (1 / a.length sqrt) := by
    unfold Vector3.normalisedCopy
    simp only [gt_iff_lt, hpos, if_true]
  refine ⟨h1, ?_⟩
  rw [h1, length_scale sqrt hs, abs_of_pos (by positivity)]
  field_simp

/-- The surface height is the absolute value of `radius * (1 + elevation)` times the
length of the normalised copy. -/
theorem getSurfaceHeight_eq (sqrt : α → α) (hs : IsSqrt sqrt)
    (heightNoise : List α → List α → Vector3 α → α) (p : PSphere α) (Position : Vector3 α) :
    getSurfaceHeight sqrt heightNoise p Position =
      |p.radius * (1 + heightNoise p.RParameter.amplitude p.RParameter.frequency
        ((Position.normalisedCopy sqrt).add p.randomTranslate))| *
        (Position.normalisedCopy sqrt).length sqrt := by
  unfold getSurfaceHeight
  simp only []
  rw [length_scale sqrt hs]
  congr 2
  ring

theorem getSurfaceHeight_eq_abs (sqrt : α → α) (hs : IsSqrt sqrt)
    (heightNoise : List α → List α → Vector3 α → α) (p : PSphere α) (Position : Vector3 α)
    (hnz : Position ≠ ⟨0, 0, 0⟩) :
    getSurfaceHeight sqrt heightNoise p Position =
      |p.radius * (1 + heightNoise p.RParameter.amplitude p.RParameter.frequency
        ((Position.normalisedCopy sqrt).add p.randomTranslate))| := by
  rw [getSurfaceHeight_eq sqrt hs, (normalisedCopy_of_ne_zero sqrt hs Position hnz).2, mul_one]

theorem isSqrt_real : IsSqrt Real.sqrt :=
  fun a ha => ⟨Real.sqrt_nonneg a, Real.mul_self_sqrt ha⟩

/-- C9, as amended: for every non-zero position `getSurfaceHeight` returns the absolute
value of `radius * (1 + elevation)`, where `elevation` is the height at the normalised
position moved by `randomTranslate`; this is `radius * (1 + elevation)` itself whenever
that product is not negative. -/
theorem getSurfaceHeight_abs_radius_elevation (sqrt : α → α) (hs : IsSqrt sqrt)
    (heightNoise : List α → List α → Vector3 α → α) (p : PSphere α) (Position : Vector3 α)
    (hnz : Position ≠ ⟨0, 0, 0⟩) :
    Position.normalisedCopy sqrt = Position.scale (1 / Position.length sqrt) ∧
    getSurfaceHeight sqrt heightNoise p Position =
      |p.radius * (1 + heightNoise p.RParameter.amplitude p.RParameter.frequency
        ((Position.normalisedCopy sqrt).add p.randomTranslate))| ∧
    (0 ≤ p.radius * (1 + heightNoise p.RParameter.amplitude p.RParameter.frequency
        ((Position.normalisedCopy sqrt).add p.randomTranslate)) →
      getSurfaceHeight sqrt heightNoise p Position =
        p.radius * (1 + heightNoise p.RParameter.amplitude p.RParameter.frequency
          ((Position.normalisedCopy sqrt).add p.randomTranslate))) := by
  refine ⟨(normalisedCopy_of_ne_zero sqrt hs Position hnz).1,
    getSurfaceHeight_eq_abs sqrt hs heightNoise p Position hnz, ?_⟩
  intro h
  rw [getSurfaceHeight_eq_abs sqrt hs heightNoise p Position hnz, abs_of_nonneg h]

/-- Witness for C9 as amended: the example planet over the reals, at `(0, 3, 4)`. -/
theorem getSurfaceHeight_abs_radius_elevation_witness :
    getSurfaceHeight Real.sqrt (exampleNoise ℝ) (examplePlanet ℝ) ⟨0, 3, 4⟩ =
      |(examplePlanet ℝ).radius *
        (1 + exampleNoise ℝ (examplePlanet ℝ).RParameter.amplitude
          (examplePlanet ℝ).RParameter.frequency
          ((Vector3.normalisedCopy Real.sqrt ⟨0, 3, 4⟩).add (examplePlanet ℝ).randomTranslate))| :=
  (getSurfaceHeight_abs_radius_elevation Real.sqrt isSqrt_real (exampleNoise ℝ)
    (examplePlanet ℝ) ⟨0, 3, 4⟩ (by simp)).2.1

/-- C9, counterexample: with the height `3 * x`, radius `1` and the position
`(-1, 0, 0)` the elevation is `-3`; `radius * (1 + elevation)` is `-2`, and
`getSurfaceHeight` returns `2`. -/
theorem getSurfaceHeight_not_radius_elevation :
    deepNoise ℝ (examplePlanet ℝ).RParameter.amplitude (examplePlanet ℝ).RParameter.frequency
      ((Vector3.normalisedCopy Real.sqrt ⟨-1, 0, 0⟩).add (examplePlanet ℝ).randomTranslate) = -3 ∧
    getSurfaceHeight Real.sqrt (deepNoise ℝ) (examplePlanet ℝ) ⟨-1, 0, 0⟩ = 2 ∧
    getSurfaceHeight Real.sqrt (deepNoise ℝ) (examplePlanet ℝ) ⟨-1, 0, 0⟩ ≠
      (examplePlanet ℝ).radius *
        (1 + deepNoise ℝ (examplePlanet ℝ).RParameter.amplitude
          (examplePlanet ℝ).RParameter.frequency
          ((Vector3.normalisedCopy Real.sqrt ⟨-1, 0, 0⟩).add
            (examplePlanet ℝ).randomTranslate)) := by
  have hnz : (⟨-1, 0, 0⟩ : Vector3 ℝ) ≠ ⟨0, 0, 0⟩ := by simp
  have hlen : Vector3.length Real.sqrt (⟨-1, 0, 0⟩ : Vector3 ℝ) = 1 := by
    unfold Vector3.length
    apply sqrt_unique Real.sqrt isSqrt_real <;> norm_num
  have hn : Vector3.normalisedCopy Real.sqrt (⟨-1, 0, 0⟩ : Vector3 ℝ) = ⟨-1, 0, 0⟩ := by
    rw [(normalisedCopy_of_ne_zero Real.sqrt isSqrt_real _ hnz).1, hlen]
    simp [Vector3.scale]
  have he : deepNoise ℝ (examplePlanet ℝ).RParameter.amplitude
      (examplePlanet ℝ).RParameter.frequency
      ((Vector3.normalisedCopy Real.sqrt ⟨-1, 0, 0⟩).add (examplePlanet ℝ).randomTranslate) =
        -3 := by
    rw [hn]
    simp [deepNoise, examplePlanet, Vector3.add]
  have hh : getSurfaceHeight Real.sqrt (deepNoise ℝ) (examplePlanet ℝ) ⟨-1, 0, 0⟩ = 2 := by
    rw [getSurfaceHeight_eq_abs Real.sqrt isSqrt_real _ _ _ hnz, he]
    simp only [examplePlanet]
    norm_num
  refine ⟨he, hh, ?_⟩
  rw [hh, he]
  simp only [examplePlanet]
  norm_num

/-- C10: the observer distance is the length of the observer position minus the surface
height at that position, and so it is negative exactly when the observer is nearer to
the origin than the surface height. -/
theorem getObserverDistanceToSurface_eq (sqrt : α → α) (hs : IsSqrt sqrt)
    (heightNoise : List α → List α → Vector3 α → α) (p : PSphere α) :
    getObserverDistanceToSurface sqrt heightNoise p =
      p.observer.length sqrt - getSurfaceHeight sqrt heightNoise p p.observer ∧
    (getObserverDistanceToSurface sqrt heightNoise p < 0 ↔
      p.observer.length sqrt < getSurfaceHeight sqrt heightNoise p p.observer) := by
  have h : getObserverDistanceToSurface sqrt heightNoise p =
      p.observer.length sqrt - getSurfaceHeight sqrt heightNoise p p.observer := by
    unfold getObserverDistanceToSurface getSurfaceHeight
    simp only []
    rw [abs_of_nonneg (length_nonneg sqrt hs _), abs_of_nonneg (length_nonneg sqrt hs _)]
  refine ⟨h, ?_⟩
  rw [h]
  exact sub_neg

/-- Witness for C10: the example planet over the reals, seen from `(0, 3, 4)`. -/
theorem getObserverDistanceToSurface_eq_witness :
    getObserverDistanceToSurface Real.sqrt (exampleNoise ℝ) (observedPlanet ℝ) =
      (observedPlanet ℝ).observer.length Real.sqrt -
        getSurfaceHeight Real.sqrt (exampleNoise ℝ) (observedPlanet ℝ)
          (observedPlanet ℝ).observer :=
  (getObserverDistanceToSurface_eq Real.sqrt isSqrt_real (exampleNoise ℝ)
    (observedPlanet ℝ)).1

end SurfaceHeight

section FaceCoordinates

variable {α : Type} [LinearOrderedField α]

/-! ## Lemmas on the face-local coordinates -/

/-- The cell indices of `getGridLocation` are the face-local coordinates, converted by
lines 760-761 with the size of the selected grid. -/
theorem getGridLocation_eq_map [FloorRing α] (p : PSphere α) (l : Vector3 α) :
    getGridLocation p l =
      (faceLocalCoordinates l).map
        (fun r => (r.1, cellIndex r.2.1 (p.grid r.1).size, cellIndex r.2.2 (p.grid r.1).size)) := by
  unfold getGridLocation faceLocalCoordinates
  simp only []
  split_ifs <;> rfl

theorem ratio_in_unit (c m : α) (h : |c| < m) : -1 < c * (1 / m) ∧ c * (1 / m) < 1 := by
  have hm : 0 < m := lt_of_le_of_lt (abs_nonneg c) h
  obtain ⟨h1, h2⟩ := abs_lt.mp h
  rw [mul_one_div]
  constructor
  · rw [lt_div_iff₀ hm]
    linarith
  · rw [div_lt_iff₀ hm]
    linarith

theorem neg_ratio_in_unit (c m : α) (h : |c| < m) :
    -1 < -(c * (1 / m)) ∧ -(c * (1 / m)) < 1 := by
  obtain ⟨h1, h2⟩ := ratio_in_unit c m h
  constructor <;> linarith

/-- Both face-local coordinates lie strictly between `-1` and `1`. -/
theorem faceLocalCoordinates_in_unit (l : Vector3 α) (face : Face) (x_f y_f : α)
    (h : faceLocalCoordinates l = some (face, x_f, y_f)) :
    (-1 < x_f ∧ x_f < 1) ∧ (-1 < y_f ∧ y_f < 1) := by
  unfold faceLocalCoordinates at h
  simp only [Vector3.scale] at h
  split_ifs at h with hx hs hy hs hz hs
  all_goals
    simp only [Option.some.injEq, Prod.mk.injEq] at h
    obtain ⟨_, rfl, rfl⟩ := h
  · exact ⟨neg_ratio_in_unit _ _ hx.1, ratio_in_unit _ _ hx.2⟩
  · exact ⟨ratio_in_unit _ _ hx.1, ratio_in_unit _ _ hx.2⟩
  · exact ⟨ratio_in_unit _ _ hy.1, ratio_in_unit _ _ hy.2⟩
  · exact ⟨neg_ratio_in_unit _ _ hy.1, ratio_in_unit _ _ hy.2⟩
  · exact ⟨neg_ratio_in_unit _ _ hz.1, ratio_in_unit _ _ hz.2⟩
  · exact ⟨neg_ratio_in_unit _ _ hz.1, neg_ratio_in_unit _ _ hz.2⟩

/-- A coordinate strictly between `-1` and `1` is converted to an index below the size
of the grid, when that size fits in an `unsigned short`. -/
theorem cellIndex_lt [FloorRing α] (f : α) (size : Nat) (h1 : -1 < f) (h2 : f < 1)
    (hs1 : 1 ≤ size) (hs2 : size ≤ 65535) : cellIndex f size < size := by
  have hN : (0 : α) < (size : α) := by exact_mod_cast hs1
  have hv0 : 0 ≤ (1 + f) / 2 * (size : α) := by
    have : 0 ≤ (1 + f) / 2 := by linarith
    exact mul_nonneg this hN.le
  have hv1 : (1 + f) / 2 * (size : α) < (size : α) := by
    have : (1 + f) / 2 < 1 := by linarith
    calc (1 + f) / 2 * (size : α) < 1 * (size : α) := mul_lt_mul_of_pos_right this hN
      _ = (size : α) := one_mul _
  unfold cellIndex toUShort
  rw [if_pos hv0]
  have hf0 : 0 ≤ Int.floor ((1 + f) / 2 * (size : α)) := Int.floor_nonneg.mpr hv0
  have hf1 : Int.floor ((1 + f) / 2 * (size : α)) < (size : Int) := by
    rw [Int.floor_lt]
    exact_mod_cast hv1
  omega

theorem faceLocalCoordinates_isSome (l : Vector3 α)
    (h : ¬ (l.x = 0 ∧ l.y = 0 ∧ l.z = 0)) :
    ∃ face x_f y_f, faceLocalCoordinates l = some (face, x_f, y_f) := by
  have hm := breakTies_strictMax l h
  unfold faceLocalCoordinates
  simp only []
  split_ifs
  all_goals first
    | exact ⟨_, _, _, rfl⟩
    | (exfalso; tauto)

end FaceCoordinates

section FaceCoordinateClaims

variable {α : Type} [LinearOrderedField α]

theorem faceLocalCoordinates_of_x (l : Vector3 α)
    (h : |(breakTies l).x| > |(breakTies l).y| ∧ |(breakTies l).x| > |(breakTies l).z|) :
    faceLocalCoordinates l =
      if (breakTies l).x < 0 then
        some (Face.gridXM, -((breakTies l).y * (1 / |(breakTies l).x|)),
          (breakTies l).z * (1 / |(breakTies l).x|))
      else
        some (Face.gridXP, (breakTies l).y * (1 / |(breakTies l).x|),
          (breakTies l).z * (1 / |(breakTies l).x|)) := by
  have hpos : 0 < |(breakTies l).x| := lt_of_le_of_lt (abs_nonneg _) h.1
  unfold faceLocalCoordinates
  simp only [h, and_self, if_true, Vector3.scale, scale_neg_iff _ _ hpos]

/-- The face-local coordinates on `gridXP`. -/
theorem faceLocalCoordinates_gridXP (l : Vector3 α) (hx : 0 < l.x)
    (hy : |l.y| < |l.x|) (hz : |l.z| < |l.x|) :
    faceLocalCoordinates l =
      some (Face.gridXP, l.y / |l.x|,
        (if |l.y| = |l.z| then l.z * (9999 / 10000) else l.z) / |l.x|) := by
  rw [faceLocalCoordinates_of_x l (strictMax_x_breakTies l hy hz)]
  rw [breakTies_x, if_neg (not_lt.mpr hx.le), breakTies_y, breakTies_z]
  simp only [if_neg (ne_of_gt hy), if_neg (ne_of_gt hz), mul_one_div]

/-- C12, as amended: for a location whose `x` component is positive and strictly
dominant `getGridLocation` selects `gridXP` with `x_f = y / |x|`, read from `y` as it is
(the negated `y` is read on `gridXM`), and `y_f = z / |x|`, where `z` is first shortened
by the factor `0.9999` when `|y| = |z|`; the cell indices are these two values converted
by lines 760-761. -/
theorem getGridLocation_gridXP_coordinates [FloorRing α] (p : PSphere α) (location : Vector3 α)
    (hx : 0 < location.x) (hy : |location.y| < |location.x|)
    (hz : |location.z| < |location.x|) :
    faceLocalCoordinates location =
      some (Face.gridXP, location.y / |location.x|,
        (if |location.y| = |location.z| then location.z * (9999 / 10000) else location.z) /
          |location.x|) ∧
    getGridLocation p location =
      some (Face.gridXP, cellIndex (location.y / |location.x|) p.gridXP.size,
        cellIndex
          ((if |location.y| = |location.z| then location.z * (9999 / 10000)
            else location.z) / |location.x|) p.gridXP.size) := by
  have h := faceLocalCoordinates_gridXP location hx hy hz
  refine ⟨h, ?_⟩
  rw [getGridLocation_eq_map, h]
  rfl

/-- Witness for C12 as amended: the location `(3, 1, -2)`. -/
theorem getGridLocation_gridXP_coordinates_witness :
    faceLocalCoordinates (⟨3, 1, -2⟩ : Vector3 ℚ) =
      some (Face.gridXP, (1 : ℚ) / |(3 : ℚ)|,
        (if |(1 : ℚ)| = |(-2 : ℚ)| then (-2 : ℚ) * (9999 / 10000) else -2) / |(3 : ℚ)|) :=
  (getGridLocation_gridXP_coordinates (examplePlanet ℚ) ⟨3, 1, -2⟩
    (by norm_num) (by norm_num) (by norm_num)).1

/-- C12, counterexample: at `(3, 1, -2)`, where `x` is positive and strictly dominant,
`x_f` is `1 / 3` and not `-y / |x| = -1 / 3`; in a grid of size `4` the index `ix` is `2`,
whereas `-1 / 3` would give `1`. -/
theorem getGridLocation_gridXP_not_negated :
    faceLocalCoordinates (⟨3, 1, -2⟩ : Vector3 ℚ) = some (Face.gridXP, 1 / 3, -2 / 3) ∧
    (1 / 3 : ℚ) ≠ -(1 : ℚ) / |(3 : ℚ)| ∧
    getGridLocation (examplePlanet ℚ) ⟨3, 1, -2⟩ = some (Face.gridXP, 2, 0) ∧
    cellIndex (-(1 : ℚ) / |(3 : ℚ)|) 4 = 1 := by
  refine ⟨?_, by norm_num, getGridLocation_example (examplePlanet ℚ) rfl, ?_⟩
  · rw [faceLocalCoordinates_gridXP _ (by norm_num) (by norm_num) (by norm_num)]
    norm_num
  · unfold cellIndex toUShort
    have hv : (1 + -(1 : ℚ) / |(3 : ℚ)|) / 2 * ((4 : ℕ) : ℚ) = 4 / 3 := by norm_num
    have hf : Int.floor (4 / 3 : ℚ) = 1 := by
      rw [Int.floor_eq_iff]
      norm_num
    rw [hv, if_pos (by norm_num), hf]
    rfl

/-- Over an exact field: for a non-zero location `getGridLocation` returns a face and
cell indices that lie within the grid of that face, `ix < N` and `iy < N`, when every grid
size `N` is between `1` and `65535`; the face-local coordinates behind them lie strictly
between `-1` and `1`.  (In `float` the sum `1.0f + x_f` can be rounded to `2.0f`, and the
index is then `N`; see `getGridLocationFloat`.) -/
theorem getGridLocation_indices_in_grid [FloorRing α] (p : PSphere α) (location : Vector3 α)
    (hnz : location ≠ ⟨0, 0, 0⟩)
    (hsize : ∀ f, 1 ≤ (p.grid f).size ∧ (p.grid f).size ≤ 65535) :
    ∃ face x_f y_f, faceLocalCoordinates location = some (face, x_f, y_f) ∧
      (-1 < x_f ∧ x_f < 1) ∧ (-1 < y_f ∧ y_f < 1) ∧
      ∃ ix iy, getGridLocation p location = some (face, ix, iy) ∧
        ix < (p.grid face).size ∧ iy < (p.grid face).size := by
  have hz : ¬ (location.x = 0 ∧ location.y = 0 ∧ location.z = 0) := by
    intro hc
    apply hnz
    cases location
    simp only [Vector3.mk.injEq]
    exact hc
  obtain ⟨face, x_f, y_f, h⟩ := faceLocalCoordinates_isSome location hz
  obtain ⟨hxf, hyf⟩ := faceLocalCoordinates_in_unit location face x_f y_f h
  refine ⟨face, x_f, y_f, h, hxf, hyf, cellIndex x_f (p.grid face).size,
    cellIndex y_f (p.grid face).size, ?_, ?_, ?_⟩
  · rw [getGridLocation_eq_map, h]
    rfl
  · exact cellIndex_lt x_f _ hxf.1 hxf.2 (hsize face).1 (hsize face).2
  · exact cellIndex_lt y_f _ hyf.1 hyf.2 (hsize face).1 (hsize face).2

/-- An instance over the rational numbers: the corner `(1, 1, 1)` of the cube on the
example planet, whose grids have size `4`. -/
theorem getGridLocation_indices_in_grid_witness :
    ∃ face x_f y_f, faceLocalCoordinates (⟨1, 1, 1⟩ : Vector3 ℚ) = some (face, x_f, y_f) ∧
      (-1 < x_f ∧ x_f < 1) ∧ (-1 < y_f ∧ y_f < 1) ∧
      ∃ ix iy, getGridLocation (examplePlanet ℚ) ⟨1, 1, 1⟩ = some (face, ix, iy) ∧
        ix < ((examplePlanet ℚ).grid face).size ∧ iy < ((examplePlanet ℚ).grid face).size :=
  getGridLocation_indices_in_grid (examplePlanet ℚ) ⟨1, 1, 1⟩ (by simp)
    (by intro f; cases f <;> decide)

end FaceCoordinateClaims

section NextPosition

variable {α : Type} [LinearOrderedField α]

theorem lastIndex_eq (size : Nat) (h1 : 1 ≤ size) (h2 : size < 4294967296) :
    lastIndex size = size - 1 := by
  unfold lastIndex
  omega

/-- C14: for a location that `getGridLocation` maps to `(grid, ix, iy)`, a step whose
target index stays inside the grid makes `nextPosition` return `projectToSphere` of the
same grid with that one index incremented or decremented; at the edge (`size - 1` for a
plus step, `0` for a minus step) it returns `projectToSphere` of the neighbour grid at
the coordinates given by `getNeighbourEntryCoordinates`. -/
theorem nextPosition_steps [FloorRing α] (getNeighbourPtr : Face → Direction → Face)
    (getNeighbourEntryCoordinates : Face → Direction → Nat → Nat → Nat × Nat)
    (p : PSphere α) (location : Vector3 α) (grid : Face) (ix iy : Nat)
    (hloc : getGridLocation p location = some (grid, ix, iy))
    (hsize : (p.grid grid).size < 4294967296) :
    (iy + 1 < (p.grid grid).size →
      nextPosition getNeighbourPtr getNeighbourEntryCoordinates p location
        Direction.PSPHERE_GRID_YPLUS = (p.grid grid).projectToSphere ix (iy + 1)) ∧
    (1 ≤ iy →
      nextPosition getNeighbourPtr getNeighbourEntryCoordinates p location
        Direction.PSPHERE_GRID_YMINUS = (p.grid grid).projectToSphere ix (iy - 1)) ∧
    (ix + 1 < (p.grid grid).size →
      nextPosition getNeighbourPtr getNeighbourEntryCoordinates p location
        Direction.PSPHERE_GRID_XPLUS = (p.grid grid).projectToSphere (ix + 1) iy) ∧
    (1 ≤ ix →
      nextPosition getNeighbourPtr getNeighbourEntryCoordinates p location
        Direction.PSPHERE_GRID_XMINUS = (p.grid grid).projectToSphere (ix - 1) iy) ∧
    (iy + 1 = (p.grid grid).size →
      nextPosition getNeighbourPtr getNeighbourEntryCoordinates p location
        Direction.PSPHERE_GRID_YPLUS =
        (p.grid (getNeighbourPtr grid Direction.PSPHERE_GRID_YPLUS)).projectToSphere
          (getNeighbourEntryCoordinates grid Direction.PSPHERE_GRID_YPLUS ix iy).1
          (getNeighbourEntryCoordinates grid Direction.PSPHERE_GRID_YPLUS ix iy).2) ∧
    (iy = 0 →
      nextPosition getNeighbourPtr getNeighbourEntryCoordinates p location
        Direction.PSPHERE_GRID_YMINUS =
        (p.grid (getNeighbourPtr grid Direction.PSPHERE_GRID_YMINUS)).projectToSphere
          (getNeighbourEntryCoordinates grid Direction.PSPHERE_GRID_YMINUS ix iy).1
          (getNeighbourEntryCoordinates grid Direction.PSPHERE_GRID_YMINUS ix iy).2) ∧
    (ix + 1 = (p.grid grid).size →
      nextPosition getNeighbourPtr getNeighbourEntryCoordinates p location
        Direction.PSPHERE_GRID_XPLUS =
        (p.grid (getNeighbourPtr grid Direction.PSPHERE_GRID_XPLUS)).projectToSphere
          (getNeighbourEntryCoordinates grid Direction.PSPHERE_GRID_XPLUS ix iy).1
          (getNeighbourEntryCoordinates grid Direction.PSPHERE_GRID_XPLUS ix iy).2) ∧
    (ix = 0 →
      nextPosition getNeighbourPtr getNeighbourEntryCoordinates p location
        Direction.PSPHERE_GRID_XMINUS =
        (p.grid (getNeighbourPtr grid Direction.PSPHERE_GRID_XMINUS)).projectToSphere
          (getNeighbourEntryCoordinates grid Direction.PSPHERE_GRID_XMINUS ix iy).1
          (getNeighbourEntryCoordinates grid Direction.PSPHERE_GRID_XMINUS ix iy).2) := by
  refine ⟨?_, ?_, ?_, ?_, ?_, ?_, ?_, ?_⟩
  · intro h
    have hne : iy ≠ lastIndex (p.grid grid).size := by
      rw [lastIndex_eq _ (by omega) hsize]
      omega
    unfold nextPosition
    simp only [hloc, if_neg hne]
  · intro h
    have hne : iy ≠ 0 := by omega
    unfold nextPosition
    simp only [hloc, if_neg hne]
  · intro h
    have hne : ix ≠ lastIndex (p.grid grid).size := by
      rw [lastIndex_eq _ (by omega) hsize]
      omega
    unfold nextPosition
    simp only [hloc, if_neg hne]
  · intro h
    have hne : ix ≠ 0 := by omega
    unfold nextPosition
    simp only [hloc, if_neg hne]
  · intro h
    have he : iy = lastIndex (p.grid grid).size := by
      rw [lastIndex_eq _ (by omega) hsize]
      omega
    unfold nextPosition
    simp only [hloc, if_pos he]
  · intro h
    unfold nextPosition
    simp only [hloc, if_pos h]
  · intro h
    have he : ix = lastIndex (p.grid grid).size := by
      rw [lastIndex_eq _ (by omega) hsize]
      omega
    unfold nextPosition
    simp only [hloc, if_pos he]
  · intro h
    unfold nextPosition
    simp only [hloc, if_pos h]

/-- Witness for C14: from `(3, 1, -2)`, the cell `(2, 0)` of `gridXP` in a grid of size
`4`, a step in the direction `y+` leads to the cell `(2, 1)`. -/
theorem nextPosition_steps_witness :
    nextPosition exampleNeighbourPtr exampleEntryCoordinates (examplePlanet ℚ) ⟨3, 1, -2⟩
      Direction.PSPHERE_GRID_YPLUS =
      ((examplePlanet ℚ).grid Face.gridXP).projectToSphere 2 (0 + 1) :=
  (nextPosition_steps exampleNeighbourPtr exampleEntryCoordinates (examplePlanet ℚ)
    ⟨3, 1, -2⟩ Face.gridXP 2 0 (getGridLocation_example (examplePlanet ℚ) rfl)
    (by decide)).1 (by decide)

end NextPosition

section SlotAndAttach

variable {α : Type} [LinearOrderedField α]

/-- C19: for a test height between `minElev` and `maxElev`, with `minElev < maxElev`,
the histogram slot is the floor of
`(h - minElev) / (maxElev - minElev) * (BRACKETS - 1 + 0.5)` and is at most
`BRACKETS - 1`, so that the assertion `slot < BRACKETS` holds for every such height and
the histogram is filled without failure; the divisor is non-zero exactly when
`maxElev` and `minElev` differ. -/
theorem slotOf_in_range [FloorRing α] (minElev maxElev h : α) (hlt : minElev < maxElev)
    (h1 : minElev ≤ h) (h2 : h ≤ maxElev) :
    slotOf minElev maxElev h =
      Int.toNat (Int.floor ((h - minElev) / (maxElev - minElev) *
        (((BRACKETS : Nat) : α) - 1 + 1 / 2))) ∧
    slotOf minElev maxElev h ≤ BRACKETS - 1 ∧
    slotOf minElev maxElev h < BRACKETS ∧
    (maxElev - minElev ≠ 0 ↔ maxElev ≠ minElev) ∧
    (∀ (testHeight : List α) (histogram : List Nat), histogram.length = BRACKETS →
      (∀ t ∈ testHeight, minElev ≤ t ∧ t ≤ maxElev) →
      ∃ filled, fillHistogram minElev maxElev testHeight histogram = some filled) := by
  have hlt2 := slotOf_lt_BRACKETS minElev maxElev h hlt h1 h2
  refine ⟨?_, ?_, hlt2, sub_ne_zero, ?_⟩
  · have hd : 0 < maxElev - minElev := sub_pos.mpr hlt
    have hr0 : 0 ≤ (h - minElev) / (maxElev - minElev) :=
      div_nonneg (sub_nonneg.mpr h1) hd.le
    have hr1 : (h - minElev) / (maxElev - minElev) ≤ 1 := by
      rw [div_le_one hd]
      linarith
    have hm : (((BRACKETS : Nat) : α) - 1 + 1 / 2) = 199 / 2 := by
      unfold BRACKETS
      norm_num
    have hv0 : 0 ≤ (h - minElev) / (maxElev - minElev) * (199 / 2 : α) := by positivity
    have hv1 : (h - minElev) / (maxElev - minElev) * (199 / 2 : α) < 100 := by nlinarith
    unfold slotOf toUInt
    rw [mult_eq, hm, if_pos hv0]
    have hf0 : 0 ≤ Int.floor ((h - minElev) / (maxElev - minElev) * (199 / 2 : α)) :=
      Int.floor_nonneg.mpr hv0
    have hf1 : Int.floor ((h - minElev) / (maxElev - minElev) * (199 / 2 : α)) < 100 := by
      rw [Int.floor_lt]
      exact_mod_cast hv1
    omega
  · unfold BRACKETS at hlt2 ⊢
    omega
  · intro testHeight histogram hlen hall
    obtain ⟨filled, hf, _, _⟩ := fillHistogram_some minElev maxElev testHeight histogram hlen
      (fun t ht => slotOf_lt_BRACKETS minElev maxElev t hlt (hall t ht).1 (hall t ht).2)
    exact ⟨filled, hf⟩

/-- Witness for C19: the height `1` between the minimum `-1` and the maximum `1`. -/
theorem slotOf_in_range_witness :
    slotOf (-1 : ℚ) 1 1 ≤ BRACKETS - 1 :=
  (slotOf_in_range (-1 : ℚ) 1 1 (by norm_num) (by norm_num) (by norm_num)).2.1

/-- The registry after `attachMesh` with an object name. -/
theorem attachMesh_spec (convertSphericalToCartesian : α → α → Vector3 α) (fuel : Nat)
    (p : PSphere α) (objectName : String) (latitude longitude dist : α)
    (hfuel : p.objects.length < fuel) :
    ∃ q name, attachMesh convertSphericalToCartesian fuel p objectName latitude longitude
        dist = some q ∧
      q.objects = p.objects ++
        [⟨⟨(if dist = 0 then p.radius else dist) * 2 *
              (convertSphericalToCartesian latitude longitude).x,
            (if dist = 0 then p.radius else dist) * 2 *
              (convertSphericalToCartesian latitude longitude).y,
            (if dist = 0 then p.radius else dist) * 2 *
              (convertSphericalToCartesian latitude longitude).z⟩, name⟩] := by
  unfold attachMesh
  simp only []
  obtain ⟨k, h1, _⟩ := attachMeshSphereCoord_spec fuel p objectName
    ((if dist = 0 then p.radius else dist) * 2 *
      (convertSphericalToCartesian latitude longitude).x)
    ((if dist = 0 then p.radius else dist) * 2 *
      (convertSphericalToCartesian latitude longitude).y)
    ((if dist = 0 then p.radius else dist) * 2 *
      (convertSphericalToCartesian latitude longitude).z) hfuel
  exact ⟨_, _, h1, rfl⟩

/-- The registry after `attachMesh` without an object name. -/
theorem attachMeshMesh_spec (convertSphericalToCartesian : α → α → Vector3 α) (fuel : Nat)
    (p : PSphere α) (meshName : String) (latitude longitude dist : α)
    (hfuel : p.objects.length < fuel) :
    ∃ q name, attachMeshMesh convertSphericalToCartesian fuel p meshName latitude longitude
        dist = some q ∧
      q.objects = p.objects ++
        [⟨⟨p.radius * (6 / 5) * (convertSphericalToCartesian latitude longitude).x,
            p.radius * (6 / 5) * (convertSphericalToCartesian latitude longitude).y,
            p.radius * (6 / 5) * (convertSphericalToCartesian latitude longitude).z⟩,
          name⟩] := by
  unfold attachMeshMesh
  simp only []
  obtain ⟨k, h1, _⟩ := attachMeshSphereCoordMesh_spec fuel p meshName
    (p.radius * (6 / 5) * (convertSphericalToCartesian latitude longitude).x)
    (p.radius * (6 / 5) * (convertSphericalToCartesian latitude longitude).y)
    (p.radius * (6 / 5) * (convertSphericalToCartesian latitude longitude).z) hfuel
  exact ⟨_, _, h1, rfl⟩

/-- C16, as amended: a placement by latitude and longitude with `dist = 0` registers the
object at twice the radius times the spherical-to-Cartesian direction when an object
name is given, and at `1.2` times the radius times that direction when none is. -/
theorem attachMesh_registers_scaled_direction
    (convertSphericalToCartesian : α → α → Vector3 α) (fuel : Nat)
    (p : PSphere α) (meshName objectName : String) (latitude longitude : α)
    (hfuel : p.objects.length < fuel) :
    (∃ q o, attachMesh convertSphericalToCartesian fuel p objectName latitude longitude 0 =
        some q ∧ q.objects = p.objects ++ [o] ∧
      o.position = (convertSphericalToCartesian latitude longitude).scale (2 * p.radius)) ∧
    (∃ q o, attachMeshMesh convertSphericalToCartesian fuel p meshName latitude longitude 0 =
        some q ∧ q.objects = p.objects ++ [o] ∧
      o.position = (convertSphericalToCartesian latitude longitude).scale
        (6 / 5 * p.radius)) := by
  constructor
  · obtain ⟨q, name, h1, h2⟩ := attachMesh_spec convertSphericalToCartesian fuel p objectName
      latitude longitude 0 hfuel
    refine ⟨q, _, h1, h2, ?_⟩
    simp only [if_true, Vector3.scale, Vector3.mk.injEq]
    refine ⟨?_, ?_, ?_⟩ <;> ring
  · obtain ⟨q, name, h1, h2⟩ := attachMeshMesh_spec convertSphericalToCartesian fuel p meshName
      latitude longitude 0 hfuel
    refine ⟨q, _, h1, h2, ?_⟩
    simp only [Vector3.scale, Vector3.mk.injEq]
    refine ⟨?_, ?_, ?_⟩ <;> ring

/-- Witness for C16 as amended: a placement on the example planet. -/
theorem attachMesh_registers_scaled_direction_witness :
    ∃ q o, attachMesh (exampleConvert ℚ) 1 (examplePlanet ℚ) "ship.mesh" 10 20 0 = some q ∧
      q.objects = (examplePlanet ℚ).objects ++ [o] ∧
      o.position = (exampleConvert ℚ 10 20).scale (2 * (examplePlanet ℚ).radius) :=
  (attachMesh_registers_scaled_direction (exampleConvert ℚ) 1 (examplePlanet ℚ)
    "ship.mesh" "ship.mesh" 10 20 (by decide)).1

/-- C16, counterexample: on the example planet of radius `1`, with the direction
`(0, 0, 1)`, `attachMesh` with `dist = 0` registers the position `(0, 0, 2)`, which is
not `radius * (0, 0, 1) = (0, 0, 1)`. -/
theorem attachMesh_not_radius_direction :
    ∃ q, attachMesh (exampleConvert ℚ) 1 (examplePlanet ℚ) "ship.mesh" 10 20 0 = some q ∧
      q.objects.map (fun o => o.position) = [⟨0, 0, 2⟩] ∧
      (exampleConvert ℚ 10 20).scale (examplePlanet ℚ).radius = ⟨0, 0, 1⟩ ∧
      (⟨0, 0, 2⟩ : Vector3 ℚ) ≠ ⟨0, 0, 1⟩ := by
  obtain ⟨q, name, h1, h2⟩ := attachMesh_spec (exampleConvert ℚ) 1 (examplePlanet ℚ)
    "ship.mesh" 10 20 0 (by decide)
  refine ⟨q, h1, ?_, ?_, ?_⟩
  · rw [h2]
    simp [examplePlanet, exampleConvert]
  · simp [examplePlanet, exampleConvert, Vector3.scale]
  · simp

end SlotAndAttach

section Create

variable {α : Type} [LinearOrderedField α]

/-! ## Lemmas on `create` -/

theorem setCellLandInfo_size (heightNoise : List α → List α → Vector3 α → α)
    (p : PSphere α) (g : Grid α) (x y : Nat) :
    (setCellLandInfo heightNoise p g x y).size = g.size := by
  unfold setCellLandInfo Grid.setValue
  simp only []
  split_ifs <;> rfl

theorem innerLoop_size (heightNoise : List α → List α → Vector3 α → α)
    (p : PSphere α) (x : Nat) (ys : List Nat) (g : Grid α) :
    (ys.foldl (fun g y => setCellLandInfo heightNoise p g x y) g).size = g.size := by
  induction ys generalizing g with
  | nil => rfl
  | cons y t ih =>
    simp only [List.foldl_cons]
    rw [ih, setCellLandInfo_size]

theorem outerLoop_size (heightNoise : List α → List α → Vector3 α → α)
    (p : PSphere α) (ys xs : List Nat) (g : Grid α) :
    (xs.foldl (fun g x => ys.foldl (fun g y => setCellLandInfo heightNoise p g x y) g)
        g).size = g.size := by
  induction xs generalizing g with
  | nil => rfl
  | cons x t ih =>
    simp only [List.foldl_cons]
    rw [ih, innerLoop_size]

/-- `setGridLandInfo` keeps the size of the grid. -/
theorem setGridLandInfo_size (heightNoise : List α → List α → Vector3 α → α)
    (p : PSphere α) (grid : Grid α) :
    (setGridLandInfo heightNoise p grid).size = grid.size := by
  unfold setGridLandInfo
  exact outerLoop_size heightNoise p _ _ grid

/-- The test heights depend on the sphere through its height profile and its random
translation only. -/
theorem testHeights_congr (heightNoise : List α → List α → Vector3 α → α)
    (testVec : Nat → Vector3 α) (p q : PSphere α) (h1 : p.RParameter = q.RParameter)
    (h2 : p.randomTranslate = q.randomTranslate) :
    testHeights heightNoise testVec p = testHeights heightNoise testVec q := by
  unfold testHeights
  rw [h1, h2]

/-- With `minElev < maxElev` for the test heights `create` returns, and its result has
the clamped iteration count, texture size and grid size, and the links of lines
171-176. -/
theorem create_spec [FloorRing α] (heightNoise : List α → List α → Vector3 α → α)
    (testVec : Nat → Vector3 α) (convertSphericalToCartesian : α → α → Vector3 α)
    (generatePixel : α → α → α → α → ColourValue α)
    (projectToSphere : Matrix3 α → Nat → Nat → Nat → Vector3 α)
    (randomTranslate : Vector3 α) (p : PSphere α)
    (surfaceTextureWidth surfaceTextureHeight : Nat)
    (iters gridSize : Nat) (resourceParameter : ResourceParameter α)
    (hlt : minElevOf (testHeights heightNoise testVec
        { p with RParameter := resourceParameter, randomTranslate := randomTranslate }) <
      maxElevOf (testHeights heightNoise testVec
        { p with RParameter := resourceParameter, randomTranslate := randomTranslate })) :
    ∃ c, create heightNoise testVec convertSphericalToCartesian generatePixel projectToSphere
        randomTranslate p surfaceTextureWidth surfaceTextureHeight iters gridSize
        resourceParameter = some c ∧
      c.iters = (if iters < 3 then 3 else iters) ∧
      c.surfaceTextureWidth = (if surfaceTextureWidth = 0 then 1 else surfaceTextureWidth) ∧
      c.surfaceTextureHeight =
        (if surfaceTextureHeight = 0 then 1 else surfaceTextureHeight) ∧
      (∀ f, (c.sphere.grid f).size = (if gridSize < 2 then 2 else gridSize)) ∧
      c.neighbours = createNeighbours := by
  have hc := testHeights_congr heightNoise testVec
    { p with RParameter := resourceParameter, randomTranslate := randomTranslate }
    ({ p with
      RParameter := resourceParameter
      radius := resourceParameter.radius
      randomTranslate := randomTranslate }) rfl rfl
  rw [hc] at hlt
  obtain ⟨histogram, _, _, hcalc⟩ := calculateSeaLevel_eq heightNoise testVec
    ({ p with
      RParameter := resourceParameter
      radius := resourceParameter.radius
      randomTranslate := randomTranslate }) hlt
  unfold create
  simp only [hcalc resourceParameter.waterFraction]
  refine ⟨_, rfl, rfl, rfl, rfl, ?_, rfl⟩
  intro f
  cases f <;> simp only [PSphere.grid, setGridLandInfo_size, newGrid]

end Create

section CreateClaims

variable {α : Type} [LinearOrderedField α]

/-- The links of lines 171-176 are the adjacency of the cube. -/
theorem createNeighbours_adjacency :
    (∀ a b, b ∈ createNeighbours a ↔ (b ≠ a ∧ b ≠ a.opposite)) ∧
    (∀ a, (createNeighbours a).length = 4 ∧ (createNeighbours a).Nodup) ∧
    (∀ a b, a ∈ createNeighbours b ↔ b ∈ createNeighbours a) := by
  refine ⟨?_, ?_, ?_⟩
  · intro a b
    cases a <;> cases b <;> decide
  · intro a
    cases a <;> decide
  · intro a b
    cases a <;> cases b <;> decide

theorem example_create_heights :
    minElevOf (testHeights (exampleNoise α) (exampleTestVec α)
        { examplePlanet α with
          RParameter := (examplePlanet α).RParameter, randomTranslate := ⟨0, 0, 0⟩ }) <
      maxElevOf (testHeights (exampleNoise α) (exampleTestVec α)
        { examplePlanet α with
          RParameter := (examplePlanet α).RParameter, randomTranslate := ⟨0, 0, 0⟩ }) := by
  have h : testHeights (exampleNoise α) (exampleTestVec α)
      { examplePlanet α with
        RParameter := (examplePlanet α).RParameter, randomTranslate := ⟨0, 0, 0⟩ } =
      testHeights (exampleNoise α) (exampleTestVec α) (examplePlanet α) :=
    testHeights_congr _ _ _ _ rfl rfl
  rw [h]
  exact example_min_lt_max

/-- C11: `create` does not reject its configuration but clamps it.  Whenever the test
heights are not all equal it returns a state in which the iteration count is
`max iters 3`, each of the six grids has the size `max gridSize 2`, and a texture width
or height of `0` has become `1`; values at or above the minimum are kept. -/
theorem create_clamps_configuration [FloorRing α]
    (heightNoise : List α → List α → Vector3 α → α)
    (testVec : Nat → Vector3 α) (convertSphericalToCartesian : α → α → Vector3 α)
    (generatePixel : α → α → α → α → ColourValue α)
    (projectToSphere : Matrix3 α → Nat → Nat → Nat → Vector3 α)
    (randomTranslate : Vector3 α) (p : PSphere α)
    (surfaceTextureWidth surfaceTextureHeight : Nat)
    (iters gridSize : Nat) (resourceParameter : ResourceParameter α)
    (hlt : minElevOf (testHeights heightNoise testVec
        { p with RParameter := resourceParameter, randomTranslate := randomTranslate }) <
      maxElevOf (testHeights heightNoise testVec
        { p with RParameter := resourceParameter, randomTranslate := randomTranslate })) :
    ∃ c, create heightNoise testVec convertSphericalToCartesian generatePixel projectToSphere
        randomTranslate p surfaceTextureWidth surfaceTextureHeight iters gridSize
        resourceParameter = some c ∧
      c.iters = max iters 3 ∧
      (∀ f, (c.sphere.grid f).size = max gridSize 2) ∧
      c.surfaceTextureWidth = (if surfaceTextureWidth = 0 then 1 else surfaceTextureWidth) ∧
      c.surfaceTextureHeight =
        (if surfaceTextureHeight = 0 then 1 else surfaceTextureHeight) ∧
      (3 ≤ iters → c.iters = iters) ∧
      (2 ≤ gridSize → ∀ f, (c.sphere.grid f).size = gridSize) ∧
      (surfaceTextureWidth ≠ 0 → c.surfaceTextureWidth = surfaceTextureWidth) ∧
      (surfaceTextureHeight ≠ 0 → c.surfaceTextureHeight = surfaceTextureHeight) := by
  obtain ⟨c, hc, h1, h2, h3, h4, _⟩ := create_spec heightNoise testVec
    convertSphericalToCartesian generatePixel projectToSphere randomTranslate p
    surfaceTextureWidth surfaceTextureHeight iters gridSize resourceParameter hlt
  refine ⟨c, hc, ?_, ?_, h2, h3, ?_, ?_, ?_, ?_⟩
  · rw [h1]
    split_ifs <;> omega
  · intro f
    rw [h4 f]
    split_ifs <;> omega
  · intro h
    rw [h1, if_neg (by omega)]
  · intro h f
    rw [h4 f, if_neg (by omega)]
  · intro h
    rw [h2, if_neg h]
  · intro h
    rw [h3, if_neg h]

/-- Witness for C11: `create` on the example planet with `1` iteration, grid size `0`
and a texture of `0 × 5`. -/
theorem create_clamps_configuration_witness :
    ∃ c, create (exampleNoise ℚ) (exampleTestVec ℚ) (exampleConvert ℚ) (examplePixel ℚ)
        (exampleProjection ℚ) ⟨0, 0, 0⟩ (examplePlanet ℚ) 0 5 1 0
        (examplePlanet ℚ).RParameter = some c ∧
      c.iters = 3 ∧ (∀ f, (c.sphere.grid f).size = 2) ∧
      c.surfaceTextureWidth = 1 ∧ c.surfaceTextureHeight = 5 := by
  obtain ⟨c, hc, h1, h2, h3, h4, _⟩ :=
    create_clamps_configuration (exampleNoise ℚ) (exampleTestVec ℚ) (exampleConvert ℚ)
      (examplePixel ℚ) (exampleProjection ℚ) ⟨0, 0, 0⟩ (examplePlanet ℚ) 0 5 1 0
      (examplePlanet ℚ).RParameter example_create_heights
  exact ⟨c, hc, h1, h2, h3, h4⟩

/-- C13: the neighbour links set up by `create` are the adjacency of the cube.  Each of
the six grids is linked to four distinct grids, which are exactly the grids other than
itself and the opposite face, and the links are symmetric. -/
theorem create_links_cube_adjacency [FloorRing α]
    (heightNoise : List α → List α → Vector3 α → α)
    (testVec : Nat → Vector3 α) (convertSphericalToCartesian : α → α → Vector3 α)
    (generatePixel : α → α → α → α → ColourValue α)
    (projectToSphere : Matrix3 α → Nat → Nat → Nat → Vector3 α)
    (randomTranslate : Vector3 α) (p : PSphere α)
    (surfaceTextureWidth surfaceTextureHeight : Nat)
    (iters gridSize : Nat) (resourceParameter : ResourceParameter α)
    (hlt : minElevOf (testHeights heightNoise testVec
        { p with RParameter := resourceParameter, randomTranslate := randomTranslate }) <
      maxElevOf (testHeights heightNoise testVec
        { p with RParameter := resourceParameter, randomTranslate := randomTranslate })) :
    ∃ c, create heightNoise testVec convertSphericalToCartesian generatePixel projectToSphere
        randomTranslate p surfaceTextureWidth surfaceTextureHeight iters gridSize
        resourceParameter = some c ∧
      c.neighbours Face.gridYP = [Face.gridXM, Face.gridXP, Face.gridZP, Face.gridZM] ∧
      (∀ a b, b ∈ c.neighbours a ↔ (b ≠ a ∧ b ≠ a.opposite)) ∧
      (∀ a, (c.neighbours a).length = 4 ∧ (c.neighbours a).Nodup) ∧
      (∀ a b, a ∈ c.neighbours b ↔ b ∈ c.neighbours a) := by
  obtain ⟨c, hc, _, _, _, _, hn⟩ := create_spec heightNoise testVec
    convertSphericalToCartesian generatePixel projectToSphere randomTranslate p
    surfaceTextureWidth surfaceTextureHeight iters gridSize resourceParameter hlt
  refine ⟨c, hc, ?_, ?_, ?_, ?_⟩
  · rw [hn]
    rfl
  · rw [hn]
    exact createNeighbours_adjacency.1
  · rw [hn]
    exact createNeighbours_adjacency.2.1
  · rw [hn]
    exact createNeighbours_adjacency.2.2

/-- Witness for C13: `create` on the example planet. -/
theorem create_links_cube_adjacency_witness :
    ∃ c, create (exampleNoise ℚ) (exampleTestVec ℚ) (exampleConvert ℚ) (examplePixel ℚ)
        (exampleProjection ℚ) ⟨0, 0, 0⟩ (examplePlanet ℚ) 8 4 3 4
        (examplePlanet ℚ).RParameter = some c ∧
      c.neighbours Face.gridYP = [Face.gridXM, Face.gridXP, Face.gridZP, Face.gridZM] ∧
      (∀ a b, b ∈ c.neighbours a ↔ (b ≠ a ∧ b ≠ a.opposite)) ∧
      (∀ a, (c.neighbours a).length = 4 ∧ (c.neighbours a).Nodup) ∧
      (∀ a b, a ∈ c.neighbours b ↔ b ∈ c.neighbours a) :=
  create_links_cube_adjacency (exampleNoise ℚ) (exampleTestVec ℚ) (exampleConvert ℚ)
    (examplePixel ℚ) (exampleProjection ℚ) ⟨0, 0, 0⟩ (examplePlanet ℚ) 8 4 3 4
    (examplePlanet ℚ).RParameter example_create_heights

end CreateClaims

section Paint

variable {α : Type} [LinearOrderedField α] [FloorRing α]

/-! ## Lemmas on pixel assignments -/

/-- The image after one pixel assignment. -/
theorem setPixel_apply (image : Nat → Nat) (index : Nat) (Pixel : ColourValue α) (o : Nat) :
    setPixel image index Pixel o = if o / 3 = index then Pixel.byte (o % 3) else image o := by
  unfold setPixel writeByte ColourValue.byte
  by_cases h2 : o = index * 3 + 2
  · have e1 : o / 3 = index := by omega
    have e2 : o % 3 ≠ 0 := by omega
    have e3 : o % 3 ≠ 1 := by omega
    rw [if_pos h2, if_pos e1, if_neg e2, if_neg e3]
  · rw [if_neg h2]
    by_cases h1 : o = index * 3 + 1
    · have e1 : o / 3 = index := by omega
      have e2 : o % 3 ≠ 0 := by omega
      have e3 : o % 3 = 1 := by omega
      rw [if_pos h1, if_pos e1, if_neg e2, if_pos e3]
    · rw [if_neg h1]
      by_cases h0 : o = index * 3
      · have e1 : o / 3 = index := by omega
        have e2 : o % 3 = 0 := by omega
        rw [if_pos h0, if_pos e1, if_pos e2]
      · have e1 : ¬ o / 3 = index := by omega
        rw [if_neg h0, if_neg e1]

theorem paint_cons (image : Nat → Nat) (w : Nat × ColourValue α)
    (t : List (Nat × ColourValue α)) :
    paint image (w :: t) = paint (setPixel image w.1 w.2) t := rfl

theorem paint_append (image : Nat → Nat) (a b : List (Nat × ColourValue α)) :
    paint image (a ++ b) = paint (paint image a) b := by
  unfold paint
  rw [List.foldl_append]

/-- A byte whose pixel is not assigned keeps its value. -/
theorem paint_apply_of_not_mem (image : Nat → Nat) (ws : List (Nat × ColourValue α)) (o : Nat)
    (h : ∀ w ∈ ws, w.1 ≠ o / 3) : paint image ws o = image o := by
  induction ws generalizing image with
  | nil => rfl
  | cons w t ih =>
    rw [paint_cons, ih _ (fun w' hw' => h w' (List.mem_cons_of_mem _ hw')), setPixel_apply,
      if_neg (fun he => h w (List.mem_cons_self _ _) he.symm)]

/-- A byte of a pixel that is assigned, always with the same colour, holds the byte of
that colour. -/
theorem paint_apply_of_mem (image : Nat → Nat) (ws : List (Nat × ColourValue α)) (o : Nat)
    (c : ColourValue α) (hm : (o / 3, c) ∈ ws) (hu : ∀ w ∈ ws, w.1 = o / 3 → w.2 = c) :
    paint image ws o = c.byte (o % 3) := by
  induction ws generalizing image with
  | nil => cases hm
  | cons w t ih =>
    rw [paint_cons]
    by_cases ht : ∃ w' ∈ t, w'.1 = o / 3
    · obtain ⟨w', hw', he⟩ := ht
      have hc : w'.2 = c := hu w' (List.mem_cons_of_mem _ hw') he
      have hmt : (o / 3, c) ∈ t := by
        have : w' = (o / 3, c) := Prod.ext he hc
        rw [← this]
        exact hw'
      exact ih _ hmt (fun w'' hw'' => hu w'' (List.mem_cons_of_mem _ hw''))
    · have hnt : ∀ w' ∈ t, w'.1 ≠ o / 3 := fun w' hw' he => ht ⟨w', hw', he⟩
      rw [paint_apply_of_not_mem _ t o hnt, setPixel_apply]
      have hw : w = (o / 3, c) := by
        rcases List.mem_cons.mp hm with h | h
        · exact h.symm
        · exact absurd rfl (hnt _ h)
      rw [hw, if_pos rfl]

theorem foldl_setPixel_eq_paint {β : Type} (xs : List β) (f : β → Nat) (g : β → ColourValue α)
    (image : Nat → Nat) :
    xs.foldl (fun image x => setPixel image (f x) (g x)) image =
      paint image (xs.map (fun x => (f x, g x))) := by
  unfold paint
  rw [List.foldl_map]

theorem foldl_paint_eq_paint {β : Type} (l : List β) (F : β → List (Nat × ColourValue α))
    (image : Nat → Nat) :
    l.foldl (fun image a => paint image (F a)) image = paint image ((l.map F).flatten) := by
  induction l generalizing image with
  | nil => rfl
  | cons a t ih =>
    simp only [List.foldl_cons, List.map_cons, List.flatten_cons]
    rw [ih, paint_append]

/-- Two cells of a grid of width `w` with the same index are the same cell. -/
theorem index_injective (w a x b y : Nat) (hx : x < w) (hy : y < w)
    (h : a * w + x = b * w + y) : a = b ∧ x = y := by
  have h1 : (a * w + x) % w = x := by
    rw [Nat.add_comm, Nat.add_mul_mod_self_right, Nat.mod_eq_of_lt hx]
  have h2 : (b * w + y) % w = y := by
    rw [Nat.add_comm, Nat.add_mul_mod_self_right, Nat.mod_eq_of_lt hy]
  have hxy : x = y := by
    rw [← h1, ← h2, h]
  subst hxy
  have hw : 0 < w := by omega
  have h3 : a * w = b * w := by omega
  exact ⟨Nat.eq_of_mul_eq_mul_right hw h3, rfl⟩

end Paint

section GenerateImage

variable {α : Type} [LinearOrderedField α] [FloorRing α]

/-! ## Lemmas on `generateImage` -/

/-- The loops of `generateImage` are one sequence of pixel assignments. -/
theorem generateImage_eq_paint (heightNoise : List α → List α → Vector3 α → α)
    (convertSphericalToCartesian : α → α → Vector3 α)
    (generatePixel : α → α → α → α → ColourValue α) (p : PSphere α)
    (textureWidth textureHeight : Nat) (image : Nat → Nat) :
    generateImage heightNoise convertSphericalToCartesian generatePixel p
        textureWidth textureHeight image =
      paint image (((List.range textureHeight).map (fun y =>
        (List.range textureWidth).map (fun x =>
          (imageIndex textureWidth textureHeight x y,
            pixelColour heightNoise convertSphericalToCartesian generatePixel p
              textureWidth textureHeight x y)))).flatten) := by
  unfold generateImage
  have h : ∀ (y : Nat) (im : Nat → Nat),
      (List.range textureWidth).foldl
        (fun image x =>
          setPixel image (imageIndex textureWidth textureHeight x y)
            (pixelColour heightNoise convertSphericalToCartesian generatePixel p
              textureWidth textureHeight x y)) im =
      paint im ((List.range textureWidth).map (fun x =>
          (imageIndex textureWidth textureHeight x y,
            pixelColour heightNoise convertSphericalToCartesian generatePixel p
              textureWidth textureHeight x y))) :=
    fun y im => foldl_setPixel_eq_paint (List.range textureWidth)
      (fun x => imageIndex textureWidth textureHeight x y)
      (fun x => pixelColour heightNoise convertSphericalToCartesian generatePixel p
        textureWidth textureHeight x y) im
  simp only [h]
  exact foldl_paint_eq_paint (List.range textureHeight) _ image

theorem imageIndex_eq (textureWidth textureHeight x y : Nat) (hx : x < textureWidth)
    (hy : y < textureHeight) (hsize : textureWidth * textureHeight * 3 ≤ 4294967296) :
    imageIndex textureWidth textureHeight x y = (textureHeight - 1 - y) * textureWidth + x := by
  unfold imageIndex
  apply Nat.mod_eq_of_lt
  have h1 : (textureHeight - 1 - y) * textureWidth + x <
      (textureHeight - 1 - y + 1) * textureWidth := by
    rw [Nat.add_mul, Nat.one_mul]
    omega
  have h2 : (textureHeight - 1 - y + 1) * textureWidth ≤ textureHeight * textureWidth :=
    Nat.mul_le_mul_right _ (by omega)
  have h3 : textureHeight * textureWidth = textureWidth * textureHeight := Nat.mul_comm _ _
  omega

/-- The bytes of the buffer after `generateImage`: the image position `(x, y)` is
stored at the pixel index `(textureHeight - 1 - y) * textureWidth + x`. -/
theorem generateImage_apply (heightNoise : List α → List α → Vector3 α → α)
    (convertSphericalToCartesian : α → α → Vector3 α)
    (generatePixel : α → α → α → α → ColourValue α) (p : PSphere α)
    (textureWidth textureHeight : Nat) (image : Nat → Nat) (x y k : Nat)
    (hx : x < textureWidth) (hy : y < textureHeight) (hk : k < 3)
    (hsize : textureWidth * textureHeight * 3 ≤ 4294967296) :
    generateImage heightNoise convertSphericalToCartesian generatePixel p
        textureWidth textureHeight image
        (((textureHeight - 1 - y) * textureWidth + x) * 3 + k) =
      (pixelColour heightNoise convertSphericalToCartesian generatePixel p
        textureWidth textureHeight x y).byte k := by
  have hdiv : (((textureHeight - 1 - y) * textureWidth + x) * 3 + k) / 3 =
      (textureHeight - 1 - y) * textureWidth + x := by omega
  have hmod : (((textureHeight - 1 - y) * textureWidth + x) * 3 + k) % 3 = k := by omega
  rw [generateImage_eq_paint]
  rw [paint_apply_of_mem image _ _
    (pixelColour heightNoise convertSphericalToCartesian generatePixel p
      textureWidth textureHeight x y), hmod]
  · rw [hdiv]
    simp only [List.mem_flatten, List.mem_map, List.mem_range]
    refine ⟨_, ⟨y, hy, rfl⟩, List.mem_map.mpr ⟨x, List.mem_range.mpr hx, ?_⟩⟩
    rw [imageIndex_eq _ _ x y hx hy hsize]
  · intro w hw he
    simp only [List.mem_flatten, List.mem_map, List.mem_range] at hw
    obtain ⟨l, ⟨y', hy', rfl⟩, hw⟩ := hw
    obtain ⟨x', hx', rfl⟩ := List.mem_map.mp hw
    have hx' := List.mem_range.mp hx'
    simp only [] at he ⊢
    rw [hdiv, imageIndex_eq _ _ x' y' hx' hy' hsize] at he
    obtain ⟨h1, h2⟩ := index_injective textureWidth _ _ _ _ hx' hx he
    have h3 : y' = y := by omega
    rw [h2, h3]

end GenerateImage

section GenerateImageClaims

variable {α : Type} [LinearOrderedField α]

theorem pixelLatitude_row (textureHeight r : Nat) (hr : r < textureHeight) :
    (pixelLatitude textureHeight (textureHeight - 1 - r) : α) =
      -90 + ((r : α) + 1 / 2) / (textureHeight : α) * 180 := by
  unfold pixelLatitude
  have hH : (0 : α) < (textureHeight : α) := by
    have : 0 < textureHeight := by omega
    exact_mod_cast this
  have hc : ((textureHeight - 1 - r : Nat) : α) = (textureHeight : α) - 1 - (r : α) := by
    have h1 : 1 + r ≤ textureHeight := by omega
    have h2 : textureHeight - 1 - r = textureHeight - (1 + r) := by omega
    rw [h2, Nat.cast_sub h1]
    push_cast
    ring
  rw [hc]
  field_simp
  ring

theorem toUChar_natCast [FloorRing α] (n : Nat) (h : n < 256) : toUChar (n : α) = n := by
  unfold toUChar
  rw [if_pos (Nat.cast_nonneg n), Int.floor_natCast]
  omega

/-- C17, as amended: in the buffer filled by `generateImage` the image row `y`, of
latitude `90 - (y + 0.5) / H * 180`, is stored in the buffer row `H - 1 - y`.  The
buffer row `r` holds the colours evaluated at the latitude
`-90 + (r + 0.5) / H * 180`: the first row (row index `0`) is the lowest latitude
`-90 + 90 / H`, the last row (row index `H - 1`) is the highest latitude `90 - 90 / H`,
and the latitude grows with the row index. -/
theorem generateImage_row_order [FloorRing α] (heightNoise : List α → List α → Vector3 α → α)
    (convertSphericalToCartesian : α → α → Vector3 α)
    (generatePixel : α → α → α → α → ColourValue α) (p : PSphere α)
    (textureWidth textureHeight : Nat) (image : Nat → Nat)
    (hsize : textureWidth * textureHeight * 3 ≤ 4294967296) :
    (∀ r x k, r < textureHeight → x < textureWidth → k < 3 →
      generateImage heightNoise convertSphericalToCartesian generatePixel p
          textureWidth textureHeight image ((r * textureWidth + x) * 3 + k) =
        (pixelColour heightNoise convertSphericalToCartesian generatePixel p
          textureWidth textureHeight x (textureHeight - 1 - r)).byte k) ∧
    (∀ r, r < textureHeight →
      (pixelLatitude textureHeight (textureHeight - 1 - r) : α) =
        -90 + ((r : α) + 1 / 2) / (textureHeight : α) * 180) ∧
    (0 < textureHeight →
      (pixelLatitude textureHeight (textureHeight - 1 - 0) : α) =
        -90 + 90 / (textureHeight : α)) ∧
    (0 < textureHeight →
      (pixelLatitude textureHeight (textureHeight - 1 - (textureHeight - 1)) : α) =
        90 - 90 / (textureHeight : α)) ∧
    (∀ r1 r2, r1 < r2 → r2 < textureHeight →
      (pixelLatitude textureHeight (textureHeight - 1 - r1) : α) <
        pixelLatitude textureHeight (textureHeight - 1 - r2)) := by
  refine ⟨?_, ?_, ?_, ?_, ?_⟩
  · intro r x k hr hx hk
    have h := generateImage_apply heightNoise convertSphericalToCartesian generatePixel p
      textureWidth textureHeight image x (textureHeight - 1 - r) k hx (by omega) hk hsize
    have he : textureHeight - 1 - (textureHeight - 1 - r) = r := by omega
    rw [he] at h
    exact h
  · intro r hr
    exact pixelLatitude_row textureHeight r hr
  · intro hH
    rw [pixelLatitude_row textureHeight 0 hH]
    have hpos : (0 : α) < (textureHeight : α) := by exact_mod_cast hH
    field_simp
    ring
  · intro hH
    have he : textureHeight - 1 - (textureHeight - 1) = 0 := by omega
    rw [he]
    unfold pixelLatitude
    have hpos : (0 : α) < (textureHeight : α) := by exact_mod_cast hH
    field_simp
    ring
  · intro r1 r2 h12 h2
    rw [pixelLatitude_row textureHeight r1 (by omega), pixelLatitude_row textureHeight r2 h2]
    have hpos : (0 : α) < (textureHeight : α) := by
      have : 0 < textureHeight := by omega
      exact_mod_cast this
    have hc : (r1 : α) < (r2 : α) := by exact_mod_cast h12
    have hd : ((r1 : α) + 1 / 2) / (textureHeight : α) <
        ((r2 : α) + 1 / 2) / (textureHeight : α) :=
      div_lt_div_of_pos_right (by linarith) hpos
    linarith

/-- Witness for C17 as amended: a `4 × 2` texture of the example planet. -/
theorem generateImage_row_order_witness :
    (pixelLatitude 2 (2 - 1 - 0) : ℚ) = -90 + 90 / ((2 : Nat) : ℚ) :=
  (generateImage_row_order (exampleNoise ℚ) (latitudeConvert ℚ) (examplePixel ℚ)
    (examplePlanet ℚ) 4 2 (fun _ => 0) (by decide)).2.2.1 (by decide)

/-- C17, counterexample: in a `1 × 2` texture, with a height equal to the latitude and
a red channel of height plus `100`, the byte at offset `0` (first row of the buffer) is
`55`, the colour at the latitude `-45` of the image row `y = 1`; the colour at the
latitude `90 - 90 / 2 = 45` of the image row `y = 0` is `145`. -/
theorem generateImage_first_row_not_highest_latitude :
    generateImage (exampleNoise ℚ) (latitudeConvert ℚ) (examplePixel ℚ) (examplePlanet ℚ)
      1 2 (fun _ => 0) 0 = 55 ∧
    (pixelLatitude 2 1 : ℚ) = -45 ∧
    (pixelLatitude 2 0 : ℚ) = 90 - 90 / 2 ∧
    (pixelColour (exampleNoise ℚ) (latitudeConvert ℚ) (examplePixel ℚ) (examplePlanet ℚ)
      1 2 0 0).byte 0 = 145 := by
  have h1 : (pixelLatitude 2 1 : ℚ) = -45 := by
    unfold pixelLatitude
    norm_num
  have h0 : (pixelLatitude 2 0 : ℚ) = 45 := by
    unfold pixelLatitude
    norm_num
  have c1 : (pixelColour (exampleNoise ℚ) (latitudeConvert ℚ) (examplePixel ℚ)
      (examplePlanet ℚ) 1 2 0 1).byte 0 = 55 := by
    unfold pixelColour ColourValue.byte
    simp only [h1, exampleNoise, latitudeConvert, examplePixel, examplePlanet, Vector3.add,
      if_true]
    have : (-45 + 0 + 100 : ℚ) = ((55 : Nat) : ℚ) := by norm_num
    rw [this, toUChar_natCast 55 (by decide)]
  have c0 : (pixelColour (exampleNoise ℚ) (latitudeConvert ℚ) (examplePixel ℚ)
      (examplePlanet ℚ) 1 2 0 0).byte 0 = 145 := by
    unfold pixelColour ColourValue.byte
    simp only [h0, exampleNoise, latitudeConvert, examplePixel, examplePlanet, Vector3.add,
      if_true]
    have : (45 + 0 + 100 : ℚ) = ((145 : Nat) : ℚ) := by norm_num
    rw [this, toUChar_natCast 145 (by decide)]
  refine ⟨?_, h1, ?_, c0⟩
  · have h := generateImage_apply (exampleNoise ℚ) (latitudeConvert ℚ) (examplePixel ℚ)
      (examplePlanet ℚ) 1 2 (fun _ => 0) 0 1 0 (by decide) (by decide) (by decide) (by decide)
    rw [c1] at h
    exact h
  · rw [h0]
    norm_num

end GenerateImageClaims

section CubeMapIndex

variable {α : Type}

theorem mem_tileWrites (index : Nat → Nat → Nat) (colour : Nat → Nat → ColourValue α)
    (gSize : Nat) (w : Nat × ColourValue α) :
    w ∈ tileWrites index colour gSize ↔
      ∃ x y, x < gSize ∧ y < gSize ∧ w = (index x y, colour x y) := by
  unfold tileWrites
  simp only [List.mem_flatten, List.mem_map, List.mem_range]
  constructor
  · rintro ⟨l, ⟨y, hy, rfl⟩, hw⟩
    obtain ⟨x, hx, rfl⟩ := List.mem_map.mp hw
    exact ⟨x, y, List.mem_range.mp hx, hy, rfl⟩
  · rintro ⟨x, y, hx, hy, rfl⟩
    exact ⟨_, ⟨y, hy, rfl⟩, List.mem_map.mpr ⟨x, List.mem_range.mpr hx, rfl⟩⟩

theorem cubePixelIndex_row_col (width gSize t x y : Nat) :
    cubePixelIndex width gSize t x y =
      (if t < 4 then gSize + y else if t = 4 then gSize * 2 + y else y) * width +
        (if t < 4 then t * gSize + x else x) := by
  unfold cubePixelIndex
  split_ifs <;> omega

theorem cubeColumn_lt (width gSize t x : Nat) (hg : 4 * gSize ≤ width) (ht : t < 6)
    (hx : x < gSize) : (if t < 4 then t * gSize + x else x) < width := by
  split_ifs with h
  · have h1 : t * gSize ≤ 3 * gSize := Nat.mul_le_mul_right _ (by omega)
    omega
  · omega

/-- Two cells of the six tiles with the same pixel index are the same cell of the same
tile. -/
theorem cubePixelIndex_injective (width gSize : Nat) (hg : 4 * gSize ≤ width)
    (t x y t' x' y' : Nat) (ht : t < 6) (hx : x < gSize) (hy : y < gSize)
    (ht' : t' < 6) (hx' : x' < gSize) (hy' : y' < gSize)
    (h : cubePixelIndex width gSize t x y = cubePixelIndex width gSize t' x' y') :
    t = t' ∧ x = x' ∧ y = y' := by
  rw [cubePixelIndex_row_col, cubePixelIndex_row_col] at h
  obtain ⟨hrow, hcol⟩ := index_injective width _ _ _ _
    (cubeColumn_lt width gSize t x hg ht hx) (cubeColumn_lt width gSize t' x' hg ht' hx') h
  by_cases h4 : t < 4
  · by_cases h4' : t' < 4
    · rw [if_pos h4, if_pos h4'] at hrow hcol
      obtain ⟨h1, h2⟩ := index_injective gSize _ _ _ _ hx hx' hcol
      exact ⟨h1, h2, by omega⟩
    · exfalso
      rw [if_pos h4, if_neg h4'] at hrow
      split_ifs at hrow <;> omega
  · by_cases h4' : t' < 4
    · exfalso
      rw [if_neg h4, if_pos h4'] at hrow
      split_ifs at hrow <;> omega
    · rw [if_neg h4, if_neg h4'] at hrow hcol
      split_ifs at hrow with a b b <;> omega

/-- Every cell of the six tiles lies inside the buffer of `width * (3 * gSize)` pixels. -/
theorem cubePixelIndex_lt (width gSize : Nat) (hg : 4 * gSize ≤ width)
    (t x y : Nat) (ht : t < 6) (hx : x < gSize) (hy : y < gSize) :
    cubePixelIndex width gSize t x y < width * (3 * gSize) := by
  rw [cubePixelIndex_row_col]
  have hc := cubeColumn_lt width gSize t x hg ht hx
  have hr : (if t < 4 then gSize + y else if t = 4 then gSize * 2 + y else y) + 1 ≤
      3 * gSize := by
    split_ifs <;> omega
  have h1 := Nat.mul_le_mul_right width hr
  rw [Nat.add_mul, Nat.one_mul] at h1
  have h2 : 3 * gSize * width = width * (3 * gSize) := Nat.mul_comm _ _
  omega

end CubeMapIndex

section CubeMap

variable {α : Type} [LinearOrderedField α]

/-! ## Lemmas on the cube map of `exportMap` -/

theorem tileLoop_eq_paint [FloorRing α] (index : Nat → Nat → Nat) (colour : Nat → Nat → ColourValue α)
    (gSize : Nat) (image : Nat → Nat) :
    (List.range gSize).foldl
        (fun image y =>
          (List.range gSize).foldl
            (fun image x => setPixel image (index x y) (colour x y)) image)
        image =
      paint image (tileWrites index colour gSize) := by
  have h : ∀ (y : Nat) (im : Nat → Nat),
      (List.range gSize).foldl (fun image x => setPixel image (index x y) (colour x y)) im =
        paint im ((List.range gSize).map (fun x => (index x y, colour x y))) :=
    fun y im => foldl_setPixel_eq_paint (List.range gSize) (fun x => index x y)
      (fun x => colour x y) im
  simp only [h]
  exact foldl_paint_eq_paint (List.range gSize) _ image

/-- The assignments of the cube map are the cells of the six tiles. -/
theorem mem_cubeWrites (heightNoise : List α → List α → Vector3 α → α)
    (generatePixel : α → α → α → α → ColourValue α) (p : PSphere α) (temp : Nat → Grid α)
    (width gSize : Nat) (w : Nat × ColourValue α) :
    w ∈ cubeWrites heightNoise generatePixel p temp width gSize ↔
      ∃ t x y, t < 6 ∧ x < gSize ∧ y < gSize ∧
        w = (cubePixelIndex width gSize t x y,
          cubeTileColour heightNoise generatePixel p (temp t) x y) := by
  unfold cubeWrites
  simp only [List.mem_append, List.mem_flatten, List.mem_map, List.mem_range]
  constructor
  · rintro ((⟨l, ⟨i, hi, rfl⟩, hw⟩ | hw) | hw)
    · obtain ⟨x, y, hx, hy, rfl⟩ := (mem_tileWrites _ _ _ _).mp hw
      refine ⟨i, x, y, by omega, hx, hy, ?_⟩
      simp only [cubePixelIndex, if_pos hi]
    · obtain ⟨x, y, hx, hy, rfl⟩ := (mem_tileWrites _ _ _ _).mp hw
      refine ⟨4, x, y, by omega, hx, hy, ?_⟩
      simp [cubePixelIndex]
    · obtain ⟨x, y, hx, hy, rfl⟩ := (mem_tileWrites _ _ _ _).mp hw
      refine ⟨5, x, y, by omega, hx, hy, ?_⟩
      simp [cubePixelIndex]
  · rintro ⟨t, x, y, ht, hx, hy, rfl⟩
    by_cases h4 : t < 4
    · left
      left
      refine ⟨_, ⟨t, h4, rfl⟩, (mem_tileWrites _ _ _ _).mpr ⟨x, y, hx, hy, ?_⟩⟩
      simp only [cubePixelIndex, if_pos h4]
    · by_cases h5 : t = 4
      · subst h5
        left
        right
        refine (mem_tileWrites _ _ _ _).mpr ⟨x, y, hx, hy, ?_⟩
        simp [cubePixelIndex]
      · have h6 : t = 5 := by omega
        subst h6
        right
        refine (mem_tileWrites _ _ _ _).mpr ⟨x, y, hx, hy, ?_⟩
        simp [cubePixelIndex]

/-- The cube map is the zero buffer after the assignments of the six tiles. -/
theorem exportMap_cube_eq [FloorRing α] (heightNoise : List α → List α → Vector3 α → α)
    (convertSphericalToCartesian : α → α → Vector3 α)
    (generatePixel : α → α → α → α → ColourValue α)
    (projectToSphere : Matrix3 α → Nat → Nat → Nat → Vector3 α)
    (getOrientation : Face → Matrix3 α) (p : PSphere α) (width height : Nat)
    (hw : width * (width / 4 * 3) * 3 ≤ 2147483647) :
    exportMap heightNoise convertSphericalToCartesian generatePixel projectToSphere
        getOrientation p width height MapType.MAP_CUBE =
      some (paint (fun _ => 0)
        (cubeWrites heightNoise generatePixel p
          (tempGrid projectToSphere getOrientation (width / 4)) width (width / 4))) := by
  unfold exportMap cubeWrites
  simp only [if_neg (not_lt.mpr hw), tileLoop_eq_paint, paint_append]
  rw [foldl_paint_eq_paint]

/-- The bytes of a cell of a tile after the assignments of the cube map. -/
theorem cubeWrites_apply [FloorRing α] (heightNoise : List α → List α → Vector3 α → α)
    (generatePixel : α → α → α → α → ColourValue α) (p : PSphere α) (temp : Nat → Grid α)
    (width gSize : Nat) (hg : 4 * gSize ≤ width) (image : Nat → Nat)
    (t x y k : Nat) (ht : t < 6) (hx : x < gSize) (hy : y < gSize) (hk : k < 3) :
    paint image (cubeWrites heightNoise generatePixel p temp width gSize)
        (cubePixelIndex width gSize t x y * 3 + k) =
      (cubeTileColour heightNoise generatePixel p (temp t) x y).byte k := by
  have hdiv : (cubePixelIndex width gSize t x y * 3 + k) / 3 =
      cubePixelIndex width gSize t x y := by omega
  have hmod : (cubePixelIndex width gSize t x y * 3 + k) % 3 = k := by omega
  rw [paint_apply_of_mem image _ _ (cubeTileColour heightNoise generatePixel p (temp t) x y),
    hmod]
  · rw [hdiv]
    exact (mem_cubeWrites _ _ _ _ _ _ _).mpr ⟨t, x, y, ht, hx, hy, rfl⟩
  · intro w hw he
    obtain ⟨t', x', y', ht', hx', hy', rfl⟩ := (mem_cubeWrites _ _ _ _ _ _ _).mp hw
    simp only [] at he ⊢
    rw [hdiv] at he
    obtain ⟨h1, h2, h3⟩ := cubePixelIndex_injective width gSize hg t' x' y' t x y
      ht' hx' hy' ht hx hy he
    rw [h1, h2, h3]

/-- C18: the cube map of `exportMap(width, height, MAP_CUBE)`, with `g = width / 4`, for
a width whose buffer size `width * (3 * g) * 3` fits in `int`.  The pixel
`(row g + y, column i * g + x)` holds the colour of the cell `(x, y)` of the temporary
grid `i` for `i = 0 .. 3` (orientations of `gridYP`, `gridXM`, `gridYM`, `gridXP`), the
pixel `(row 2 g + y, column x)` that of the grid `4` (`gridZP`), the pixel
`(row y, column x)` that of the grid `5` (`gridZM`); the six tiles lie inside the buffer
of `width * (3 * g)` pixels and are pairwise disjoint, every byte outside them is zero,
and the result is the same for every height. -/
theorem exportMap_cube_layout [FloorRing α] (heightNoise : List α → List α → Vector3 α → α)
    (convertSphericalToCartesian : α → α → Vector3 α)
    (generatePixel : α → α → α → α → ColourValue α)
    (projectToSphere : Matrix3 α → Nat → Nat → Nat → Vector3 α)
    (getOrientation : Face → Matrix3 α) (p : PSphere α) (width height : Nat)
    (hw : width * (width / 4 * 3) * 3 ≤ 2147483647) :
    ∃ img, exportMap heightNoise convertSphericalToCartesian generatePixel projectToSphere
        getOrientation p width height MapType.MAP_CUBE = some img ∧
      (∀ i x y k, i < 4 → x < width / 4 → y < width / 4 → k < 3 →
        img (((width / 4 + y) * width + (i * (width / 4) + x)) * 3 + k) =
          (cubeTileColour heightNoise generatePixel p
            (tempGrid projectToSphere getOrientation (width / 4) i) x y).byte k) ∧
      (∀ x y k, x < width / 4 → y < width / 4 → k < 3 →
        img (((2 * (width / 4) + y) * width + x) * 3 + k) =
          (cubeTileColour heightNoise generatePixel p
            (newGrid projectToSphere (width / 4) (getOrientation Face.gridZP)) x y).byte k) ∧
      (∀ x y k, x < width / 4 → y < width / 4 → k < 3 →
        img ((y * width + x) * 3 + k) =
          (cubeTileColour heightNoise generatePixel p
            (newGrid projectToSphere (width / 4) (getOrientation Face.gridZM)) x y).byte k) ∧
      (tempGrid projectToSphere getOrientation (width / 4) 0 =
          newGrid projectToSphere (width / 4) (getOrientation Face.gridYP) ∧
        tempGrid projectToSphere getOrientation (width / 4) 1 =
          newGrid projectToSphere (width / 4) (getOrientation Face.gridXM) ∧
        tempGrid projectToSphere getOrientation (width / 4) 2 =
          newGrid projectToSphere (width / 4) (getOrientation Face.gridYM) ∧
        tempGrid projectToSphere getOrientation (width / 4) 3 =
          newGrid projectToSphere (width / 4) (getOrientation Face.gridXP)) ∧
      (∀ t x y, t < 6 → x < width / 4 → y < width / 4 →
        cubePixelIndex width (width / 4) t x y < width * (3 * (width / 4))) ∧
      (∀ t x y t' x' y', t < 6 → x < width / 4 → y < width / 4 →
        t' < 6 → x' < width / 4 → y' < width / 4 →
        cubePixelIndex width (width / 4) t x y = cubePixelIndex width (width / 4) t' x' y' →
        t = t' ∧ x = x' ∧ y = y') ∧
      (∀ o, (∀ t x y, t < 6 → x < width / 4 → y < width / 4 →
          o / 3 ≠ cubePixelIndex width (width / 4) t x y) → img o = 0) ∧
      (∀ height', exportMap heightNoise convertSphericalToCartesian generatePixel
        projectToSphere getOrientation p width height' MapType.MAP_CUBE = some img) := by
  have hg : 4 * (width / 4) ≤ width := by omega
  refine ⟨_, exportMap_cube_eq heightNoise convertSphericalToCartesian generatePixel
    projectToSphere getOrientation p width height hw, ?_, ?_, ?_, ⟨rfl, rfl, rfl, rfl⟩,
    ?_, ?_, ?_, ?_⟩
  · intro i x y k hi hx hy hk
    have h := cubeWrites_apply heightNoise generatePixel p
      (tempGrid projectToSphere getOrientation (width / 4)) width (width / 4) hg (fun _ => 0)
      i x y k (by omega) hx hy hk
    have he : cubePixelIndex width (width / 4) i x y =
        (width / 4 + y) * width + (i * (width / 4) + x) := by
      simp only [cubePixelIndex, if_pos hi]
      omega
    rw [he] at h
    exact h
  · intro x y k hx hy hk
    have h := cubeWrites_apply heightNoise generatePixel p
      (tempGrid projectToSphere getOrientation (width / 4)) width (width / 4) hg (fun _ => 0)
      4 x y k (by omega) hx hy hk
    have he : cubePixelIndex width (width / 4) 4 x y = (2 * (width / 4) + y) * width + x := by
      simp only [cubePixelIndex, Nat.lt_irrefl, if_false, if_true, Nat.mul_comm]
    rw [he] at h
    exact h
  · intro x y k hx hy hk
    have h := cubeWrites_apply heightNoise generatePixel p
      (tempGrid projectToSphere getOrientation (width / 4)) width (width / 4) hg (fun _ => 0)
      5 x y k (by omega) hx hy hk
    have he : cubePixelIndex width (width / 4) 5 x y = y * width + x := by
      simp [cubePixelIndex]
    rw [he] at h
    exact h
  · intro t x y ht hx hy
    exact cubePixelIndex_lt width (width / 4) hg t x y ht hx hy
  · intro t x y t' x' y' ht hx hy ht' hx' hy' h
    exact cubePixelIndex_injective width (width / 4) hg t x y t' x' y' ht hx hy ht' hx' hy' h
  · intro o ho
    apply paint_apply_of_not_mem
    intro w hw he
    obtain ⟨t, x, y, ht, hx, hy, rfl⟩ := (mem_cubeWrites _ _ _ _ _ _ _).mp hw
    exact ho t x y ht hx hy he.symm
  · intro height'
    exact exportMap_cube_eq heightNoise convertSphericalToCartesian generatePixel
      projectToSphere getOrientation p width height' hw

/-- Witness for C18: the cube map of width `8` of the example planet; the pixel in row
`2 + 1` and column `3 * 2 + 0` is the cell `(0, 1)` of the fourth equatorial tile. -/
theorem exportMap_cube_layout_witness :
    ∃ img, exportMap (exampleNoise ℚ) (exampleConvert ℚ) (examplePixel ℚ)
        (exampleProjection ℚ) (exampleOrientation ℚ) (examplePlanet ℚ) 8 5
        MapType.MAP_CUBE = some img ∧
      img (((8 / 4 + 1) * 8 + (3 * (8 / 4) + 0)) * 3 + 0) =
        (cubeTileColour (exampleNoise ℚ) (examplePixel ℚ) (examplePlanet ℚ)
          (tempGrid (exampleProjection ℚ) (exampleOrientation ℚ) (8 / 4) 3) 0 1).byte 0 := by
  obtain ⟨img, h1, h2, _⟩ := exportMap_cube_layout (exampleNoise ℚ) (exampleConvert ℚ)
    (examplePixel ℚ) (exampleProjection ℚ) (exampleOrientation ℚ) (examplePlanet ℚ) 8 5
    (by decide)
  exact ⟨img, h1, h2 3 0 1 0 (by decide) (by decide) (by decide) (by decide)⟩

end CubeMap

section MoveObject

variable {α : Type}

/-! ## Lemmas on `moveObject` -/

/-- After a reported collision the object and its node are where the node was. -/
theorem setAndCheck_collided (checkCollisionAABB : ObjectInfo α → Bool) (it : ObjectInfo α)
    (oldPosition newPosition : Vector3 α)
    (hc : checkCollisionAABB { it with position := newPosition } = true) :
    setAndCheck checkCollisionAABB it oldPosition newPosition =
      ({ it with position := oldPosition }, oldPosition) := by
  unfold setAndCheck
  simp only [hc, if_true]

/-- The body of the loop in terms of the tentative position: nothing is moved when there
is none, and otherwise the object and its node are set to it and checked. -/
theorem moveOne_eq_tentative [LinearOrderedField α] (sqrt : α → α)
    (heightNoise : List α → List α → Vector3 α → α)
    (convertSphericalToCartesian : α → α → Vector3 α) (asin : α → α) (atan2 : α → α → α)
    (PI : α) (checkCollisionAABB : ObjectInfo α → Bool) (p : PSphere α) (direction : Int)
    (pace : α) (it : ObjectInfo α) (nodePosition : Vector3 α) :
    moveOne sqrt heightNoise convertSphericalToCartesian asin atan2 PI checkCollisionAABB
      p direction pace it nodePosition =
    match tentativePosition sqrt heightNoise convertSphericalToCartesian asin atan2 PI
        p direction pace nodePosition with
    | none => (it, nodePosition)
    | some newPosition => setAndCheck checkCollisionAABB it nodePosition newPosition := by
  unfold moveOne tentativePosition
  simp only []
  split_ifs <;> rfl

/-- An object whose node agrees with it is left as it was when the collision manager
reports a collision for the object at its tentative position. -/
theorem moveOne_collided [LinearOrderedField α] (sqrt : α → α) (heightNoise : List α → List α → Vector3 α → α)
    (convertSphericalToCartesian : α → α → Vector3 α) (asin : α → α) (atan2 : α → α → α)
    (PI : α) (checkCollisionAABB : ObjectInfo α → Bool) (p : PSphere α) (direction : Int)
    (pace : α) (it : ObjectInfo α) (nodePosition : Vector3 α)
    (hagree : nodePosition = it.position)
    (hcollided : ∀ newPosition,
      tentativePosition sqrt heightNoise convertSphericalToCartesian asin atan2 PI
        p direction pace nodePosition = some newPosition →
      checkCollisionAABB { it with position := newPosition } = true) :
    moveOne sqrt heightNoise convertSphericalToCartesian asin atan2 PI checkCollisionAABB
      p direction pace it nodePosition = (it, nodePosition) := by
  rw [moveOne_eq_tentative]
  rcases ht : tentativePosition sqrt heightNoise convertSphericalToCartesian asin atan2 PI
      p direction pace nodePosition with _ | newPosition
  · rfl
  · simp only []
    rw [setAndCheck_collided checkCollisionAABB it nodePosition newPosition
      (hcollided newPosition ht), hagree]

theorem map_eq_self_of_fixed {β : Type} (f : β → β) (l : List β) (h : ∀ a ∈ l, f a = a) :
    l.map f = l := by
  induction l with
  | nil => rfl
  | cons a t ih =>
    rw [List.map_cons, h a (List.mem_cons_self _ _),
      ih (fun b hb => h b (List.mem_cons_of_mem _ hb))]

/-- C15: `moveObject` is atomic under collision.  When the collision check of lines
1100, 1131, 1161 and 1190 reports a collision for each object of the requested name at
the position it was tentatively moved to, and the registered position of each object of
that name agreed with the position of its node before the call, then after `moveObject`,
for every direction and pace, the registry (names and positions of all objects) and the
node positions are what they were before. -/
theorem moveObject_rolls_back [LinearOrderedField α] (sqrt : α → α) (heightNoise : List α → List α → Vector3 α → α)
    (convertSphericalToCartesian : α → α → Vector3 α) (asin : α → α) (atan2 : α → α → α)
    (PI : α) (checkCollisionAABB : ObjectInfo α → Bool) (p : PSphere α)
    (nodePositions : List (Vector3 α)) (objectName : String) (direction : Int) (pace : α)
    (hlen : nodePositions.length = p.objects.length)
    (hagree : ∀ entry ∈ p.objects.zip nodePositions, entry.1.name = objectName →
      entry.2 = entry.1.position)
    (hcollided : ∀ entry ∈ p.objects.zip nodePositions, entry.1.name = objectName →
      ∀ newPosition,
        tentativePosition sqrt heightNoise convertSphericalToCartesian asin atan2 PI
          p direction pace entry.2 = some newPosition →
        checkCollisionAABB { entry.1 with position := newPosition } = true) :
    moveObject sqrt heightNoise convertSphericalToCartesian asin atan2 PI checkCollisionAABB
      p nodePositions objectName direction pace = (p, nodePositions) := by
  unfold moveObject
  have hfix : (p.objects.zip nodePositions).map
      (fun entry =>
        if entry.1.name = objectName then
          moveOne sqrt heightNoise convertSphericalToCartesian asin atan2 PI
            checkCollisionAABB p direction pace entry.1 entry.2
        else entry) = p.objects.zip nodePositions := by
    apply map_eq_self_of_fixed
    intro entry hon
    by_cases hn : entry.1.name = objectName
    · rw [if_pos hn]
      exact moveOne_collided sqrt heightNoise convertSphericalToCartesian asin atan2 PI
        checkCollisionAABB p direction pace entry.1 entry.2 (hagree entry hon hn)
        (hcollided entry hon hn)
    · rw [if_neg hn]
  simp only [hfix]
  rw [List.map_fst_zip _ _ (le_of_eq hlen.symm), List.map_snd_zip _ _ (le_of_eq hlen)]

/-- Witness for C15: the object `ship` of the example planet is moved up by `10` degrees
to the tentative position `(0, 0, 1)`; the collision check reports a collision there,
and nowhere else. -/
theorem moveObject_rolls_back_witness :
    moveObject (fun a => a) (exampleNoise ℚ) (exampleConvert ℚ) (fun a => a)
      (fun a _ => a) 3 (poleCollision ℚ) (occupiedPlanet ℚ) [⟨3, 1, -2⟩] "ship" UP 10 =
      (occupiedPlanet ℚ, [⟨3, 1, -2⟩]) :=
  moveObject_rolls_back (fun a => a) (exampleNoise ℚ) (exampleConvert ℚ) (fun a => a)
    (fun a _ => a) 3 (poleCollision ℚ) (occupiedPlanet ℚ) [⟨3, 1, -2⟩] "ship" UP 10 rfl
    (by
      intro entry hon _
      have h : entry = (⟨⟨3, 1, -2⟩, "ship"⟩, ⟨3, 1, -2⟩) := by
        simpa [occupiedPlanet] using hon
      rw [h])
    (by
      intro entry hon _ newPosition hnew
      have h : entry = (⟨⟨3, 1, -2⟩, "ship"⟩, ⟨3, 1, -2⟩) := by
        simpa [occupiedPlanet] using hon
      rw [h] at hnew
      have ht : tentativePosition (fun a => a) (exampleNoise ℚ) (exampleConvert ℚ) (fun a => a)
          (fun a _ => a) 3 (occupiedPlanet ℚ) UP 10 ⟨3, 1, -2⟩ = some ⟨0, 0, 1⟩ := by
        simp only [tentativePosition, exampleConvert, if_true]
        rw [if_neg]
        · simp [groundPosition, getSurfaceHeight, Vector3.scale, Vector3.length,
            Vector3.normalisedCopy, exampleNoise, occupiedPlanet, examplePlanet, Vector3.add]
        · simp [Vector3.normalisedCopy, Vector3.length, Vector3.scale]
          norm_num
      rw [ht] at hnew
      rw [← Option.some.inj hnew]
      simp [poleCollision])

end MoveObject

section Ties

variable {α : Type} [LinearOrderedField α]

/-! ## Ties and scaling in `getGridLocation` -/

theorem abs_pos_of_ne_zero_vec (l : Vector3 α) (hnz : l ≠ ⟨0, 0, 0⟩) :
    0 < |l.x| ∨ 0 < |l.y| ∨ 0 < |l.z| := by
  by_contra hc
  push_neg at hc
  apply hnz
  have hx : l.x = 0 := abs_eq_zero.mp (le_antisymm hc.1 (abs_nonneg _))
  have hy : l.y = 0 := abs_eq_zero.mp (le_antisymm hc.2.1 (abs_nonneg _))
  have hz : l.z = 0 := abs_eq_zero.mp (le_antisymm hc.2.2 (abs_nonneg _))
  cases l
  simp only [Vector3.mk.injEq]
  exact ⟨hx, hy, hz⟩

/-- When `|x|` is the largest absolute component and is tied with another one, `x` is
strictly the largest after the tie-break. -/
theorem strictMax_x_of_tie (l : Vector3 α) (hnz : l ≠ ⟨0, 0, 0⟩)
    (h : (|l.x| = |l.y| ∧ |l.z| ≤ |l.x|) ∨ (|l.x| = |l.z| ∧ |l.y| ≤ |l.x|)) :
    |(breakTies l).x| > |(breakTies l).y| ∧ |(breakTies l).x| > |(breakTies l).z| := by
  have h0 := abs_pos_of_ne_zero_vec l hnz
  have hx := abs_nonneg l.x
  have hy := abs_nonneg l.y
  have hz := abs_nonneg l.z
  have hpos : 0 < |l.x| := by
    rcases h with ⟨h1, h2⟩ | ⟨h1, h2⟩ <;> rcases h0 with d | d | d <;> linarith
  rw [breakTies_x, breakTies_y, breakTies_z]
  rcases h with ⟨h1, h2⟩ | ⟨h1, h2⟩
  · rw [if_pos h1]
    constructor
    · rw [abs_shorten]
      linarith
    · split_ifs <;> (try simp only [abs_shorten]) <;>
        first
        | linarith
        | (rcases lt_or_eq_of_le h2 with c | c
           · linarith
           · exfalso
             simp_all)
  · constructor
    · split_ifs
      · rw [abs_shorten]
        linarith
      · rcases lt_or_eq_of_le h2 with c | c
        · exact c
        · exfalso
          simp_all
    · rw [if_pos h1]
      split_ifs <;> simp only [abs_shorten] <;> linarith

/-- When `|y|` and `|z|` are tied above `|x|`, `y` is strictly the largest after the
tie-break. -/
theorem strictMax_y_of_tie (l : Vector3 α) (h1 : |l.y| = |l.z|) (h2 : |l.x| < |l.y|) :
    |(breakTies l).y| > |(breakTies l).x| ∧ |(breakTies l).y| > |(breakTies l).z| := by
  have hx := abs_nonneg l.x
  have hxy : ¬ |l.x| = |l.y| := ne_of_lt h2
  have hxz : ¬ |l.x| = |l.z| := by
    rw [← h1]
    exact hxy
  rw [breakTies_x, breakTies_y, breakTies_z, if_neg hxy, if_pos h1, if_neg hxz, abs_shorten]
  constructor
  · exact h2
  · linarith

end Ties

section TieClaims

variable {α : Type} [LinearOrderedField α]

/-- C21: ties for the largest absolute component are broken in the priority X over Y
over Z.  For a non-zero location, if `|x| = |y| ≥ |z|` or `|x| = |z| ≥ |y|` the selected
face is `gridXP` or `gridXM` by the sign of `x`; if `|y| = |z| > |x|` it is `gridYP` or
`gridYM` by the sign of `y`; with a tie for the largest component the selected face is
never `gridZP` or `gridZM`. -/
theorem getGridLocation_tie_priority [FloorRing α] (p : PSphere α) (location : Vector3 α)
    (hnz : location ≠ ⟨0, 0, 0⟩) :
    ((|location.x| = |location.y| ∧ |location.z| ≤ |location.x|) ∨
        (|location.x| = |location.z| ∧ |location.y| ≤ |location.x|) →
      ∃ ix iy, getGridLocation p location =
        some (if location.x < 0 then Face.gridXM else Face.gridXP, ix, iy)) ∧
    (|location.y| = |location.z| ∧ |location.x| < |location.y| →
      ∃ ix iy, getGridLocation p location =
        some (if location.y < 0 then Face.gridYM else Face.gridYP, ix, iy)) ∧
    ((|location.x| = |location.y| ∧ |location.z| ≤ |location.x|) ∨
        (|location.x| = |location.z| ∧ |location.y| ≤ |location.x|) ∨
        (|location.y| = |location.z| ∧ |location.x| ≤ |location.y|) →
      ∀ face ix iy, getGridLocation p location = some (face, ix, iy) →
        face ≠ Face.gridZP ∧ face ≠ Face.gridZM) := by
  have hX : (|location.x| = |location.y| ∧ |location.z| ≤ |location.x|) ∨
        (|location.x| = |location.z| ∧ |location.y| ≤ |location.x|) →
      ∃ ix iy, getGridLocation p location =
        some (if location.x < 0 then Face.gridXM else Face.gridXP, ix, iy) := by
    intro h
    have hg := getGridLocation_of_x p location (strictMax_x_of_tie location hnz h)
    rw [breakTies_x] at hg
    rw [hg]
    split_ifs
    · exact ⟨_, _, rfl⟩
    · exact ⟨_, _, rfl⟩
  have hY : |location.y| = |location.z| ∧ |location.x| < |location.y| →
      ∃ ix iy, getGridLocation p location =
        some (if location.y < 0 then Face.gridYM else Face.gridYP, ix, iy) := by
    intro h
    have hg := getGridLocation_of_y p location (strictMax_y_of_tie location h.1 h.2)
    simp only [breakTies_y_neg_iff] at hg
    rw [hg]
    split_ifs
    · exact ⟨_, _, rfl⟩
    · exact ⟨_, _, rfl⟩
  refine ⟨hX, hY, ?_⟩
  intro h face ix iy hloc
  have hface : face = (if location.x < 0 then Face.gridXM else Face.gridXP) ∨
      face = (if location.y < 0 then Face.gridYM else Face.gridYP) := by
    rcases h with h | h | h
    · obtain ⟨a, b, hab⟩ := hX (Or.inl h)
      rw [hab] at hloc
      simp only [Option.some.injEq, Prod.mk.injEq] at hloc
      exact Or.inl hloc.1.symm
    · obtain ⟨a, b, hab⟩ := hX (Or.inr h)
      rw [hab] at hloc
      simp only [Option.some.injEq, Prod.mk.injEq] at hloc
      exact Or.inl hloc.1.symm
    · rcases lt_or_eq_of_le h.2 with c | c
      · obtain ⟨a, b, hab⟩ := hY ⟨h.1, c⟩
        rw [hab] at hloc
        simp only [Option.some.injEq, Prod.mk.injEq] at hloc
        exact Or.inr hloc.1.symm
      · obtain ⟨a, b, hab⟩ := hX (Or.inl ⟨c, by rw [c, h.1]⟩)
        rw [hab] at hloc
        simp only [Option.some.injEq, Prod.mk.injEq] at hloc
        exact Or.inl hloc.1.symm
  rcases hface with hf | hf <;> rw [hf] <;> split_ifs <;> exact ⟨by decide, by decide⟩

/-- Witness for C21: the corner `(1, -1, 1)` lies on `gridXP`, the edge point
`(0, -2, 2)` on `gridYM`. -/
theorem getGridLocation_tie_priority_witness :
    (∃ ix iy, getGridLocation (examplePlanet ℚ) ⟨1, -1, 1⟩ =
      some (if (1 : ℚ) < 0 then Face.gridXM else Face.gridXP, ix, iy)) ∧
    (∃ ix iy, getGridLocation (examplePlanet ℚ) ⟨0, -2, 2⟩ =
      some (if (-2 : ℚ) < 0 then Face.gridYM else Face.gridYP, ix, iy)) :=
  ⟨(getGridLocation_tie_priority (examplePlanet ℚ) ⟨1, -1, 1⟩ (by simp)).1
      (Or.inl ⟨by norm_num, by norm_num⟩),
   (getGridLocation_tie_priority (examplePlanet ℚ) ⟨0, -2, 2⟩ (by simp)).2.1
      ⟨by norm_num, by norm_num⟩⟩

end TieClaims

section AccessibilityIff

variable {α : Type} [LinearOrderedField α]

/-- The loop over the objects runs to its end exactly when every object locates, and
none to the cell that is asked for. -/
theorem objectLoopReturnsFalse_eq_false_iff [FloorRing α] (p : PSphere α) (grid : Face)
    (ix iy : Nat) (objs : List (ObjectInfo α)) :
    objectLoopReturnsFalse p grid ix iy objs = false ↔
      ∀ obj ∈ objs, ∃ r, getGridLocation p obj.position = some r ∧ r ≠ (grid, ix, iy) := by
  induction objs with
  | nil => simp [objectLoopReturnsFalse]
  | cons o t ih =>
    unfold objectLoopReturnsFalse
    rcases hr : getGridLocation p o.position with _ | ⟨gridObj, Obj_x, Obj_y⟩
    · simp only [Bool.true_eq_false, false_iff]
      intro h
      obtain ⟨r, hr2, _⟩ := h o (List.mem_cons_self _ _)
      rw [hr] at hr2
      exact Option.noConfusion hr2
    · simp only []
      by_cases hc : grid = gridObj ∧ ix = Obj_x ∧ iy = Obj_y
      · rw [if_pos hc]
        simp only [Bool.true_eq_false, false_iff]
        intro h
        obtain ⟨r, hr2, hne⟩ := h o (List.mem_cons_self _ _)
        rw [hr] at hr2
        apply hne
        rw [← Option.some.inj hr2, hc.1, hc.2.1, hc.2.2]
      · rw [if_neg hc, ih]
        constructor
        · intro h obj hobj
          rcases List.mem_cons.mp hobj with rfl | hm
          · refine ⟨_, hr, ?_⟩
            intro he
            apply hc
            simp only [Prod.mk.injEq] at he
            exact ⟨he.1.symm, he.2.1.symm, he.2.2.symm⟩
          · exact h obj hm
        · intro h obj hobj
          exact h obj (List.mem_cons_of_mem _ hobj)

/-- C25: `checkAccessibility` returns true exactly when the location locates to a cell,
the position of every registered object locates as well, no registered object locates
to that face and cell, and the land mask of the cell is not zero.  So, when a registered
object has the zero vector as its position, `checkAccessibility` returns false for
every location. -/
theorem checkAccessibility_true_iff [FloorRing α] (p : PSphere α) (location : Vector3 α) :
    (checkAccessibility p location = true ↔
      ∃ face ix iy, getGridLocation p location = some (face, ix, iy) ∧
        (∀ obj ∈ p.objects, ∃ r, getGridLocation p obj.position = some r ∧
          r ≠ (face, ix, iy)) ∧
        (p.grid face).getValue ix iy ≠ 0) ∧
    ((∃ obj ∈ p.objects, obj.position = ⟨0, 0, 0⟩) →
      ∀ l : Vector3 α, checkAccessibility p l = false) := by
  have hiff : ∀ l : Vector3 α, checkAccessibility p l = true ↔
      ∃ face ix iy, getGridLocation p l = some (face, ix, iy) ∧
        (∀ obj ∈ p.objects, ∃ r, getGridLocation p obj.position = some r ∧
          r ≠ (face, ix, iy)) ∧
        (p.grid face).getValue ix iy ≠ 0 := by
    intro l
    unfold checkAccessibility
    rcases hr : getGridLocation p l with _ | ⟨face, ix, iy⟩
    · simp
    · simp only [Option.some.injEq, Prod.mk.injEq]
      constructor
      · intro h
        have hloop : objectLoopReturnsFalse p face ix iy p.objects = false := by
          by_contra hc
          rw [Bool.not_eq_false] at hc
          rw [if_pos hc] at h
          exact Bool.noConfusion h
        refine ⟨face, ix, iy, ⟨rfl, rfl, rfl⟩,
          (objectLoopReturnsFalse_eq_false_iff p face ix iy p.objects).mp hloop, ?_⟩
        intro hv
        rw [hloop] at h
        simp only [Bool.false_eq_true, if_false, ne_eq, hv, not_true_eq_false] at h
      · rintro ⟨face', ix', iy', ⟨rfl, rfl, rfl⟩, hall, hv⟩
        rw [(objectLoopReturnsFalse_eq_false_iff p face ix iy p.objects).mpr hall]
        simp only [Bool.false_eq_true, if_false, ne_eq, hv, not_false_eq_true, if_true]
  refine ⟨hiff location, ?_⟩
  rintro ⟨obj, hm, hz⟩ l
  by_contra hc
  rw [Bool.not_eq_false] at hc
  obtain ⟨face, ix, iy, _, hall, _⟩ := (hiff l).mp hc
  obtain ⟨r, hr, _⟩ := hall obj hm
  have hnone : getGridLocation p obj.position = none := by
    rw [getGridLocation_eq_none_iff, hz]
    exact ⟨rfl, rfl, rfl⟩
  rw [hnone] at hr
  exact Option.noConfusion hr

/-- Witness for C25: with an object registered at the origin the land cell of
`(3, 1, -2)`, which no object occupies, is not accessible. -/
theorem checkAccessibility_true_iff_witness :
    checkAccessibility (originPlanet ℚ) ⟨3, 1, -2⟩ = false :=
  (checkAccessibility_true_iff (originPlanet ℚ) ⟨3, 1, -2⟩).2
    ⟨⟨⟨0, 0, 0⟩, "probe"⟩, List.mem_singleton.mpr rfl, rfl⟩ ⟨3, 1, -2⟩

end AccessibilityIff

section Quantile

variable {α : Type} [LinearOrderedField α]

/-! ## The histogram and the scan of `calculateSeaLevel` -/

theorem getD_set_succ (l : List Nat) (s k : Nat) (hs : s < l.length) :
    (l.set s (l.getD s 0 + 1)).getD k 0 = l.getD k 0 + (if k = s then 1 else 0) := by
  induction l generalizing s k with
  | nil => simp at hs
  | cons a t ih =>
    cases s with
    | zero =>
      cases k with
      | zero => simp
      | succ k => simp
    | succ s =>
      have hs2 : s < t.length := by simpa using hs
      cases k with
      | zero => simp
      | succ k =>
        simp only [List.set_cons_succ, List.getD_cons_succ]
        rw [ih s k hs2]
        simp

/-- After the filling every slot holds its old count plus the number of test heights
that fall into it. -/
theorem fillHistogram_getD [FloorRing α] (minElev maxElev : α) (l : List α) (hist : List Nat)
    (hlen : hist.length = BRACKETS) (filled : List Nat)
    (h : fillHistogram minElev maxElev l hist = some filled) (k : Nat) :
    filled.getD k 0 =
      hist.getD k 0 + l.countP (fun t => decide (slotOf minElev maxElev t = k)) := by
  induction l generalizing hist with
  | nil =>
    simp only [fillHistogram, Option.some.injEq] at h
    rw [← h]
    simp
  | cons a t ih =>
    simp only [fillHistogram] at h
    split_ifs at h with hs
    rw [ih _ (by simpa using hlen) h, getD_set_succ hist _ k (by rw [hlen]; exact hs),
      List.countP_cons]
    by_cases hk : k = slotOf minElev maxElev a
    · have hk2 : slotOf minElev maxElev a = k := hk.symm
      simp only [hk, if_true, decide_True]
      omega
    · have hk2 : ¬ slotOf minElev maxElev a = k := fun he => hk he.symm
      simp only [hk, hk2, if_false, decide_False]
      simp

theorem slotSum_succ_right (histogram : List Nat) (n : Nat) :
    slotSum histogram 0 (n + 1) = slotSum histogram 0 n + histogram.getD n 0 := by
  unfold slotSum
  rw [List.range_succ, List.map_append, List.sum_append]
  simp

/-- The loop index after the scan: it is the least index whose cumulative count exceeds
the threshold, and the end of the loop when there is none. -/
theorem scanSlots_least (histogram : List Nat) (threshold : α) (n i : Nat) :
    i ≤ scanSlots histogram threshold n i (slotSum histogram 0 i) ∧
    scanSlots histogram threshold n i (slotSum histogram 0 i) ≤ i + n ∧
    (scanSlots histogram threshold n i (slotSum histogram 0 i) < i + n →
      threshold < ((slotSum histogram 0
        (scanSlots histogram threshold n i (slotSum histogram 0 i) + 1) : Nat) : α)) ∧
    (∀ j, i ≤ j → j < scanSlots histogram threshold n i (slotSum histogram 0 i) →
      ((slotSum histogram 0 (j + 1) : Nat) : α) ≤ threshold) := by
  induction n generalizing i with
  | zero =>
    simp only [scanSlots]
    refine ⟨le_refl _, le_refl _, fun h => absurd h (lt_irrefl _), ?_⟩
    intro j h1 h2
    omega
  | succ n ih =>
    simp only [scanSlots]
    rw [← slotSum_succ_right]
    by_cases hc : ((slotSum histogram 0 (i + 1) : Nat) : α) > threshold
    · rw [if_pos hc]
      refine ⟨le_refl _, by omega, fun _ => hc, ?_⟩
      intro j h1 h2
      omega
    · rw [if_neg hc]
      obtain ⟨h1, h2, h3, h4⟩ := ih (i + 1)
      refine ⟨by omega, by omega, ?_, ?_⟩
      · intro hlt
        exact h3 (by omega)
      · intro j hj1 hj2
        rcases Nat.eq_or_lt_of_le hj1 with he | hlt
        · rw [← he]
          exact not_lt.mp hc
        · exact h4 j hlt hj2

theorem slotSum_zero_zero (histogram : List Nat) : slotSum histogram 0 0 = 0 := by
  simp [slotSum]

theorem foldl_min_eq_or_mem (l : List α) (m : α) :
    l.foldl (fun minElev h => if minElev > h then h else minElev) m = m ∨
      l.foldl (fun minElev h => if minElev > h then h else minElev) m ∈ l := by
  induction l generalizing m with
  | nil => exact Or.inl rfl
  | cons a t ih =>
    simp only [List.foldl_cons]
    split_ifs with h
    · rcases ih a with h1 | h1
      · rw [h1]
        exact Or.inr (List.mem_cons_self _ _)
      · exact Or.inr (List.mem_cons_of_mem _ h1)
    · rcases ih m with h1 | h1
      · exact Or.inl h1
      · exact Or.inr (List.mem_cons_of_mem _ h1)

/-- When some test height is at most the start value `10^6`, the running minimum is one
of the test heights. -/
theorem minElevOf_mem (l : List α) (h : ∃ t ∈ l, t ≤ 1000000) : minElevOf l ∈ l := by
  obtain ⟨t, ht, hle⟩ := h
  unfold minElevOf
  rcases foldl_min_eq_or_mem l (1000000 : α) with h1 | h1
  · have h2 := foldl_min_le_mem l (1000000 : α) t ht
    rw [h1] at h2 ⊢
    have : t = 1000000 := le_antisymm hle h2
    rw [← this]
    exact ht
  · exact h1

theorem slotOf_min [FloorRing α] (minElev maxElev : α) : slotOf minElev maxElev minElev = 0 := by
  unfold slotOf toUInt
  simp

end Quantile

section QuantileClaims

variable {α : Type} [LinearOrderedField α]

/-- The scan of `calculateSeaLevel` from index `0` with an empty accumulator. -/
theorem scanSlots_least_zero (histogram : List Nat) (threshold : α) (n : Nat) :
    scanSlots histogram threshold n 0 0 ≤ n ∧
    (scanSlots histogram threshold n 0 0 < n →
      threshold < ((slotSum histogram 0 (scanSlots histogram threshold n 0 0 + 1) : Nat) : α)) ∧
    (∀ j, j < scanSlots histogram threshold n 0 0 →
      ((slotSum histogram 0 (j + 1) : Nat) : α) ≤ threshold) := by
  have h := scanSlots_least histogram threshold n 0
  rw [slotSum_zero_zero] at h
  obtain ⟨_, h2, h3, h4⟩ := h
  refine ⟨by omega, fun hlt => h3 (by omega), fun j hj => h4 j (Nat.zero_le j) hj⟩

/-- With `minElev < maxElev` the function returns; slot `k` of its histogram counts the
test heights whose slot is `k`, and the sea level is the elevation of the loop index. -/
theorem calculateSeaLevel_counts [FloorRing α] (heightNoise : List α → List α → Vector3 α → α)
    (testVec : Nat → Vector3 α) (p : PSphere α)
    (hlt : minElevOf (testHeights heightNoise testVec p) <
      maxElevOf (testHeights heightNoise testVec p)) :
    ∃ histogram : List Nat, histogram.length = BRACKETS ∧ histogram.sum = TESTVECS ∧
      (∀ k, histogram.getD k 0 = (testHeights heightNoise testVec p).countP
        (fun t => decide (slotOf (minElevOf (testHeights heightNoise testVec p))
          (maxElevOf (testHeights heightNoise testVec p)) t = k))) ∧
      ∀ seaFraction : α, calculateSeaLevel heightNoise testVec p seaFraction =
        some { p with
          minimumHeight := minElevOf (testHeights heightNoise testVec p)
          maximumHeight := maxElevOf (testHeights heightNoise testVec p)
          seaHeight := seaHeightOf
            (scanSlots histogram ((TESTVECS : α) * seaFraction) BRACKETS 0 0)
            (minElevOf (testHeights heightNoise testVec p))
            (maxElevOf (testHeights heightNoise testVec p)) } := by
  obtain ⟨histogram, h1, h2, h3⟩ :=
    fillHistogram_some (minElevOf (testHeights heightNoise testVec p))
      (maxElevOf (testHeights heightNoise testVec p)) (testHeights heightNoise testVec p)
      (List.replicate BRACKETS 0) (by simp)
      (fun h hh => slotOf_lt_BRACKETS _ _ h hlt (minElevOf_le_mem _ h hh)
        (mem_le_maxElevOf _ h hh))
  refine ⟨histogram, h2, ?_, ?_, ?_⟩
  · rw [h3, testHeights_length]
    simp
  · intro k
    rw [fillHistogram_getD _ _ _ _ (by simp) histogram h1 k]
    simp
  · intro seaFraction
    unfold calculateSeaLevel
    simp only [h1]

end QuantileClaims

section ZeroFraction

variable {α : Type} [LinearOrderedField α]

/-! ## `calculateSeaLevel` at a water fraction of zero -/

/-- When the first slot is not empty, the scan with threshold zero stops at index `0`. -/
theorem scanSlots_zero_of_pos (histogram : List Nat) (n : Nat) (h : 1 ≤ histogram.getD 0 0) :
    scanSlots histogram (0 : α) (n + 1) 0 0 = 0 := by
  simp only [scanSlots, Nat.zero_add]
  have hp : ((histogram.getD 0 0 : Nat) : α) > 0 := by
    have : 0 < histogram.getD 0 0 := h
    exact_mod_cast this
  rw [if_pos hp]

theorem slotSum_eq_zero (histogram : List Nat) (n : Nat)
    (h : ∀ k, k < n → histogram.getD k 0 = 0) : slotSum histogram 0 n = 0 := by
  induction n with
  | zero => exact slotSum_zero_zero histogram
  | succ n ih =>
    rw [slotSum_succ_right, ih (fun k hk => h k (Nat.lt_succ_of_lt hk)), h n (Nat.lt_succ_self n)]

theorem high_heights (h : α)
    (hh : h ∈ testHeights (highNoise α) (exampleTestVec α) (examplePlanet α)) :
    h = 2000000 ∨ h = 3000000 := by
  unfold testHeights at hh
  obtain ⟨i, _, rfl⟩ := List.mem_map.mp hh
  by_cases hi : i = 0
  · left
    simp [highNoise, exampleTestVec, examplePlanet, Vector3.add, hi]
    norm_num
  · right
    simp [highNoise, exampleTestVec, examplePlanet, Vector3.add, hi]
    norm_num

theorem high_mem_low :
    (2000000 : α) ∈ testHeights (highNoise α) (exampleTestVec α) (examplePlanet α) := by
  unfold testHeights
  refine List.mem_map.mpr ⟨0, List.mem_range.mpr (by unfold TESTVECS; norm_num), ?_⟩
  simp [highNoise, exampleTestVec, examplePlanet, Vector3.add]
  norm_num

theorem high_mem_top :
    (3000000 : α) ∈ testHeights (highNoise α) (exampleTestVec α) (examplePlanet α) := by
  unfold testHeights
  refine List.mem_map.mpr ⟨1, List.mem_range.mpr (by unfold TESTVECS; norm_num), ?_⟩
  simp [highNoise, exampleTestVec, examplePlanet, Vector3.add]
  norm_num

/-- All heights of `highNoise` lie above the start value of the running minimum, which
therefore stays `minElev`. -/
theorem high_minElev :
    minElevOf (testHeights (highNoise α) (exampleTestVec α) (examplePlanet α)) = 1000000 := by
  apply le_antisymm
  · exact foldl_min_le_init _ _
  · unfold minElevOf
    apply le_foldl_min
    · exact le_refl _
    · intro h hh
      rcases high_heights h hh with rfl | rfl <;> norm_num

theorem high_maxElev :
    maxElevOf (testHeights (highNoise α) (exampleTestVec α) (examplePlanet α)) = 3000000 := by
  apply le_antisymm
  · unfold maxElevOf
    apply foldl_max_le
    · norm_num
    · intro h hh
      rcases high_heights h hh with rfl | rfl <;> norm_num
  · exact mem_le_maxElevOf _ _ high_mem_top

theorem high_min_lt_max :
    minElevOf (testHeights (highNoise α) (exampleTestVec α) (examplePlanet α)) <
      maxElevOf (testHeights (highNoise α) (exampleTestVec α) (examplePlanet α)) := by
  rw [high_minElev, high_maxElev]
  norm_num

theorem high_slot_low [FloorRing α] : slotOf (1000000 : α) 3000000 2000000 = 49 := by
  unfold slotOf toUInt
  rw [mult_eq]
  have h : ((2000000 : α) - 1000000) / (3000000 - 1000000) * (199 / 2) = 199 / 4 := by norm_num
  rw [h]
  have hf : Int.floor ((199 : α) / 4) = 49 := by
    rw [Int.floor_eq_iff]
    constructor <;> norm_num
  rw [if_pos (by norm_num), hf]
  rfl

theorem high_slot_top [FloorRing α] : slotOf (1000000 : α) 3000000 3000000 = 99 := by
  unfold slotOf toUInt
  rw [mult_eq]
  have h : ((3000000 : α) - 1000000) / (3000000 - 1000000) * (199 / 2) = 199 / 2 := by norm_num
  rw [h]
  have hf : Int.floor ((199 : α) / 2) = 99 := by
    rw [Int.floor_eq_iff]
    constructor <;> norm_num
  rw [if_pos (by norm_num), hf]
  rfl

/-- The state after `calculateSeaLevel` for the heights of `highNoise` at a water
fraction of zero. -/
theorem calculateSeaLevel_high [FloorRing α] :
    ∃ q, calculateSeaLevel (highNoise α) (exampleTestVec α) (examplePlanet α) 0 = some q ∧
      q.minimumHeight = 1000000 ∧ q.maximumHeight = 3000000 ∧
      q.seaHeight = seaHeightOf 49 1000000 3000000 := by
  obtain ⟨histogram, _, _, hcount, hcalc⟩ :=
    calculateSeaLevel_counts (highNoise α) (exampleTestVec α) (examplePlanet α) high_min_lt_max
  rw [high_minElev, high_maxElev] at hcount
  have hzero : ∀ k, k < 49 → histogram.getD k 0 = 0 := by
    intro k hk
    rw [hcount k]
    apply List.countP_eq_zero.mpr
    intro t ht
    rcases high_heights t ht with rfl | rfl
    · rw [high_slot_low]
      simp only [decide_eq_true_eq]
      omega
    · rw [high_slot_top]
      simp only [decide_eq_true_eq]
      omega
  have hpos : 1 ≤ histogram.getD 49 0 := by
    rw [hcount 49]
    apply List.countP_pos_iff.mpr
    exact ⟨_, high_mem_low, by simp [high_slot_low]⟩
  obtain ⟨h1, h2, h3⟩ := scanSlots_least_zero histogram ((TESTVECS : α) * 0) BRACKETS
  have hscan : scanSlots histogram ((TESTVECS : α) * 0) BRACKETS 0 0 = 49 := by
    rcases Nat.lt_trichotomy (scanSlots histogram ((TESTVECS : α) * 0) BRACKETS 0 0) 49
      with hl | he | hg
    · exfalso
      have hb : scanSlots histogram ((TESTVECS : α) * 0) BRACKETS 0 0 < BRACKETS :=
        lt_of_lt_of_le hl (by unfold BRACKETS; norm_num)
      have h4 := h2 hb
      rw [slotSum_eq_zero histogram _ (fun k hk => hzero k (by omega))] at h4
      simp at h4
    · exact he
    · exfalso
      have h4 := h3 49 hg
      rw [slotSum_succ_right, slotSum_eq_zero histogram 49 hzero, mul_zero] at h4
      have h5 : 0 + histogram.getD 49 0 ≤ 0 := by exact_mod_cast h4
      omega
  refine ⟨_, hcalc 0, ?_, ?_, ?_⟩
  · exact high_minElev
  · exact high_maxElev
  · show seaHeightOf _ _ _ = _
    rw [hscan, high_minElev, high_maxElev]

/-- C23, as amended: for a water fraction of zero and test heights with
`minElev < maxElev` of which at least one is at most `10^6` (the start value of the running
minimum, so that `minElev` is the least test height), the scan of `calculateSeaLevel` stops
at slot `0`, whose count is at least one, and the sea level equals `minElev`. -/
theorem calculateSeaLevel_at_zero [FloorRing α]
    (heightNoise : List α → List α → Vector3 α → α)
    (testVec : Nat → Vector3 α) (p : PSphere α)
    (hlt : minElevOf (testHeights heightNoise testVec p) <
      maxElevOf (testHeights heightNoise testVec p))
    (hlow : ∃ t ∈ testHeights heightNoise testVec p, t ≤ 1000000) :
    ∃ (histogram : List Nat) (q : PSphere α),
      calculateSeaLevel heightNoise testVec p 0 = some q ∧
      (∀ k, histogram.getD k 0 = (testHeights heightNoise testVec p).countP
        (fun t => decide (slotOf (minElevOf (testHeights heightNoise testVec p))
          (maxElevOf (testHeights heightNoise testVec p)) t = k))) ∧
      minElevOf (testHeights heightNoise testVec p) ∈ testHeights heightNoise testVec p ∧
      1 ≤ histogram.getD 0 0 ∧
      scanSlots histogram ((TESTVECS : α) * 0) BRACKETS 0 0 = 0 ∧
      q.seaHeight = seaHeightOf (scanSlots histogram ((TESTVECS : α) * 0) BRACKETS 0 0)
        q.minimumHeight q.maximumHeight ∧
      q.minimumHeight = minElevOf (testHeights heightNoise testVec p) ∧
      q.seaHeight = q.minimumHeight := by
  obtain ⟨histogram, _, _, hcount, hcalc⟩ :=
    calculateSeaLevel_counts heightNoise testVec p hlt
  have hmem := minElevOf_mem (testHeights heightNoise testVec p) hlow
  have hpos : 1 ≤ histogram.getD 0 0 := by
    rw [hcount 0]
    apply List.countP_pos_iff.mpr
    exact ⟨_, hmem, by simp [slotOf_min]⟩
  have hscan : scanSlots histogram ((TESTVECS : α) * 0) BRACKETS 0 0 = 0 := by
    rw [mul_zero]
    exact scanSlots_zero_of_pos histogram 99 hpos
  refine ⟨histogram, _, hcalc 0, hcount, hmem, hpos, hscan, rfl, rfl, ?_⟩
  show seaHeightOf _ _ _ = _
  rw [hscan]
  exact seaHeightOf_zero _ _

/-- Witness for C23 as amended: the example heights, of which the first is `-1`. -/
theorem calculateSeaLevel_at_zero_witness :
    ∃ (histogram : List Nat) (q : PSphere ℚ),
      calculateSeaLevel (exampleNoise ℚ) (exampleTestVec ℚ) (examplePlanet ℚ) 0 = some q ∧
      (∀ k, histogram.getD k 0 =
        (testHeights (exampleNoise ℚ) (exampleTestVec ℚ) (examplePlanet ℚ)).countP
        (fun t => decide (slotOf
          (minElevOf (testHeights (exampleNoise ℚ) (exampleTestVec ℚ) (examplePlanet ℚ)))
          (maxElevOf (testHeights (exampleNoise ℚ) (exampleTestVec ℚ) (examplePlanet ℚ)))
          t = k))) ∧
      minElevOf (testHeights (exampleNoise ℚ) (exampleTestVec ℚ) (examplePlanet ℚ)) ∈
        testHeights (exampleNoise ℚ) (exampleTestVec ℚ) (examplePlanet ℚ) ∧
      1 ≤ histogram.getD 0 0 ∧
      scanSlots histogram ((TESTVECS : ℚ) * 0) BRACKETS 0 0 = 0 ∧
      q.seaHeight = seaHeightOf (scanSlots histogram ((TESTVECS : ℚ) * 0) BRACKETS 0 0)
        q.minimumHeight q.maximumHeight ∧
      q.minimumHeight =
        minElevOf (testHeights (exampleNoise ℚ) (exampleTestVec ℚ) (examplePlanet ℚ)) ∧
      q.seaHeight = q.minimumHeight :=
  calculateSeaLevel_at_zero (exampleNoise ℚ) (exampleTestVec ℚ) (examplePlanet ℚ)
    example_min_lt_max
    ⟨-1, by
      unfold testHeights
      refine List.mem_map.mpr ⟨0, List.mem_range.mpr (by unfold TESTVECS; norm_num), ?_⟩
      simp [exampleNoise, exampleTestVec, examplePlanet, Vector3.add], by norm_num⟩

/-- C23, counterexample: with the test heights `2000000` (once) and `3000000` (otherwise)
and a water fraction of zero, `minElev` stays at the start value `1000000`, which is no test
height; the heights fall into the slots `49` and `99`, slot `0` is empty, the scan stops
at slot `49` and the sea level is `49 / 99 * 2000000 + 1000000`, not `minElev`. -/
theorem calculateSeaLevel_zero_fraction_above_min :
    minElevOf (testHeights (highNoise ℚ) (exampleTestVec ℚ) (examplePlanet ℚ)) <
      maxElevOf (testHeights (highNoise ℚ) (exampleTestVec ℚ) (examplePlanet ℚ)) ∧
    ∃ q, calculateSeaLevel (highNoise ℚ) (exampleTestVec ℚ) (examplePlanet ℚ) 0 = some q ∧
      q.minimumHeight = 1000000 ∧ q.maximumHeight = 3000000 ∧
      q.seaHeight = 49 / 99 * 2000000 + 1000000 ∧
      ¬ (q.seaHeight = q.minimumHeight) := by
  refine ⟨high_min_lt_max, ?_⟩
  obtain ⟨q, hq, hmin, hmax, hsea⟩ := @calculateSeaLevel_high ℚ _ _
  have hs : q.seaHeight = 49 / 99 * 2000000 + 1000000 := by
    rw [hsea]
    unfold seaHeightOf BRACKETS
    norm_num
  refine ⟨q, hq, hmin, hmax, hs, ?_⟩
  rw [hs, hmin]
  norm_num

end ZeroFraction

section RoundingPowers

variable {α : Type} [LinearOrderedField α]

theorem significand_low (k : Nat) (e : Int) :
    (((2 : Int) ^ k : Int) : α) * (2 : α) ^ (e + 1 - ((k + 1 : Nat) : Int)) = (2 : α) ^ e := by
  push_cast
  rw [← zpow_natCast, ← zpow_add₀ (two_ne_zero)]
  congr 1
  ring

theorem significand_high (k : Nat) (e : Int) :
    (((2 : Int) ^ (k + 1) : Int) : α) * (2 : α) ^ (e + 1 - ((k + 1 : Nat) : Int)) =
      (2 : α) ^ (e + 1) := by
  push_cast
  rw [← zpow_natCast, ← zpow_add₀ (two_ne_zero)]
  congr 1
  push_cast
  ring

end RoundingPowers

section Rounding

variable {α : Type} [LinearOrderedField α] [FloorRing α]

/-! ## Rounding to nearest, ties to even -/

theorem roundNearestEven_intCast (n : Int) : roundNearestEven ((n : α)) = n := by
  unfold roundNearestEven
  simp

/-- A value less than one half away from a whole number is rounded to it. -/
theorem roundNearestEven_of_near (v : α) (n : Int) (h1 : (n : α) - 1 / 2 < v)
    (h2 : v < (n : α) + 1 / 2) : roundNearestEven v = n := by
  unfold roundNearestEven
  simp only []
  by_cases hn : (n : α) ≤ v
  · have hf : Int.floor v = n := by
      rw [Int.floor_eq_iff]
      exact ⟨hn, by linarith⟩
    rw [hf, if_pos (by linarith)]
  · have hn2 : v < (n : α) := not_le.mp hn
    have hf : Int.floor v = n - 1 := by
      rw [Int.floor_eq_iff]
      push_cast
      exact ⟨by linarith, by linarith⟩
    rw [hf]
    push_cast
    rw [if_neg (by linarith), if_pos (by linarith)]
    ring

/-- A value half-way between two whole numbers is rounded to the even one. -/
theorem roundNearestEven_tie (f : Int) :
    roundNearestEven ((f : α) + 1 / 2) = if f % 2 = 0 then f else f + 1 := by
  have hf : Int.floor ((f : α) + 1 / 2) = f := by
    rw [Int.floor_eq_iff]
    exact ⟨by linarith, by linarith⟩
  unfold roundNearestEven
  simp only [hf]
  rw [if_neg (by linarith), if_neg (by linarith)]

theorem roundNearestEven_mono (v w : α) (h : v ≤ w) :
    roundNearestEven v ≤ roundNearestEven w := by
  have hv1 := Int.floor_le v
  have hv2 := Int.lt_floor_add_one v
  have hw1 := Int.floor_le w
  have hw2 := Int.lt_floor_add_one w
  have hf : Int.floor v ≤ Int.floor w := Int.floor_mono h
  unfold roundNearestEven
  simp only []
  rcases lt_or_eq_of_le hf with hlt | heq
  · split_ifs <;> omega
  · rw [heq] at hv1 hv2 ⊢
    split_ifs <;> first | omega | (exfalso; linarith)

/-! ## Rounding to a binary floating-point format -/

theorem roundBinary_zero (precision : Nat) : roundBinary precision (0 : α) = 0 := by
  simp [roundBinary]

theorem log_two_eq (v : α) (e : Int) (hlo : (2 : α) ^ e ≤ v) (hhi : v < (2 : α) ^ (e + 1)) :
    Int.log 2 v = e := by
  have hv : 0 < v := lt_of_lt_of_le (zpow_pos (by norm_num) e) hlo
  have hlo2 : ((2 : Nat) : α) ^ e ≤ v := by
    rw [Nat.cast_ofNat]
    exact hlo
  have hhi2 : v < ((2 : Nat) : α) ^ (e + 1) := by
    rw [Nat.cast_ofNat]
    exact hhi
  have h1 := (Int.zpow_le_iff_le_log (by norm_num : 1 < 2) hv).mp hlo2
  have h2 := (Int.lt_zpow_iff_log_lt (by norm_num : 1 < 2) hv).mp hhi2
  omega

/-- The rounding of a value whose binade and nearest significand are known. -/
theorem roundBinary_of_log (precision : Nat) (v : α) (e n : Int)
    (hlo : (2 : α) ^ e ≤ |v|) (hhi : |v| < (2 : α) ^ (e + 1))
    (hn : roundNearestEven (v / (2 : α) ^ (e + 1 - (precision : Int))) = n) :
    roundBinary precision v = (n : α) * (2 : α) ^ (e + 1 - (precision : Int)) := by
  have hpos : 0 < |v| := lt_of_lt_of_le (zpow_pos (by norm_num) e) hlo
  have hv : v ≠ 0 := abs_pos.mp hpos
  unfold roundBinary
  rw [if_neg hv]
  simp only [log_two_eq |v| e hlo hhi, hn]

/-! ## The rounding is monotone -/

theorem zpow_log_le (v : α) (hv : 0 < v) : (2 : α) ^ Int.log 2 v ≤ v := by
  have h := Int.zpow_log_le_self (by norm_num : 1 < 2) hv
  rwa [Nat.cast_ofNat] at h

theorem lt_zpow_log_succ (v : α) : v < (2 : α) ^ (Int.log 2 v + 1) := by
  have h := Int.lt_zpow_succ_log_self (by norm_num : 1 < 2) v
  rwa [Nat.cast_ofNat] at h

/-- A positive value is rounded within its binade. -/
theorem roundBinary_pos_bounds (k : Nat) (v : α) (hv : 0 < v) :
    (2 : α) ^ Int.log 2 v ≤ roundBinary (k + 1) v ∧
      roundBinary (k + 1) v ≤ (2 : α) ^ (Int.log 2 v + 1) := by
  have hu : 0 < (2 : α) ^ (Int.log 2 v + 1 - ((k + 1 : Nat) : Int)) :=
    zpow_pos (by norm_num) _
  have hrb : roundBinary (k + 1) v =
      (roundNearestEven (v / (2 : α) ^ (Int.log 2 v + 1 - ((k + 1 : Nat) : Int))) : α) *
        (2 : α) ^ (Int.log 2 v + 1 - ((k + 1 : Nat) : Int)) := by
    unfold roundBinary
    rw [if_neg hv.ne', abs_of_pos hv]
  constructor
  · have h1 : (((2 : Int) ^ k : Int) : α) ≤
        v / (2 : α) ^ (Int.log 2 v + 1 - ((k + 1 : Nat) : Int)) := by
      rw [le_div_iff₀ hu, significand_low]
      exact zpow_log_le v hv
    have h2 := roundNearestEven_mono _ _ h1
    rw [roundNearestEven_intCast] at h2
    have h3 : (((2 : Int) ^ k : Int) : α) ≤
        (roundNearestEven (v / (2 : α) ^ (Int.log 2 v + 1 - ((k + 1 : Nat) : Int))) : α) :=
      Int.cast_le.mpr h2
    rw [hrb, ← significand_low k (Int.log 2 v)]
    exact mul_le_mul_of_nonneg_right h3 hu.le
  · have h1 : v / (2 : α) ^ (Int.log 2 v + 1 - ((k + 1 : Nat) : Int)) ≤
        (((2 : Int) ^ (k + 1) : Int) : α) := by
      rw [div_le_iff₀ hu, significand_high]
      exact (lt_zpow_log_succ v).le
    have h2 := roundNearestEven_mono _ _ h1
    rw [roundNearestEven_intCast] at h2
    have h3 : (roundNearestEven (v / (2 : α) ^ (Int.log 2 v + 1 - ((k + 1 : Nat) : Int))) : α) ≤
        (((2 : Int) ^ (k + 1) : Int) : α) :=
      Int.cast_le.mpr h2
    rw [hrb, ← significand_high k (Int.log 2 v)]
    exact mul_le_mul_of_nonneg_right h3 hu.le

/-- A negative value is rounded within its binade. -/
theorem roundBinary_neg_bounds (k : Nat) (v : α) (hv : v < 0) :
    -(2 : α) ^ (Int.log 2 (-v) + 1) ≤ roundBinary (k + 1) v ∧
      roundBinary (k + 1) v ≤ -(2 : α) ^ Int.log 2 (-v) := by
  have hu : 0 < (2 : α) ^ (Int.log 2 (-v) + 1 - ((k + 1 : Nat) : Int)) :=
    zpow_pos (by norm_num) _
  have hrb : roundBinary (k + 1) v =
      (roundNearestEven (v / (2 : α) ^ (Int.log 2 (-v) + 1 - ((k + 1 : Nat) : Int))) : α) *
        (2 : α) ^ (Int.log 2 (-v) + 1 - ((k + 1 : Nat) : Int)) := by
    unfold roundBinary
    rw [if_neg hv.ne, abs_of_neg hv]
  have hpos : 0 < -v := neg_pos.mpr hv
  constructor
  · have h1 : ((-((2 : Int) ^ (k + 1)) : Int) : α) ≤
        v / (2 : α) ^ (Int.log 2 (-v) + 1 - ((k + 1 : Nat) : Int)) := by
      rw [le_div_iff₀ hu, Int.cast_neg, neg_mul, significand_high]
      have := (lt_zpow_log_succ (-v)).le
      linarith
    have h2 := roundNearestEven_mono _ _ h1
    rw [roundNearestEven_intCast] at h2
    have h3 : ((-((2 : Int) ^ (k + 1)) : Int) : α) ≤
        (roundNearestEven (v / (2 : α) ^ (Int.log 2 (-v) + 1 - ((k + 1 : Nat) : Int))) : α) :=
      Int.cast_le.mpr h2
    have h4 := mul_le_mul_of_nonneg_right h3 hu.le
    rw [Int.cast_neg, neg_mul, significand_high] at h4
    rw [hrb]
    exact h4
  · have h1 : v / (2 : α) ^ (Int.log 2 (-v) + 1 - ((k + 1 : Nat) : Int)) ≤
        ((-((2 : Int) ^ k) : Int) : α) := by
      rw [div_le_iff₀ hu, Int.cast_neg, neg_mul, significand_low]
      have := zpow_log_le (-v) hpos
      linarith
    have h2 := roundNearestEven_mono _ _ h1
    rw [roundNearestEven_intCast] at h2
    have h3 : (roundNearestEven (v / (2 : α) ^ (Int.log 2 (-v) + 1 - ((k + 1 : Nat) : Int))) : α) ≤
        ((-((2 : Int) ^ k) : Int) : α) :=
      Int.cast_le.mpr h2
    have h4 := mul_le_mul_of_nonneg_right h3 hu.le
    rw [Int.cast_neg, neg_mul, significand_low] at h4
    rw [hrb]
    exact h4

theorem roundBinary_mono_pos (k : Nat) (v w : α) (hv : 0 < v) (h : v ≤ w) :
    roundBinary (k + 1) v ≤ roundBinary (k + 1) w := by
  have hw : 0 < w := lt_of_lt_of_le hv h
  have hlog : Int.log 2 v ≤ Int.log 2 w := Int.log_mono_right hv h
  rcases lt_or_eq_of_le hlog with hlt | heq
  · calc roundBinary (k + 1) v ≤ (2 : α) ^ (Int.log 2 v + 1) := (roundBinary_pos_bounds k v hv).2
      _ ≤ (2 : α) ^ Int.log 2 w := zpow_le_zpow_right₀ (by norm_num) (by omega)
      _ ≤ roundBinary (k + 1) w := (roundBinary_pos_bounds k w hw).1
  · unfold roundBinary
    rw [if_neg hv.ne', if_neg hw.ne', abs_of_pos hv, abs_of_pos hw, heq]
    have hu : 0 < (2 : α) ^ (Int.log 2 w + 1 - ((k + 1 : Nat) : Int)) :=
      zpow_pos (by norm_num) _
    apply mul_le_mul_of_nonneg_right _ hu.le
    apply Int.cast_le.mpr
    apply roundNearestEven_mono
    exact div_le_div_of_nonneg_right h hu.le

theorem roundBinary_mono_neg (k : Nat) (v w : α) (hw : w < 0) (h : v ≤ w) :
    roundBinary (k + 1) v ≤ roundBinary (k + 1) w := by
  have hv : v < 0 := lt_of_le_of_lt h hw
  have hlog : Int.log 2 (-w) ≤ Int.log 2 (-v) :=
    Int.log_mono_right (neg_pos.mpr hw) (neg_le_neg h)
  rcases lt_or_eq_of_le hlog with hlt | heq
  · have h1 : (2 : α) ^ (Int.log 2 (-w) + 1) ≤ (2 : α) ^ Int.log 2 (-v) :=
      zpow_le_zpow_right₀ (by norm_num) (by omega)
    calc roundBinary (k + 1) v ≤ -(2 : α) ^ Int.log 2 (-v) := (roundBinary_neg_bounds k v hv).2
      _ ≤ -(2 : α) ^ (Int.log 2 (-w) + 1) := neg_le_neg h1
      _ ≤ roundBinary (k + 1) w := (roundBinary_neg_bounds k w hw).1
  · unfold roundBinary
    rw [if_neg hv.ne, if_neg hw.ne, abs_of_neg hv, abs_of_neg hw, heq]
    have hu : 0 < (2 : α) ^ (Int.log 2 (-v) + 1 - ((k + 1 : Nat) : Int)) :=
      zpow_pos (by norm_num) _
    apply mul_le_mul_of_nonneg_right _ hu.le
    apply Int.cast_le.mpr
    apply roundNearestEven_mono
    exact div_le_div_of_nonneg_right h hu.le

/-- Rounding to a binary format keeps the order. -/
theorem roundBinary_monotone (k : Nat) : Monotone (roundBinary (k + 1) : α → α) := by
  intro v w h
  have hz : ∀ e : Int, (0 : α) < (2 : α) ^ e := fun e => zpow_pos (by norm_num) e
  rcases lt_trichotomy w 0 with hw | hw | hw
  · exact roundBinary_mono_neg k v w hw h
  · rw [hw, roundBinary_zero]
    rcases lt_or_eq_of_le (hw ▸ h) with hv | hv
    · have := (roundBinary_neg_bounds k v hv).2
      have := hz (Int.log 2 (-v))
      linarith
    · rw [hv, roundBinary_zero]
  · rcases lt_trichotomy v 0 with hv | hv | hv
    · have h1 := (roundBinary_neg_bounds k v hv).2
      have h2 := hz (Int.log 2 (-v))
      have h3 := (roundBinary_pos_bounds k w hw).1
      have h4 := hz (Int.log 2 w)
      linarith
    · rw [hv, roundBinary_zero]
      have h3 := (roundBinary_pos_bounds k w hw).1
      have h4 := hz (Int.log 2 w)
      linarith
    · exact roundBinary_mono_pos k v w hv h

theorem roundFloat_monotone : Monotone (roundFloat : α → α) :=
  roundBinary_monotone 23

/-! ## Values of the rounding -/

/-- A value with a whole significand in its binade is kept. -/
theorem roundBinary_exact (precision : Nat) (v : α) (e n : Int)
    (hlo : (2 : α) ^ e ≤ |v|) (hhi : |v| < (2 : α) ^ (e + 1))
    (hn : v = (n : α) * (2 : α) ^ (e + 1 - (precision : Int))) :
    roundBinary precision v = v := by
  have hu : (2 : α) ^ (e + 1 - (precision : Int)) ≠ 0 := (zpow_pos (by norm_num) _).ne'
  rw [roundBinary_of_log precision v e n hlo hhi]
  · exact hn.symm
  · have h : v / (2 : α) ^ (e + 1 - (precision : Int)) = (n : α) := by
      rw [div_eq_iff hu]
      exact hn
    rw [h, roundNearestEven_intCast]

theorem roundBinary_of_log_pos (precision : Nat) (v : α) (e n : Int)
    (hlo : (2 : α) ^ e ≤ v) (hhi : v < (2 : α) ^ (e + 1))
    (hn : roundNearestEven (v / (2 : α) ^ (e + 1 - (precision : Int))) = n) :
    roundBinary precision v = (n : α) * (2 : α) ^ (e + 1 - (precision : Int)) := by
  have hpos : 0 < v := lt_of_lt_of_le (zpow_pos (by norm_num) e) hlo
  apply roundBinary_of_log precision v e n _ _ hn
  · rw [abs_of_pos hpos]
    exact hlo
  · rw [abs_of_pos hpos]
    exact hhi

theorem roundBinary_exact_pos (precision : Nat) (v : α) (e n : Int)
    (hlo : (2 : α) ^ e ≤ v) (hhi : v < (2 : α) ^ (e + 1))
    (hn : v = (n : α) * (2 : α) ^ (e + 1 - (precision : Int))) :
    roundBinary precision v = v := by
  have hpos : 0 < v := lt_of_lt_of_le (zpow_pos (by norm_num) e) hlo
  apply roundBinary_exact precision v e n _ _ hn
  · rw [abs_of_pos hpos]
    exact hlo
  · rw [abs_of_pos hpos]
    exact hhi

theorem roundFloat_zero : roundFloat (0 : α) = 0 :=
  roundBinary_zero 24

theorem roundFloat_one : roundFloat (1 : α) = 1 :=
  roundBinary_exact_pos 24 1 0 8388608 (by norm_num) (by norm_num) (by norm_num)

theorem roundFloat_neg_one : roundFloat (-1 : α) = -1 :=
  roundBinary_exact 24 (-1) 0 (-8388608) (by norm_num) (by norm_num) (by norm_num)

theorem roundFloat_two : roundFloat (2 : α) = 2 :=
  roundBinary_exact_pos 24 2 1 8388608 (by norm_num) (by norm_num) (by norm_num)

theorem roundFloat_four : roundFloat (4 : α) = 4 :=
  roundBinary_exact_pos 24 4 2 8388608 (by norm_num) (by norm_num) (by norm_num)

theorem roundFloat_half : roundFloat (1 / 2 : α) = 1 / 2 :=
  roundBinary_exact_pos 24 (1 / 2) (-1) 8388608 (by norm_num) (by norm_num) (by norm_num)

theorem roundFloat_mult : roundFloat (199 / 2 : α) = 199 / 2 :=
  roundBinary_exact_pos 24 (199 / 2) 6 13041664 (by norm_num) (by norm_num) (by norm_num)

/-- The greatest `float` below `1`, `1 - 2^-24`, printed `0.99999994`. -/
theorem roundFloat_below_one : roundFloat (16777215 / 16777216 : α) = 16777215 / 16777216 :=
  roundBinary_exact_pos 24 (16777215 / 16777216) (-1) 16777215 (by norm_num) (by norm_num)
    (by norm_num)

/-- The sum `1 + (1 - 2^-24)` lies half-way between the `float` values `2 - 2^-23` and
`2`; the significand of `2` is even, and the sum is rounded to `2`. -/
theorem roundFloat_tie_two : roundFloat (33554431 / 16777216 : α) = 2 := by
  unfold roundFloat
  rw [roundBinary_of_log_pos 24 (33554431 / 16777216 : α) 0 16777216 (by norm_num) (by norm_num)]
  · norm_num
  · have h : (33554431 / 16777216 : α) / (2 : α) ^ ((0 : Int) + 1 - ((24 : Nat) : Int)) =
        ((16777215 : Int) : α) + 1 / 2 := by
      norm_num
    rw [h, roundNearestEven_tie]
    norm_num

/-- The `float` nearest to `0.7` is `11744051 / 2^24`. -/
theorem roundFloat_seven_tenths : roundFloat (7 / 10 : α) = 11744051 / 16777216 := by
  unfold roundFloat
  rw [roundBinary_of_log_pos 24 (7 / 10 : α) (-1) 11744051 (by norm_num) (by norm_num)]
  · norm_num
  · apply roundNearestEven_of_near <;> norm_num

/-- The product `40000 * 0.7f = 27999.9995...` is rounded to the `float` `28000`. -/
theorem roundFloat_threshold :
    roundFloat ((40000 : α) * (11744051 / 16777216)) = 28000 := by
  unfold roundFloat
  rw [roundBinary_of_log_pos 24 ((40000 : α) * (11744051 / 16777216)) 14 14336000 (by norm_num)
    (by norm_num)]
  · norm_num
  · apply roundNearestEven_of_near <;> norm_num

/-- Rounding to `float` is a rounding in the sense of `IsRounding`. -/
theorem isRounding_roundFloat : IsRounding (roundFloat : α → α) :=
  ⟨roundFloat_monotone, roundFloat_zero, roundFloat_one, roundFloat_mult⟩

end Rounding

section GridLocationFloat

variable {α : Type} [LinearOrderedField α]

/-! ## `getGridLocation` in `float` -/

/-- Without rounding the `float` model is the exact one. -/
theorem getGridLocationFloat_id [FloorRing α] (p : PSphere α) (location : Vector3 α) :
    getGridLocationFloat id id p location = getGridLocation p location := by
  unfold getGridLocationFloat getGridLocation breakTiesFloat breakTies cellIndexFloat cellIndex
    Vector3.scaleFloat Vector3.scale
  simp only [id]

/-- The location `(1, 1 - 2^-24, 0)` has no tied components and is left as it is. -/
theorem breakTiesFloat_near_edge :
    breakTiesFloat roundFloat roundDouble (⟨1, 16777215 / 16777216, 0⟩ : Vector3 ℚ) =
      ⟨1, 16777215 / 16777216, 0⟩ := by
  have h2 : |(16777215 / 16777216 : ℚ)| = 16777215 / 16777216 := abs_of_pos (by norm_num)
  unfold breakTiesFloat
  simp only [abs_one, abs_zero, h2]
  norm_num

/-- In `float` the sum `1.0f + x_f` for `x_f = 1 - 2^-24` is `2.0f`, and the index is the
size of the grid. -/
theorem cellIndexFloat_below_one :
    cellIndexFloat roundFloat (16777215 / 16777216 : ℚ) 4 = 4 := by
  unfold cellIndexFloat toUShort
  have h1 : (1 : ℚ) + 16777215 / 16777216 = 33554431 / 16777216 := by norm_num
  have h2 : ((4 : ℕ) : ℚ) = 4 := by norm_num
  have h3 : (2 : ℚ) / 2 = 1 := by norm_num
  have h4 : (1 : ℚ) * 4 = 4 := by norm_num
  rw [h1, roundFloat_tie_two, h3, roundFloat_one, h2, roundFloat_four, h4, roundFloat_four]
  have hf : Int.floor (4 : ℚ) = 4 := by
    rw [Int.floor_eq_iff]
    norm_num
  rw [if_pos (by norm_num), hf]
  rfl

theorem cellIndexFloat_zero : cellIndexFloat roundFloat (0 : ℚ) 4 = 2 := by
  unfold cellIndexFloat toUShort
  have h1 : (1 : ℚ) + 0 = 1 := by norm_num
  have h2 : ((4 : ℕ) : ℚ) = 4 := by norm_num
  have h4 : (1 / 2 : ℚ) * 4 = 2 := by norm_num
  rw [h1, roundFloat_one, roundFloat_half, h2, roundFloat_four, h4, roundFloat_two]
  have hf : Int.floor (2 : ℚ) = 2 := by
    rw [Int.floor_eq_iff]
    norm_num
  rw [if_pos (by norm_num), hf]
  rfl

/-- C20, the failing input: for the location `(1.0f, 0.99999994f, 0.0f)`, which has no
tied components, and grids of size `4`, `getGridLocation` in `float` selects `gridXP` with
`x_f = 1 - 2^-24`; the sum `1.0f + x_f` is rounded to `2.0f` and the function returns
`ix = 4`, the size of the grid, where exact arithmetic gives `ix = 3`. -/
theorem getGridLocationFloat_index_outside_grid :
    getGridLocationFloat roundFloat roundDouble (examplePlanet ℚ)
        ⟨1, 16777215 / 16777216, 0⟩ = some (Face.gridXP, 4, 2) ∧
      ¬ (4 < (examplePlanet ℚ).gridXP.size) ∧
      getGridLocation (examplePlanet ℚ) ⟨1, 16777215 / 16777216, 0⟩ =
        some (Face.gridXP, 3, 2) := by
  refine ⟨?_, by decide, ?_⟩
  · have h2 : |(16777215 / 16777216 : ℚ)| = 16777215 / 16777216 := abs_of_pos (by norm_num)
    have hs : (examplePlanet ℚ).gridXP.size = 4 := rfl
    have hx : (1 : ℚ) > 16777215 / 16777216 ∧ (1 : ℚ) > 0 := by norm_num
    have h5 : (1 : ℚ) / 1 = 1 := by norm_num
    have h6 : (16777215 / 16777216 : ℚ) * 1 = 16777215 / 16777216 := by norm_num
    have h7 : ¬ ((1 : ℚ) < 0) := by norm_num
    unfold getGridLocationFloat
    simp only [breakTiesFloat_near_edge, abs_one, abs_zero, h2, hx, and_self, if_true,
      Vector3.scaleFloat, h5, roundFloat_one, mul_one, zero_mul, roundFloat_zero, h6,
      roundFloat_below_one, h7, if_false, hs, cellIndexFloat_below_one, cellIndexFloat_zero]
  · have h2 : |(16777215 / 16777216 : ℚ)| = 16777215 / 16777216 := abs_of_pos (by norm_num)
    have hs : (examplePlanet ℚ).gridXP.size = 4 := rfl
    have hb : breakTies (⟨1, 16777215 / 16777216, 0⟩ : Vector3 ℚ) =
        ⟨1, 16777215 / 16777216, 0⟩ := by
      unfold breakTies
      simp only [abs_one, abs_zero, h2]
      norm_num
    have hx : (1 : ℚ) > 16777215 / 16777216 ∧ (1 : ℚ) > 0 := by norm_num
    have h7 : ¬ ((1 : ℚ) < 0) := by norm_num
    have hi : cellIndex (16777215 / 16777216 : ℚ) 4 = 3 := by
      unfold cellIndex toUShort
      have hv : ((1 : ℚ) + 16777215 / 16777216) / 2 * ((4 : ℕ) : ℚ) = 33554431 / 8388608 := by
        norm_num
      have hf : Int.floor (33554431 / 8388608 : ℚ) = 3 := by
        rw [Int.floor_eq_iff]
        norm_num
      rw [hv, if_pos (by norm_num), hf]
      rfl
    have hj : cellIndex (0 : ℚ) 4 = 2 := by
      unfold cellIndex toUShort
      have hv : ((1 : ℚ) + 0) / 2 * ((4 : ℕ) : ℚ) = 2 := by norm_num
      have hf : Int.floor (2 : ℚ) = 2 := by
        rw [Int.floor_eq_iff]
        norm_num
      rw [hv, if_pos (by norm_num), hf]
      rfl
    unfold getGridLocation
    simp only [hb, abs_one, abs_zero, h2, hx, and_self, if_true, Vector3.scale, div_one,
      mul_one, zero_mul, h7, if_false, hs, hi, hj]

end GridLocationFloat

section SeaLevelFloat

variable {α : Type} [LinearOrderedField α]

/-! ## `calculateSeaLevel` in `float` -/

theorem testHeightsFloat_length (fl : α → α) (heightNoise : List α → List α → Vector3 α → α)
    (testVec : Nat → Vector3 α) (p : PSphere α) :
    (testHeightsFloat fl heightNoise testVec p).length = TESTVECS := by
  simp [testHeightsFloat]

/-- In `float` as well the slot of a height between the minimum and the maximum is below
`BRACKETS`: the rounded quotient is at most `1` and the rounded product at most `99.5`. -/
theorem slotOfFloat_lt_BRACKETS [FloorRing α] (fl : α → α) (hfl : IsRounding fl)
    (minElev maxElev h : α) (h1 : minElev ≤ h) (h2 : h ≤ maxElev) :
    slotOfFloat fl minElev maxElev h < BRACKETS := by
  obtain ⟨hmono, hzero, hone, hmult⟩ := hfl
  have ha0 : 0 ≤ fl (h - minElev) := by
    have := hmono (sub_nonneg.mpr h1)
    rwa [hzero] at this
  have hab : fl (h - minElev) ≤ fl (maxElev - minElev) := hmono (by linarith)
  have hb0 : 0 ≤ fl (maxElev - minElev) := le_trans ha0 hab
  have hq0 : 0 ≤ fl (h - minElev) / fl (maxElev - minElev) := div_nonneg ha0 hb0
  have hq1 : fl (h - minElev) / fl (maxElev - minElev) ≤ 1 := by
    rcases eq_or_lt_of_le hb0 with hb | hb
    · rw [← hb, div_zero]
      exact zero_le_one
    · rw [div_le_one hb]
      exact hab
  have hr0 : 0 ≤ fl (fl (h - minElev) / fl (maxElev - minElev)) := by
    have := hmono hq0
    rwa [hzero] at this
  have hr1 : fl (fl (h - minElev) / fl (maxElev - minElev)) ≤ 1 := by
    have := hmono hq1
    rwa [hone] at this
  have hs0 : 0 ≤ fl (fl (fl (h - minElev) / fl (maxElev - minElev)) * (199 / 2)) := by
    have h3 : (0 : α) ≤ fl (fl (h - minElev) / fl (maxElev - minElev)) * (199 / 2) :=
      mul_nonneg hr0 (by norm_num)
    have := hmono h3
    rwa [hzero] at this
  have hs1 : fl (fl (fl (h - minElev) / fl (maxElev - minElev)) * (199 / 2)) ≤ 199 / 2 := by
    have h3 : fl (fl (h - minElev) / fl (maxElev - minElev)) * (199 / 2) ≤ (199 / 2 : α) := by
      calc fl (fl (h - minElev) / fl (maxElev - minElev)) * (199 / 2)
          ≤ 1 * (199 / 2 : α) := mul_le_mul_of_nonneg_right hr1 (by norm_num)
        _ = 199 / 2 := one_mul _
    have := hmono h3
    rwa [hmult] at this
  unfold slotOfFloat toUInt BRACKETS
  rw [mult_eq, if_pos hs0]
  have hf0 : 0 ≤ Int.floor (fl (fl (fl (h - minElev) / fl (maxElev - minElev)) * (199 / 2))) :=
    Int.floor_nonneg.mpr hs0
  have hf1 : Int.floor (fl (fl (fl (h - minElev) / fl (maxElev - minElev)) * (199 / 2))) <
      100 := by
    rw [Int.floor_lt]
    have : fl (fl (fl (h - minElev) / fl (maxElev - minElev)) * (199 / 2)) < (100 : α) :=
      lt_of_le_of_lt hs1 (by norm_num)
    exact_mod_cast this
  omega

theorem fillHistogramFloat_some [FloorRing α] (fl : α → α) (minElev maxElev : α) (l : List α)
    (hist : List Nat) (hlen : hist.length = BRACKETS)
    (hs : ∀ h ∈ l, slotOfFloat fl minElev maxElev h < BRACKETS) :
    ∃ histogram, fillHistogramFloat fl minElev maxElev l hist = some histogram ∧
      histogram.length = BRACKETS ∧ histogram.sum = hist.sum + l.length := by
  induction l generalizing hist with
  | nil => exact ⟨hist, rfl, hlen, by simp⟩
  | cons a t ih =>
    have ha := hs a (List.mem_cons_self a t)
    have ht : ∀ h ∈ t, slotOfFloat fl minElev maxElev h < BRACKETS :=
      fun h hh => hs h (List.mem_cons_of_mem a hh)
    obtain ⟨histogram, h1, h2, h3⟩ :=
      ih (hist.set (slotOfFloat fl minElev maxElev a)
          (hist.getD (slotOfFloat fl minElev maxElev a) 0 + 1))
        (by simpa using hlen) ht
    refine ⟨histogram, ?_, h2, ?_⟩
    · simp only [fillHistogramFloat, if_pos ha]
      exact h1
    · rw [h3, sum_set_succ hist _ (by rw [hlen]; exact ha)]
      simp only [List.length_cons]
      omega

theorem fillHistogramFloat_getD [FloorRing α] (fl : α → α) (minElev maxElev : α) (l : List α)
    (hist : List Nat) (hlen : hist.length = BRACKETS) (filled : List Nat)
    (h : fillHistogramFloat fl minElev maxElev l hist = some filled) (k : Nat) :
    filled.getD k 0 =
      hist.getD k 0 + l.countP (fun t => decide (slotOfFloat fl minElev maxElev t = k)) := by
  induction l generalizing hist with
  | nil =>
    simp only [fillHistogramFloat, Option.some.injEq] at h
    rw [← h]
    simp
  | cons a t ih =>
    simp only [fillHistogramFloat] at h
    split_ifs at h with hs
    rw [ih _ (by simpa using hlen) h, getD_set_succ hist _ k (by rw [hlen]; exact hs),
      List.countP_cons]
    by_cases hk : k = slotOfFloat fl minElev maxElev a
    · have hk2 : slotOfFloat fl minElev maxElev a = k := hk.symm
      simp only [hk, if_true, decide_True]
      omega
    · have hk2 : ¬ slotOfFloat fl minElev maxElev a = k := fun he => hk he.symm
      simp only [hk, hk2, if_false, decide_False]
      simp

/-- For a rounding `fl` the function returns; slot `k` of its histogram counts the test
heights whose slot is `k`, and the sea level is the elevation of the index at which the
scan with the rounded threshold ends. -/
theorem calculateSeaLevelFloat_counts [FloorRing α] (fl : α → α) (hfl : IsRounding fl)
    (heightNoise : List α → List α → Vector3 α → α)
    (testVec : Nat → Vector3 α) (p : PSphere α) :
    ∃ histogram : List Nat, histogram.length = BRACKETS ∧ histogram.sum = TESTVECS ∧
      (∀ k, histogram.getD k 0 = (testHeightsFloat fl heightNoise testVec p).countP
        (fun t => decide (slotOfFloat fl (minElevOf (testHeightsFloat fl heightNoise testVec p))
          (maxElevOf (testHeightsFloat fl heightNoise testVec p)) t = k))) ∧
      ∀ seaFraction : α, calculateSeaLevelFloat fl heightNoise testVec p seaFraction =
        some { p with
          minimumHeight := minElevOf (testHeightsFloat fl heightNoise testVec p)
          maximumHeight := maxElevOf (testHeightsFloat fl heightNoise testVec p)
          seaHeight := seaHeightOfFloat fl
            (scanSlots histogram (fl ((TESTVECS : α) * seaFraction)) BRACKETS 0 0)
            (minElevOf (testHeightsFloat fl heightNoise testVec p))
            (maxElevOf (testHeightsFloat fl heightNoise testVec p)) } := by
  obtain ⟨histogram, h1, h2, h3⟩ :=
    fillHistogramFloat_some fl (minElevOf (testHeightsFloat fl heightNoise testVec p))
      (maxElevOf (testHeightsFloat fl heightNoise testVec p))
      (testHeightsFloat fl heightNoise testVec p)
      (List.replicate BRACKETS 0) (by simp)
      (fun h hh => slotOfFloat_lt_BRACKETS fl hfl _ _ h (minElevOf_le_mem _ h hh)
        (mem_le_maxElevOf _ h hh))
  refine ⟨histogram, h2, ?_, ?_, ?_⟩
  · rw [h3, testHeightsFloat_length]
    simp
  · intro k
    rw [fillHistogramFloat_getD fl _ _ _ _ (by simp) histogram h1 k]
    simp
  · intro seaFraction
    unfold calculateSeaLevelFloat
    simp only [h1]

/-- Without rounding the `float` model is the exact one. -/
theorem calculateSeaLevelFloat_id [FloorRing α] (heightNoise : List α → List α → Vector3 α → α)
    (testVec : Nat → Vector3 α) (p : PSphere α) (seaFraction : α) :
    calculateSeaLevelFloat id heightNoise testVec p seaFraction =
      calculateSeaLevel heightNoise testVec p seaFraction := by
  have hfill : ∀ (minElev maxElev : α) (l : List α) (hist : List Nat),
      fillHistogramFloat id minElev maxElev l hist = fillHistogram minElev maxElev l hist := by
    intro minElev maxElev l
    induction l with
    | nil => intro hist; rfl
    | cons a t ih =>
      intro hist
      simp only [fillHistogramFloat, fillHistogram, slotOfFloat, slotOf, id, ih]
  have hheights : testHeightsFloat id heightNoise testVec p = testHeights heightNoise testVec p := by
    simp only [testHeightsFloat, testHeights, Vector3.addFloat, Vector3.add, id]
  unfold calculateSeaLevelFloat calculateSeaLevel
  simp only [hheights, hfill, seaHeightOfFloat, seaHeightOf, id]

end SeaLevelFloat

section SeaLevelFloatClaims

variable {α : Type} [LinearOrderedField α]

/-! ## The example with `28000` heights `-1` and `12000` heights `1` -/

theorem countP_lt_range (n k : Nat) :
    (List.range n).countP (fun i => decide (i < k)) = min n k := by
  induction n with
  | zero => simp
  | succ n ih =>
    rw [List.range_succ, List.countP_append, ih]
    by_cases h : n < k
    · simp only [List.countP_cons, List.countP_nil, h, decide_True, if_true]
      omega
    · simp only [List.countP_cons, List.countP_nil, h, decide_False]
      simp only [Bool.false_eq_true, if_false]
      omega

/-- The heights of the example: `-1` for the first `28000` test vectors and `1` for the
others. -/
theorem split_heights :
    testHeightsFloat roundFloat (exampleNoise ℚ) (splitTestVec ℚ) (examplePlanet ℚ) =
      (List.range TESTVECS).map (fun i => if i < 28000 then (-1 : ℚ) else 1) := by
  unfold testHeightsFloat
  apply List.map_congr_left
  intro i _
  by_cases hi : i < 28000
  · simp only [exampleNoise, splitTestVec, examplePlanet, Vector3.addFloat, hi, if_true,
      add_zero, roundFloat_neg_one]
  · simp only [exampleNoise, splitTestVec, examplePlanet, Vector3.addFloat, hi, if_false,
      add_zero, roundFloat_one]

theorem split_minElev :
    minElevOf (testHeightsFloat roundFloat (exampleNoise ℚ) (splitTestVec ℚ)
      (examplePlanet ℚ)) = -1 := by
  rw [split_heights]
  apply le_antisymm
  · apply minElevOf_le_mem
    exact List.mem_map.mpr ⟨0, List.mem_range.mpr (by unfold TESTVECS; norm_num), by simp⟩
  · unfold minElevOf
    apply le_foldl_min
    · norm_num
    · intro h hh
      obtain ⟨i, _, rfl⟩ := List.mem_map.mp hh
      split_ifs <;> norm_num

theorem split_maxElev :
    maxElevOf (testHeightsFloat roundFloat (exampleNoise ℚ) (splitTestVec ℚ)
      (examplePlanet ℚ)) = 1 := by
  rw [split_heights]
  apply le_antisymm
  · unfold maxElevOf
    apply foldl_max_le
    · norm_num
    · intro h hh
      obtain ⟨i, _, rfl⟩ := List.mem_map.mp hh
      split_ifs <;> norm_num
  · apply mem_le_maxElevOf
    exact List.mem_map.mpr ⟨28000, List.mem_range.mpr (by unfold TESTVECS; norm_num), by simp⟩

theorem split_min_lt_max :
    minElevOf (testHeightsFloat roundFloat (exampleNoise ℚ) (splitTestVec ℚ)
        (examplePlanet ℚ)) <
      maxElevOf (testHeightsFloat roundFloat (exampleNoise ℚ) (splitTestVec ℚ)
        (examplePlanet ℚ)) := by
  rw [split_minElev, split_maxElev]
  norm_num

theorem split_slot_low : slotOfFloat roundFloat (-1 : ℚ) 1 (-1) = 0 := by
  unfold slotOfFloat toUInt
  have h1 : (-1 : ℚ) - -1 = 0 := by norm_num
  have h2 : (1 : ℚ) - -1 = 2 := by norm_num
  rw [h1, h2, roundFloat_zero, roundFloat_two, zero_div, roundFloat_zero, zero_mul,
    roundFloat_zero]
  simp

theorem split_slot_top : slotOfFloat roundFloat (-1 : ℚ) 1 1 = 99 := by
  unfold slotOfFloat toUInt
  have h2 : (1 : ℚ) - -1 = 2 := by norm_num
  have h3 : (2 : ℚ) / 2 = 1 := by norm_num
  rw [h2, roundFloat_two, h3, roundFloat_one, one_mul, mult_eq, roundFloat_mult]
  have hf : Int.floor (199 / 2 : ℚ) = 99 := by
    rw [Int.floor_eq_iff]
    norm_num
  rw [if_pos (by norm_num), hf]
  rfl

/-- The sea level of the example at index `99` is the maximum. -/
theorem split_seaHeight : seaHeightOfFloat roundFloat 99 (-1 : ℚ) 1 = 1 := by
  unfold seaHeightOfFloat BRACKETS
  have h1 : ((99 : ℕ) : ℚ) / ((100 - 1 : ℕ) : ℚ) = 1 := by norm_num
  have h2 : (1 : ℚ) - -1 = 2 := by norm_num
  have h3 : (1 : ℚ) * 2 = 2 := by norm_num
  have h4 : (2 : ℚ) + -1 = 1 := by norm_num
  rw [h1, h2, roundFloat_one, roundFloat_two, h3, roundFloat_two, h4, roundFloat_one]

/-- In the example slot `0` holds `28000` heights and the slots `1` to `98` none. -/
theorem split_counts (histogram : List Nat)
    (hcount : ∀ k, histogram.getD k 0 =
      (testHeightsFloat roundFloat (exampleNoise ℚ) (splitTestVec ℚ) (examplePlanet ℚ)).countP
        (fun t => decide (slotOfFloat roundFloat (-1 : ℚ) 1 t = k))) :
    histogram.getD 0 0 = 28000 ∧ ∀ k, 1 ≤ k → k < 99 → histogram.getD k 0 = 0 := by
  constructor
  · rw [hcount 0, split_heights, List.countP_map]
    have hc : (List.range TESTVECS).countP
        ((fun t => decide (slotOfFloat roundFloat (-1 : ℚ) 1 t = 0)) ∘
          (fun i => if i < 28000 then (-1 : ℚ) else 1)) =
        (List.range TESTVECS).countP (fun i => decide (i < 28000)) := by
      apply List.countP_congr
      intro i _
      by_cases hi : i < 28000
      · simp [hi, split_slot_low]
      · simp [hi, split_slot_top]
    rw [hc, countP_lt_range]
    unfold TESTVECS
    rfl
  · intro k hk1 hk2
    rw [hcount k, split_heights, List.countP_map]
    apply List.countP_eq_zero.mpr
    intro i _
    by_cases hi : i < 28000
    · simp only [Function.comp, hi, if_true, split_slot_low, decide_eq_true_eq]
      omega
    · simp only [Function.comp, hi, if_false, split_slot_top, decide_eq_true_eq]
      omega

theorem split_slotSum (histogram : List Nat) (h0 : histogram.getD 0 0 = 28000)
    (hz : ∀ k, 1 ≤ k → k < 99 → histogram.getD k 0 = 0) (j : Nat) (hj : j < 99) :
    slotSum histogram 0 (j + 1) = 28000 := by
  induction j with
  | zero => rw [slotSum_succ_right, slotSum_zero_zero, h0]
  | succ j ih =>
    rw [slotSum_succ_right, ih (by omega), hz (j + 1) (by omega) hj]

/-- C22, as amended: for a rounding `fl` of `float` and test heights with
`minElev < maxElev`, `calculateSeaLevel` returns with `seaHeight` the `float` value of
`i / (BRACKETS - 1) * (maxElev - minElev) + minElev`, where slot `k` of the histogram
counts the test heights of slot `k`, and `i` is the least index whose cumulative count
`hist[0] + ... + hist[i]` exceeds the rounded product `fl (TESTVECS * waterFraction)`
(every cumulative count through an index below `i` is at most that threshold), and
`i = BRACKETS` exactly when no index satisfies it. -/
theorem calculateSeaLevelFloat_quantile [FloorRing α] (fl : α → α)
    (heightNoise : List α → List α → Vector3 α → α)
    (testVec : Nat → Vector3 α) (p : PSphere α) (waterFraction : α)
    (hfl : IsRounding fl)
    (hlt : minElevOf (testHeightsFloat fl heightNoise testVec p) <
      maxElevOf (testHeightsFloat fl heightNoise testVec p)) :
    ∃ (histogram : List Nat) (i : Nat) (q : PSphere α),
      calculateSeaLevelFloat fl heightNoise testVec p waterFraction = some q ∧
      histogram.length = BRACKETS ∧ histogram.sum = TESTVECS ∧
      (∀ k, histogram.getD k 0 = (testHeightsFloat fl heightNoise testVec p).countP
        (fun t => decide (slotOfFloat fl (minElevOf (testHeightsFloat fl heightNoise testVec p))
          (maxElevOf (testHeightsFloat fl heightNoise testVec p)) t = k))) ∧
      q.minimumHeight = minElevOf (testHeightsFloat fl heightNoise testVec p) ∧
      q.maximumHeight = maxElevOf (testHeightsFloat fl heightNoise testVec p) ∧
      q.seaHeight =
        fl (fl (fl ((i : α) / ((BRACKETS - 1 : Nat) : α)) *
          fl (q.maximumHeight - q.minimumHeight)) + q.minimumHeight) ∧
      i ≤ BRACKETS ∧
      (i < BRACKETS →
        fl ((TESTVECS : α) * waterFraction) < ((slotSum histogram 0 (i + 1) : Nat) : α)) ∧
      (∀ j, j < i →
        ((slotSum histogram 0 (j + 1) : Nat) : α) ≤ fl ((TESTVECS : α) * waterFraction)) ∧
      (i = BRACKETS ↔ ∀ j, j < BRACKETS →
        ((slotSum histogram 0 (j + 1) : Nat) : α) ≤ fl ((TESTVECS : α) * waterFraction)) := by
  have _ := hlt
  obtain ⟨histogram, hlen, hsum, hcount, hcalc⟩ :=
    calculateSeaLevelFloat_counts fl hfl heightNoise testVec p
  obtain ⟨h1, h2, h3⟩ :=
    scanSlots_least_zero histogram (fl ((TESTVECS : α) * waterFraction)) BRACKETS
  refine ⟨histogram, scanSlots histogram (fl ((TESTVECS : α) * waterFraction)) BRACKETS 0 0, _,
    hcalc waterFraction, hlen, hsum, hcount, rfl, rfl, rfl, h1, h2, h3, ?_⟩
  constructor
  · intro he j hj
    exact h3 j (by rw [he]; exact hj)
  · intro hall
    rcases Nat.eq_or_lt_of_le h1 with he | hl
    · exact he
    · exact absurd (h2 hl) (not_lt.mpr (hall _ hl))

/-- Witness for C22 as amended: rounding to `float`, the example with `28000` heights `-1`
and `12000` heights `1`, and the water fraction `0.7f`. -/
theorem calculateSeaLevelFloat_quantile_witness :
    ∃ (histogram : List Nat) (i : Nat) (q : PSphere ℚ),
      calculateSeaLevelFloat roundFloat (exampleNoise ℚ) (splitTestVec ℚ) (examplePlanet ℚ)
        (roundFloat (7 / 10)) = some q ∧
      histogram.length = BRACKETS ∧ histogram.sum = TESTVECS ∧
      (∀ k, histogram.getD k 0 =
        (testHeightsFloat roundFloat (exampleNoise ℚ) (splitTestVec ℚ)
          (examplePlanet ℚ)).countP
        (fun t => decide (slotOfFloat roundFloat
          (minElevOf (testHeightsFloat roundFloat (exampleNoise ℚ) (splitTestVec ℚ)
            (examplePlanet ℚ)))
          (maxElevOf (testHeightsFloat roundFloat (exampleNoise ℚ) (splitTestVec ℚ)
            (examplePlanet ℚ))) t = k))) ∧
      q.minimumHeight = minElevOf (testHeightsFloat roundFloat (exampleNoise ℚ)
        (splitTestVec ℚ) (examplePlanet ℚ)) ∧
      q.maximumHeight = maxElevOf (testHeightsFloat roundFloat (exampleNoise ℚ)
        (splitTestVec ℚ) (examplePlanet ℚ)) ∧
      q.seaHeight =
        roundFloat (roundFloat (roundFloat ((i : ℚ) / ((BRACKETS - 1 : Nat) : ℚ)) *
          roundFloat (q.maximumHeight - q.minimumHeight)) + q.minimumHeight) ∧
      i ≤ BRACKETS ∧
      (i < BRACKETS →
        roundFloat ((TESTVECS : ℚ) * roundFloat (7 / 10)) <
          ((slotSum histogram 0 (i + 1) : Nat) : ℚ)) ∧
      (∀ j, j < i →
        ((slotSum histogram 0 (j + 1) : Nat) : ℚ) ≤
          roundFloat ((TESTVECS : ℚ) * roundFloat (7 / 10))) ∧
      (i = BRACKETS ↔ ∀ j, j < BRACKETS →
        ((slotSum histogram 0 (j + 1) : Nat) : ℚ) ≤
          roundFloat ((TESTVECS : ℚ) * roundFloat (7 / 10))) :=
  calculateSeaLevelFloat_quantile roundFloat (exampleNoise ℚ) (splitTestVec ℚ)
    (examplePlanet ℚ) (roundFloat (7 / 10)) isRounding_roundFloat split_min_lt_max

/-- C22, counterexample: `28000` test heights `-1`, `12000` test heights `1` and the
water fraction `0.7f = 11744051 / 2^24`.  Slot `0` holds `28000` heights, more than the
exact product `40000 * 0.7f = 27999.9995...`, so the least index of the claim is `0` and
its sea level is `minElev = -1`.  The source compares with the `float` product, which
is `28000`: the count `28000` does not exceed it, the scan goes on to slot `99` and the
sea level is `maxElev = 1`. -/
theorem calculateSeaLevelFloat_not_exact_quantile :
    ∃ (histogram : List Nat) (q : PSphere ℚ),
      calculateSeaLevelFloat roundFloat (exampleNoise ℚ) (splitTestVec ℚ) (examplePlanet ℚ)
        (roundFloat (7 / 10)) = some q ∧
      (∀ k, histogram.getD k 0 =
        (testHeightsFloat roundFloat (exampleNoise ℚ) (splitTestVec ℚ)
          (examplePlanet ℚ)).countP
        (fun t => decide (slotOfFloat roundFloat (-1 : ℚ) 1 t = k))) ∧
      q.minimumHeight = -1 ∧ q.maximumHeight = 1 ∧
      (TESTVECS : ℚ) * roundFloat (7 / 10) < ((slotSum histogram 0 (0 + 1) : Nat) : ℚ) ∧
      roundFloat ((TESTVECS : ℚ) * roundFloat (7 / 10)) = 28000 ∧
      scanSlots histogram (roundFloat ((TESTVECS : ℚ) * roundFloat (7 / 10))) BRACKETS 0 0 = 99 ∧
      q.seaHeight = 1 ∧
      ¬ (q.seaHeight = q.minimumHeight +
        ((0 : Nat) : ℚ) / ((BRACKETS - 1 : Nat) : ℚ) * (q.maximumHeight - q.minimumHeight)) := by
  obtain ⟨histogram, hlen, hsum, hcount, hcalc⟩ :=
    calculateSeaLevelFloat_counts roundFloat isRounding_roundFloat (exampleNoise ℚ)
      (splitTestVec ℚ) (examplePlanet ℚ)
  rw [split_minElev, split_maxElev] at hcount
  obtain ⟨h0, hz⟩ := split_counts histogram hcount
  have hthr : roundFloat ((TESTVECS : ℚ) * roundFloat (7 / 10)) = 28000 := by
    rw [roundFloat_seven_tenths]
    unfold TESTVECS
    exact roundFloat_threshold
  have hall : slotSum histogram 0 (99 + 1) = TESTVECS := by
    have h := slotSum_zero_eq_sum histogram
    rw [hlen, hsum] at h
    exact h
  obtain ⟨h1, h2, h3⟩ :=
    scanSlots_least_zero histogram (roundFloat ((TESTVECS : ℚ) * roundFloat (7 / 10))) BRACKETS
  have hscan :
      scanSlots histogram (roundFloat ((TESTVECS : ℚ) * roundFloat (7 / 10))) BRACKETS 0 0 =
        99 := by
    rcases Nat.lt_trichotomy
      (scanSlots histogram (roundFloat ((TESTVECS : ℚ) * roundFloat (7 / 10))) BRACKETS 0 0) 99
      with hl | he | hg
    · exfalso
      have h4 := h2 (lt_of_lt_of_le hl (by unfold BRACKETS; norm_num))
      rw [split_slotSum histogram h0 hz _ hl, hthr] at h4
      norm_num at h4
    · exact he
    · exfalso
      have h4 := h3 99 hg
      rw [hall, hthr] at h4
      unfold TESTVECS at h4
      norm_num at h4
  have hsea : seaHeightOfFloat roundFloat
      (scanSlots histogram (roundFloat ((TESTVECS : ℚ) * roundFloat (7 / 10))) BRACKETS 0 0)
      (-1 : ℚ) 1 = 1 := by
    rw [hscan]
    exact split_seaHeight
  refine ⟨histogram, _, hcalc (roundFloat (7 / 10)), hcount, split_minElev, split_maxElev,
    ?_, hthr, hscan, ?_, ?_⟩
  · rw [split_slotSum histogram h0 hz 0 (by norm_num), roundFloat_seven_tenths]
    unfold TESTVECS
    norm_num
  · show seaHeightOfFloat roundFloat _ _ _ = 1
    rw [split_minElev, split_maxElev]
    exact hsea
  · show ¬ (seaHeightOfFloat roundFloat _ _ _ = _)
    simp only [split_minElev, split_maxElev, hsea]
    norm_num

end SeaLevelFloatClaims


end PlanetGenerator
